import Mathlib

/-!
# Doppel: world reconciliation, proximity indicator, speech bubbles and transport client

A shallow embedding of `archive/game-ui/src/scenes/networkingWorld.js`,
`archive/game-ui/src/components/agent.js`, `archive/game-ui/src/components/speechBubble.js`,
`archive/game-ui/src/websocket.js`, `archive/game-ui/src/api.js` and
`archive/game-ui/src/config.js`.

Modelling choices.

* A JavaScript string is the sequence of its UTF-16 code units (`JsString`); string
  comparison, `sort`, `join` and `includes` work on code units, as in ECMAScript.
* A JavaScript number is an exact rational (`ℚ`). `Math.max`, `Math.min`, `<`, `-`, `+`
  and `*` are the rational operations; `Math.sqrt` is a parameter of every definition that
  uses it (`sqrt : ℚ → ℚ`), so the theorems hold for every implementation of it.
* The movement of a sprite in a frame (lines 428-435) is the one computation whose result
  is kept and computed on again, frame after frame. Its arithmetic is that of the doubles
  of ECMAScript: the result of `-`, `*`, `+` or `/` is the exact result rounded to the
  nearest number of 53 significant bits, ties to even (`roundDouble`). The exponent range
  is not bounded: no number of the scene comes near the limits of the double range.
* Game objects (sprites, bubbles) and sockets live in a heap: a list indexed by the handle
  of the object. `destroy()` sets the `destroyed` flag of the heap cell. A `Map` is an
  association list in insertion order, a `Set` a list in insertion order.
* A callback that is left with a timer (`k.wait`, `k.tween`, `setTimeout`) is recorded in
  the state, and its body is a function of the state that an event applies. The calls of
  the callbacks that a `WorldWebSocket` is given are recorded in the instance.
* `JSON.parse` is outside the source: a frame is given by what `JSON.parse` makes of it.
* The engine delivers a click to a game object that exists (created and not destroyed); what
  it does to the objects of a scene that is left is outside the source.
* Purely visual state (colours, opacities, label texts) is not modelled.
-/

namespace Doppel

/-! ## Strings -/

/-- An ECMAScript string value: a finite sequence of UTF-16 code units. -/
abbrev JsString := List Nat

/-- The UTF-16 code units of one Unicode scalar value. -/
def codeUnits (c : Char) : List Nat :=
  if c.toNat < 65536 then [c.toNat]
  else [55296 + (c.toNat - 65536) / 1024, 56320 + (c.toNat - 65536) % 1024]

/-- The string value of a literal. -/
def js (s : String) : JsString :=
  s.toList.flatMap codeUnits

/-- The abstract relational comparison `a < b` of two string values: lexicographic on the
code units. -/
def strLt : JsString → JsString → Bool
  | [], [] => false
  | [], _ :: _ => true
  | _ :: _, [] => false
  | a :: as, b :: bs => if a < b then true else if b < a then false else strLt as bs

/-- The result of `[a, b].sort()`: the default comparator swaps the two elements exactly when
the second is smaller than the first. -/
def sort2 (a b : JsString) : List JsString :=
  if strLt b a then [b, a] else [a, b]

/-- The method `Array.prototype.join`. -/
def join (sep : JsString) : List JsString → JsString
  | [] => []
  | [x] => x
  | x :: y :: rest => x ++ sep ++ join sep (y :: rest)

/-- The method `String.prototype.includes`: `search` occurs in `k` as a substring. -/
def includes (k search : JsString) : Bool :=
  k.tails.any fun t => search.isPrefixOf t

/-- The key of a pair of agents, `[agent1.agentId, agent2.agentId].sort().join('-')`
(networkingWorld.js, line 466). -/
def pairKey (id1 id2 : JsString) : JsString :=
  join (js "-") (sort2 id1 id2)

/-! ## Configuration (config.js) -/

/-- The record `WORLD_CONFIG`. -/
structure WorldConfig where
  width : ℚ
  height : ℚ
  backgroundColor : List Nat
deriving DecidableEq

/-- The constant `WORLD_CONFIG` of config.js. -/
def WORLD_CONFIG : WorldConfig :=
  { width := 1200, height := 800, backgroundColor := [15, 15, 25] }

/-- The constant `MOVE_SPEED` of the scene. -/
def MOVE_SPEED : ℚ := 3

/-- The constant `PROXIMITY_THRESHOLD` of the scene. -/
def PROXIMITY_THRESHOLD : ℚ := 100

/-! ## Data model -/

/-- One agent record of a `world_state` message. -/
structure AgentData where
  agent_id : JsString
  name : JsString
  agent_type : JsString
  x : ℚ
  y : ℚ
  state : JsString
deriving DecidableEq

/-- The payload of a `world_state` message. -/
structure WorldState where
  agents : List AgentData
  active_conversations : List JsString
deriving DecidableEq

/-- The game object built by `createAgentSprite`, with the custom fields of agent.js
(lines 15-24), its position and whether `destroy()` was called on it. -/
structure AgentSprite where
  agentId : JsString
  agentName : JsString
  agentType : JsString
  posX : ℚ
  posY : ℚ
  targetX : ℚ
  targetY : ℚ
  isTalking : Bool
  isSelected : Bool
  destroyed : Bool
deriving DecidableEq

/-- The game object built by `createSpeechBubble`: its position and whether `destroy()` was
called on it. -/
structure Bubble where
  posX : ℚ
  posY : ℚ
  destroyed : Bool
deriving DecidableEq

/-- The state owned by `initNetworkingWorld`: the closure variables `agents`,
`activeBubbles`, `selectedAgent` and `activeConversations`, and the two heaps of game
objects that the handles in them point into. -/
structure World where
  sprites : List AgentSprite
  bubbles : List Bubble
  agents : List (JsString × Nat)
  activeBubbles : List (JsString × Nat)
  selectedAgent : Option Nat
  activeConversations : List JsString
deriving DecidableEq

/-- The state when the module is initialised: empty maps, no selection, empty set. -/
def World.init : World :=
  { sprites := [], bubbles := [], agents := [], activeBubbles := [],
    selectedAgent := none, activeConversations := [] }

/-! ## Heap and `Map` primitives -/

/-- Apply `f` to the heap cell of handle `h`. -/
def modifyAt {α : Type} (l : List α) (h : Nat) (f : α → α) : List α :=
  match l[h]? with
  | some a => l.set h (f a)
  | none => l

/-- The method `Map.prototype.has`. -/
def mapHas (m : List (JsString × Nat)) (key : JsString) : Bool :=
  m.any fun e => e.1 == key

/-- The method `Map.prototype.get`. -/
def mapGet (m : List (JsString × Nat)) (key : JsString) : Option Nat :=
  (m.find? fun e => e.1 == key).map Prod.snd

/-- The method `Map.prototype.delete`. -/
def mapDelete (m : List (JsString × Nat)) (key : JsString) : List (JsString × Nat) :=
  m.filter fun e => e.1 != key

/-- The method `Map.prototype.set`: an existing key keeps its place, a new key is appended. -/
def mapSet (m : List (JsString × Nat)) (key : JsString) (v : Nat) : List (JsString × Nat) :=
  if mapHas m key then m.map fun e => if e.1 == key then (key, v) else e
  else m ++ [(key, v)]

/-- The keys of a `Map`, in insertion order. -/
def mapKeys (m : List (JsString × Nat)) : List JsString :=
  m.map Prod.fst

/-- The values of a `Map`, in insertion order (`[...agents.values()]`). -/
def mapValues (m : List (JsString × Nat)) : List Nat :=
  m.map Prod.snd

/-! ## agent.js -/

/-- The function `createAgentSprite`: a new game object at the position of `agentData`,
with that position as target, not talking, not selected. Returns the new heap and the
handle of the new object. -/
def createAgentSprite (sprites : List AgentSprite) (agentData : AgentData) :
    List AgentSprite × Nat :=
  (sprites ++ [{ agentId := agentData.agent_id
                 agentName := agentData.name
                 agentType := agentData.agent_type
                 posX := agentData.x
                 posY := agentData.y
                 targetX := agentData.x
                 targetY := agentData.y
                 isTalking := false
                 isSelected := false
                 destroyed := false }], sprites.length)

/-- The function `updateAgentPosition` (agent.js, lines 139-145): the target moves only when
the sprite is not selected; the talking flag follows the reported state. The colour that
lines 147-158 assign is not modelled. -/
def updateAgentPosition (agent : AgentSprite) (newX newY : ℚ) (state : JsString) :
    AgentSprite :=
  let agent1 :=
    if !agent.isSelected then { agent with targetX := newX, targetY := newY } else agent
  { agent1 with isTalking := state == js "talking" }

/-! ## networkingWorld.js: `updateAgents` -/

/-- The horizontal clamp of line 351. -/
def adjustedX (x : ℚ) : ℚ :=
  max 80 (min x (WORLD_CONFIG.width - 380))

/-- The vertical clamp of line 352. -/
def adjustedY (y : ℚ) : ℚ :=
  max 120 (min y (WORLD_CONFIG.height - 120))

/-- The body of the removal loop (lines 332-346) for one entry of `agents`: when the
identifier is not in the snapshot, the selection is cleared if it is this sprite (334-338),
the sprite is destroyed (339) and unregistered (340), and a registered bubble is destroyed
and unregistered (341-344). -/
def removeStale (currentAgentIds : List JsString) (w : World) (entry : JsString × Nat) :
    World :=
  let agentId := entry.1
  let agentSprite := entry.2
  if agentId ∉ currentAgentIds then
    { selectedAgent := if w.selectedAgent = some agentSprite then none else w.selectedAgent
      sprites := modifyAt w.sprites agentSprite fun s => { s with destroyed := true }
      agents := mapDelete w.agents agentId
      bubbles :=
        match mapGet w.activeBubbles agentId with
        | some b => modifyAt w.bubbles b fun x => { x with destroyed := true }
        | none => w.bubbles
      activeBubbles :=
        if mapHas w.activeBubbles agentId then mapDelete w.activeBubbles agentId
        else w.activeBubbles
      activeConversations := w.activeConversations }
  else w

/-- The body of the update-or-create loop (lines 349-372) for one record of the snapshot.
A tracked identifier has its sprite updated: through `updateAgentPosition` when the sprite
is not selected, in its talking flag alone when it is. An untracked identifier gets a new
sprite at the clamped position, registered under the identifier. -/
def upsertAgent (w : World) (agentData : AgentData) : World :=
  let ax := adjustedX agentData.x
  let ay := adjustedY agentData.y
  match mapGet w.agents agentData.agent_id with
  | some sprite =>
    { w with
      sprites := modifyAt w.sprites sprite fun s =>
        if !s.isSelected then updateAgentPosition s ax ay agentData.state
        else { s with isTalking := agentData.state == js "talking" } }
  | none =>
    let adjustedAgentData := { agentData with x := ax, y := ay }
    let r := createAgentSprite w.sprites adjustedAgentData
    { w with sprites := r.1, agents := mapSet w.agents agentData.agent_id r.2 }

/-- The function `updateAgents` (lines 328-373). The removal loop visits every entry that
`agents` holds when it starts: deleting the entry being visited does not disturb the
iteration of a `Map`. -/
def updateAgents (w : World) (worldState : WorldState) : World :=
  let currentAgentIds := worldState.agents.map AgentData.agent_id
  let w1 := w.agents.foldl (removeStale currentAgentIds) w
  worldState.agents.foldl upsertAgent w1

/-! ## Double arithmetic -/

/-- The number of halvings that bring `n` below 2, at most `fuel` of them. -/
def log2Fuel : Nat → Nat → Nat
  | 0, _ => 0
  | fuel + 1, n => if 2 ≤ n then log2Fuel fuel (n / 2) + 1 else 0

/-- The binary logarithm of a positive natural number, rounded down. -/
def natLog2 (n : Nat) : Nat :=
  log2Fuel n n

/-- The power `2 ^ k`, for an integer `k`. -/
def pow2 (k : Int) : ℚ :=
  if 0 ≤ k then ((2 ^ k.toNat : Nat) : ℚ) else 1 / ((2 ^ (-k).toNat : Nat) : ℚ)

/-- The binary logarithm of a positive rational, rounded down: the `k` with
`2 ^ k ≤ q < 2 ^ (k + 1)`. The logarithms of the numerator and the denominator give it up
to one, and a comparison decides. -/
def floorLog2 (q : ℚ) : Int :=
  let k0 : Int := (natLog2 q.num.toNat : Int) - (natLog2 q.den : Int) - 1
  if pow2 (k0 + 1) ≤ q then k0 + 1 else k0

/-- The integer nearest to `q`, the even one of the two when `q` is halfway between two. -/
def roundHalfEven (q : ℚ) : Int :=
  let f := ⌊q⌋
  if q - f < 1 / 2 then f
  else if 1 / 2 < q - f then f + 1
  else if f % 2 = 0 then f else f + 1

/-- The Number value for `q`: the nearest number that has 53 significant bits, the one with
an even significand when `q` is halfway between two (round to nearest, ties to even). A
number other than 0 is scaled by the power of two that brings its magnitude into
`[2 ^ 52, 2 ^ 53)`, rounded to an integer, and scaled back. -/
def roundDouble (q : ℚ) : ℚ :=
  if q = 0 then 0
  else
    let e := floorLog2 |q| - 52
    roundHalfEven (q / pow2 e) * pow2 e

/-- The operator `+` on doubles. -/
def fadd (a b : ℚ) : ℚ :=
  roundDouble (a + b)

/-- The operator `-` on doubles. -/
def fsub (a b : ℚ) : ℚ :=
  roundDouble (a - b)

/-- The operator `*` on doubles. -/
def fmul (a b : ℚ) : ℚ :=
  roundDouble (a * b)

/-- The operator `/` on doubles, for a divisor other than 0. -/
def fdiv (a b : ℚ) : ℚ :=
  roundDouble (a / b)

/-! ## networkingWorld.js: the frame update -/

/-- The movement of one sprite in a frame (lines 427-437), in double arithmetic:
`(dx / dist) * MOVE_SPEED` is added to each coordinate when the distance that the frame
computes is greater than 2. The two targets of a sprite are numbers from its creation on,
so the test of line 427 that they are defined holds. -/
def moveSprite (sqrt : ℚ → ℚ) (s : AgentSprite) : AgentSprite :=
  let dx := fsub s.targetX s.posX
  let dy := fsub s.targetY s.posY
  let dist := sqrt (fadd (fmul dx dx) (fmul dy dy))
  if dist > 2 then
    { s with posX := fadd s.posX (fmul (fdiv dx dist) MOVE_SPEED)
             posY := fadd s.posY (fmul (fdiv dy dist) MOVE_SPEED) }
  else s

/-- The body of the movement loop of the frame callback (lines 425-444) for one entry of
`agents`: the sprite moves, and a registered bubble follows it, 70 above. -/
def moveAgent (sqrt : ℚ → ℚ) (w : World) (entry : JsString × Nat) : World :=
  let agentId := entry.1
  let sprite := entry.2
  let sprites1 := modifyAt w.sprites sprite (moveSprite sqrt)
  { w with
    sprites := sprites1
    bubbles :=
      match mapGet w.activeBubbles agentId, sprites1[sprite]? with
      | some b, some s =>
        modifyAt w.bubbles b fun x => { x with posX := s.posX, posY := s.posY - 70 }
      | _, _ => w.bubbles }

/-- The pairs `(agentList[i], agentList[j])` with `i < j`, in the order in which the nested
loops of lines 454-455 visit them. -/
def pairs : List Nat → List (Nat × Nat)
  | [] => []
  | a :: rest => (rest.map fun b => (a, b)) ++ pairs rest

/-- The value `distance` of lines 462-464. -/
def distance (sqrt : ℚ → ℚ) (agent1 agent2 : AgentSprite) : ℚ :=
  let dx := agent1.posX - agent2.posX
  let dy := agent1.posY - agent2.posY
  sqrt (dx * dx + dy * dy)

/-- The test `[...activeConversations].some(k => k.includes(id))` of lines 479-480. -/
def hasOtherConvo (activeConversations : List JsString) (id : JsString) : Bool :=
  activeConversations.any fun k => includes k id

/-- The sprite heap after `agent.isTalking = value` on the sprite of handle `h`. -/
def setTalking (sprites : List AgentSprite) (h : Nat) (value : Bool) : List AgentSprite :=
  modifyAt sprites h fun s => { s with isTalking := value }

/-- The body of the nested loops of `checkProximityForConversations` (lines 456-484) for one
pair of sprites. A pair of equal type is skipped (460). A pair of differing type that is
nearer than the threshold and not yet active becomes active and both sprites talk
(468-474); one that is not nearer and is active stops being active, and each of the two
sprites stops talking unless a remaining key includes its identifier (475-483). -/
def checkPair (sqrt : ℚ → ℚ) (w : World) (p : Nat × Nat) : World :=
  match w.sprites[p.1]?, w.sprites[p.2]? with
  | some agent1, some agent2 =>
    if agent1.agentType = agent2.agentType then w
    else
      let pairKey := pairKey agent1.agentId agent2.agentId
      if distance sqrt agent1 agent2 < PROXIMITY_THRESHOLD then
        if pairKey ∉ w.activeConversations then
          { w with
            activeConversations := w.activeConversations ++ [pairKey]
            sprites := setTalking (setTalking w.sprites p.1 true) p.2 true }
        else w
      else
        if pairKey ∈ w.activeConversations then
          let convs := w.activeConversations.filter fun k => k != pairKey
          let hasOtherConvo1 := hasOtherConvo convs agent1.agentId
          let hasOtherConvo2 := hasOtherConvo convs agent2.agentId
          let sprites1 := if !hasOtherConvo1 then setTalking w.sprites p.1 false else w.sprites
          let sprites2 := if !hasOtherConvo2 then setTalking sprites1 p.2 false else sprites1
          { w with activeConversations := convs, sprites := sprites2 }
        else w
  | _, _ => w

/-- The function `checkProximityForConversations` (lines 451-487). -/
def checkProximityForConversations (sqrt : ℚ → ℚ) (w : World) : World :=
  (pairs (mapValues w.agents)).foldl (checkPair sqrt) w

/-- The frame callback `k.onUpdate` (lines 424-448). -/
def onUpdate (sqrt : ℚ → ℚ) (w : World) : World :=
  checkProximityForConversations sqrt (w.agents.foldl (moveAgent sqrt) w)

/-! ## Runs -/

/-- What the scene reacts to: a `world_state` message, or a frame. -/
inductive Event where
  | worldState (data : WorldState)
  | frame
deriving DecidableEq

/-- The reaction of the scene to one event. -/
def step (sqrt : ℚ → ℚ) (w : World) : Event → World
  | .worldState data => updateAgents w data
  | .frame => onUpdate sqrt w

/-- The state after a sequence of events, from the initial state. -/
def run (sqrt : ℚ → ℚ) (events : List Event) : World :=
  events.foldl (step sqrt) World.init

/-! ## A square root to run the model with -/

/-- Newton iteration for the integer square root, from a guess that is not below it. -/
def sqrtIter (n : Nat) : Nat → Nat → Nat
  | 0, guess => guess
  | fuel + 1, guess =>
    let next := (guess + n / guess) / 2
    if next < guess then sqrtIter n fuel next else guess

/-- The integer square root. -/
def natSqrt (n : Nat) : Nat :=
  if n ≤ 1 then n else sqrtIter n n (n / 2)

/-- A square root on the rationals that is exact on the squares of rationals (and rounds
down, in units of the denominator, elsewhere; negative arguments give 0). -/
def sqrtQ (q : ℚ) : ℚ :=
  (natSqrt (q.num.toNat * q.den) : ℚ) / q.den

/-- The function `Math.sqrt` on doubles, correctly rounded: the number of 53 significant bits
nearest to the square root. The argument is scaled by a power of 4 into
`[2 ^ 104, 2 ^ 106)`, the integer square root of its integer part is the root rounded down,
and a comparison with the square of the midpoint decides between it and the next integer.
An argument that is not positive gives 0 (for a negative one the code gives `NaN`). -/
def sqrtDouble (q : ℚ) : ℚ :=
  if q ≤ 0 then 0
  else
    let e := (floorLog2 q - 104) / 2
    let x := q / pow2 (2 * e)
    let m := natSqrt ⌊x⌋.toNat
    let mid : ℚ := (m : ℚ) + 1 / 2
    let r : Nat :=
      if x < mid * mid then m
      else if mid * mid < x then m + 1
      else if m % 2 = 0 then m else m + 1
    (r : ℚ) * pow2 e

/-! ## networkingWorld.js: speech bubbles and the conversation log -/

/-- The field `turn` of a `conversation_turn` message, as far as the scene reads it. -/
structure Turn where
  speaker_name : JsString
  role : JsString
  content : JsString
  is_final : Bool
deriving DecidableEq

/-- One entry of `conversationLog` (line 219); `time` is the reading of `Date.now()`. -/
structure LogEntry where
  speakerName : JsString
  content : JsString
  role : JsString
  time : Nat
deriving DecidableEq

/-- A callback that the scene registered for a bubble: after `seconds`, for the sprite
`agent` and the bubble `bubble` that the closure holds. -/
structure BubbleTimer where
  seconds : ℚ
  agent : Nat
  bubble : Nat
deriving DecidableEq

/-- The state of the scene: the world, the conversation log, the callbacks pending in
`k.wait` (line 404) and the fade-out tweens that run (line 407). -/
structure Scene where
  world : World
  conversationLog : List LogEntry
  waits : List BubbleTimer
  tweens : List BubbleTimer
deriving DecidableEq

/-- The scene when it starts. -/
def Scene.init : Scene :=
  { world := World.init, conversationLog := [], waits := [], tweens := [] }

/-- The constant `maxLogEntries` (line 215). -/
def maxLogEntries : Nat := 8

/-- The function `addToLog` (lines 218-224): the entry goes to the front, and the last entry
is dropped when the log is longer than `maxLogEntries`. -/
def addToLog (s : Scene) (speakerName content role : JsString) (now : Nat) : Scene :=
  let log1 := { speakerName := speakerName, content := content, role := role, time := now }
    :: s.conversationLog
  { s with conversationLog := if log1.length > maxLogEntries then log1.dropLast else log1 }

/-- The function `showSpeechBubble` (lines 395-421) for the sprite of handle `agent`: the
bubble registered for the identifier of the sprite is destroyed (396-398), a new bubble is
created and placed 70 above the sprite (400-401), registered under the identifier (402), and
a callback is left with `k.wait` for 6 seconds later (404). -/
def showSpeechBubble (s : Scene) (agent : Nat) : Scene :=
  match s.world.sprites[agent]? with
  | some a =>
    let bubbles1 :=
      match mapGet s.world.activeBubbles a.agentId with
      | some old => modifyAt s.world.bubbles old fun x => { x with destroyed := true }
      | none => s.world.bubbles
    let bubble := bubbles1.length
    { s with
      world :=
        { s.world with
          bubbles := bubbles1 ++ [{ posX := a.posX, posY := a.posY - 70, destroyed := false }]
          activeBubbles := mapSet s.world.activeBubbles a.agentId bubble }
      waits := s.waits ++ [{ seconds := 6, agent := agent, bubble := bubble }] }
  | none => s

/-- The sprite of handle `h` has the type `role`: the filter of lines 378-380. -/
def hasRole (w : World) (role : JsString) (h : Nat) : Bool :=
  match w.sprites[h]? with
  | some a => a.agentType == role
  | none => false

/-- The sprite of handle `h` has the name `name`: the test of line 383. -/
def hasName (w : World) (name : JsString) (h : Nat) : Bool :=
  match w.sprites[h]? with
  | some a => a.agentName == name
  | none => false

/-- The function `handleConversationTurn` (lines 375-393): among the tracked sprites of the
role of the turn, the first one that has the name of the speaker gets a speech bubble, and
the turn goes to the log. `now` is the reading of `Date.now()` in `addToLog`. -/
def handleConversationTurn (s : Scene) (turn : Turn) (now : Nat) : Scene :=
  let speakingAgents := (mapValues s.world.agents).filter (hasRole s.world turn.role)
  if speakingAgents.length > 0 then
    match speakingAgents.find? (hasName s.world turn.speaker_name) with
    | some speaker =>
      addToLog (showSpeechBubble s speaker) turn.speaker_name turn.content turn.role now
    | none => s
  else s

/-- The callback that `showSpeechBubble` leaves with `k.wait(6, …)` (lines 404-420), for the
sprite and the bubble of its closure: when the bubble is still the one registered for the
identifier of the sprite, a fade-out tween of 0.3 seconds starts. -/
def bubbleWaitOver (s : Scene) (agent bubble : Nat) : Scene :=
  match s.world.sprites[agent]? with
  | some a =>
    if mapGet s.world.activeBubbles a.agentId = some bubble then
      { s with tweens := s.tweens ++ [{ seconds := 3 / 10, agent := agent, bubble := bubble }] }
    else s
  | none => s

/-- The callback `onEnd` of the fade-out tween (lines 411-418): the bubble is destroyed when
it exists, and unregistered when it is still the one registered for the identifier. -/
def fadeOutEnd (s : Scene) (agent bubble : Nat) : Scene :=
  match s.world.sprites[agent]? with
  | some a =>
    { s with
      world :=
        { s.world with
          bubbles :=
            match s.world.bubbles[bubble]? with
            | some x =>
              if !x.destroyed then
                modifyAt s.world.bubbles bubble fun x => { x with destroyed := true }
              else s.world.bubbles
            | none => s.world.bubbles
          activeBubbles :=
            if mapGet s.world.activeBubbles a.agentId = some bubble then
              mapDelete s.world.activeBubbles a.agentId
            else s.world.activeBubbles } }
  | none => s

/-! ## websocket.js -/

/-- A value that `JSON.parse` returns. The properties of an object have distinct names. -/
inductive Json where
  | null
  | bool (b : Bool)
  | number (n : ℚ)
  | string (s : JsString)
  | array (items : List Json)
  | object (properties : List (JsString × Json))

/-- The exceptions that the handler of a frame can meet. -/
inductive JsError where
  | SyntaxError
  | TypeError
deriving DecidableEq

/-- The property read `data.type`: a `TypeError` on `null`, the property of an object when
it has one, and `undefined` (here `none`) otherwise. -/
def Json.type : Json → Except JsError (Option Json)
  | .null => .error .TypeError
  | .object properties => .ok ((properties.find? fun p => p.1 == js "type").map Prod.snd)
  | _ => .ok none

/-- The test `value !== 'ping'`. -/
def notPing : Option Json → Bool
  | some (.string s) => s != js "ping"
  | _ => true

/-- The attribute `readyState` of a `WebSocket`. -/
inductive ReadyState where
  | CONNECTING
  | OPEN
  | CLOSING
  | CLOSED
deriving DecidableEq

/-- An instance of `WorldWebSocket`: its fields `ws`, `reconnectAttempts` and
`maxReconnectAttempts`, the sockets that `connect` has created (a handle is an index in
`sockets`), and what the instance has done to the outside: the arguments of the calls of
`onMessage`, the numbers of calls of `onError` and of `onClose`, and the delays of the
calls of `connect` that are pending in `setTimeout`. -/
structure WorldWebSocket where
  ws : Option Nat
  reconnectAttempts : Nat
  maxReconnectAttempts : Nat
  sockets : List ReadyState
  onMessageCalls : List Json
  onErrorCalls : Nat
  onCloseCalls : Nat
  timeouts : List Nat

/-- The constructor of `WorldWebSocket` (lines 4-11). -/
def WorldWebSocket.new : WorldWebSocket :=
  { ws := none, reconnectAttempts := 0, maxReconnectAttempts := 5, sockets := [],
    onMessageCalls := [], onErrorCalls := 0, onCloseCalls := 0, timeouts := [] }

/-- The method `connect` (lines 13-51): nothing when the current socket is open, else a new
socket, which becomes the current one. -/
def WorldWebSocket.connect (c : WorldWebSocket) : WorldWebSocket :=
  match c.ws with
  | some h =>
    if c.sockets[h]? = some ReadyState.OPEN then c
    else { c with sockets := c.sockets ++ [ReadyState.CONNECTING], ws := some c.sockets.length }
  | none => { c with sockets := c.sockets ++ [ReadyState.CONNECTING], ws := some c.sockets.length }

/-- The handler `onopen` (lines 20-23). -/
def WorldWebSocket.onopen (c : WorldWebSocket) : WorldWebSocket :=
  { c with reconnectAttempts := 0 }

/-- The body of the `try` of the handler `onmessage` (lines 27-30); `parsed` is what
`JSON.parse(event.data)` gives: a value, or `none` when it throws a `SyntaxError`. -/
def WorldWebSocket.onmessageTry (c : WorldWebSocket) (parsed : Option Json) :
    Except JsError WorldWebSocket :=
  match parsed with
  | none => .error .SyntaxError
  | some data =>
    match data.type with
    | .error e => .error e
    | .ok type =>
      if notPing type then .ok { c with onMessageCalls := c.onMessageCalls ++ [data] }
      else .ok c

/-- The handler `onmessage` (lines 25-34): what the `try` gives, and the instance as it was
when the `try` throws (the `catch` logs to the console). -/
def WorldWebSocket.onmessage (c : WorldWebSocket) (parsed : Option Json) :
    Except JsError WorldWebSocket :=
  match c.onmessageTry parsed with
  | .ok c1 => .ok c1
  | .error _ => .ok c

/-- The handler `onerror` (lines 36-39). -/
def WorldWebSocket.onerror (c : WorldWebSocket) : WorldWebSocket :=
  { c with onErrorCalls := c.onErrorCalls + 1 }

/-- The handler `onclose` (lines 41-50). -/
def WorldWebSocket.onclose (c : WorldWebSocket) : WorldWebSocket :=
  let c1 := { c with onCloseCalls := c.onCloseCalls + 1 }
  if c1.reconnectAttempts < c1.maxReconnectAttempts then
    { c1 with reconnectAttempts := c1.reconnectAttempts + 1, timeouts := c1.timeouts ++ [2000] }
  else c1

/-- The method `disconnect` (lines 53-58): the current socket is closed (it is `CLOSING`
until its close event, unless it is closed already) and the field `ws` is cleared. -/
def WorldWebSocket.disconnect (c : WorldWebSocket) : WorldWebSocket :=
  match c.ws with
  | some h =>
    { c with
      sockets := modifyAt c.sockets h fun r =>
        if r = ReadyState.CLOSED then ReadyState.CLOSED else ReadyState.CLOSING
      ws := none }
  | none => c

/-- What happens to an instance: a call of `connect` or of `disconnect`, a pending timeout
that runs, or an event of one of the sockets, for which the browser sets `readyState`
before it calls the handler. -/
inductive WsEvent where
  | connect
  | disconnect
  | timeout
  | socketOpen (socket : Nat)
  | socketMessage (socket : Nat) (parsed : Option Json)
  | socketError (socket : Nat)
  | socketClose (socket : Nat)

/-- The reaction of an instance to one event. An event of a socket that was never created
has no handler. -/
def wsStep (c : WorldWebSocket) : WsEvent → WorldWebSocket
  | .connect => c.connect
  | .disconnect => c.disconnect
  | .timeout =>
    match c.timeouts with
    | [] => c
    | _ :: rest => { c with timeouts := rest }.connect
  | .socketOpen socket =>
    if socket < c.sockets.length then
      { c with sockets := modifyAt c.sockets socket fun _ => ReadyState.OPEN }.onopen
    else c
  | .socketMessage socket parsed =>
    if socket < c.sockets.length then
      match c.onmessage parsed with
      | .ok c1 => c1
      | .error _ => c
    else c
  | .socketError socket => if socket < c.sockets.length then c.onerror else c
  | .socketClose socket =>
    if socket < c.sockets.length then
      { c with sockets := modifyAt c.sockets socket fun _ => ReadyState.CLOSED }.onclose
    else c

/-- The instance after a sequence of events, from its construction. -/
def wsRun (events : List WsEvent) : WorldWebSocket :=
  events.foldl wsStep WorldWebSocket.new

/-! ## api.js -/

/-- The constant `API_BASE_URL` of config.js. -/
def API_BASE_URL : JsString := js "http://127.0.0.1:8000"

/-- The URL that `getMatches` requests (lines 69-71). `minScore` is the number passed, or
`none` for the default `null`; `toString` is the conversion of a number in a template
literal. A number is truthy when it is not zero. -/
def getMatchesUrl (toString : ℚ → JsString) (minScore : Option ℚ) : JsString :=
  match minScore with
  | some m =>
    if m ≠ 0 then API_BASE_URL ++ js "/conversation/matches?min_score=" ++ toString m
    else API_BASE_URL ++ js "/conversation/matches"
  | none => API_BASE_URL ++ js "/conversation/matches"
/-! ## networkingWorld.js: selection, click-to-move and the scene -/

/-- The method `setSelected` of a sprite (agent.js, lines 132-134), on the sprite of handle
`h`. -/
def setSelected (sprites : List AgentSprite) (h : Nat) (selected : Bool) : List AgentSprite :=
  modifyAt sprites h fun s => { s with isSelected := selected }

/-- The function `handleAgentSelect` (lines 266-285): a previously selected sprite other than
`agent` is deselected (268-270); then `agent` is deselected and the selection cleared when
it was the selected one (273-277), and becomes the selected one otherwise (278-284). -/
def handleAgentSelect (w : World) (agent : Nat) : World :=
  let sprites1 :=
    match w.selectedAgent with
    | some previous => if previous ≠ agent then setSelected w.sprites previous false else w.sprites
    | none => w.sprites
  if w.selectedAgent = some agent then
    { w with sprites := setSelected sprites1 agent false, selectedAgent := none }
  else
    { w with sprites := setSelected sprites1 agent true, selectedAgent := some agent }

/-- The handler of a click on the canvas (lines 288-298), for the mouse position
`(mousePosX, mousePosY)`: the target of the selected sprite becomes the clamped position. -/
def onClick (w : World) (mousePosX mousePosY : ℚ) : World :=
  match w.selectedAgent with
  | some selected =>
    let targetX := max 80 (min (WORLD_CONFIG.width - 380) mousePosX)
    let targetY := max 120 (min (WORLD_CONFIG.height - 120) mousePosY)
    { w with
      sprites := modifyAt w.sprites selected fun s =>
        { s with targetX := targetX, targetY := targetY } }
  | none => w

/-- The state that the closures of `initNetworkingWorld` share: the scene, and the
connection `worldWs` (`none` is `null`). -/
structure NetworkingWorld where
  scene : Scene
  worldWs : Option WorldWebSocket

/-- The state when the callback of `k.scene` has run, before any event: nothing is tracked,
and the connection was constructed and asked to connect (lines 490-502). -/
def NetworkingWorld.start : NetworkingWorld :=
  { scene := Scene.init, worldWs := some WorldWebSocket.new.connect }

/-- The handler of `k.onSceneLeave` (lines 540-545): the connection, when there is one, is
asked to disconnect, and the selection is cleared. -/
def onSceneLeave (n : NetworkingWorld) : NetworkingWorld :=
  { scene := { n.scene with world := { n.scene.world with selectedAgent := none } }
    worldWs := n.worldWs.map WorldWebSocket.disconnect }

/-- The handler of the key `escape` (lines 301-310): the selected sprite is deselected and
the selection cleared; without a selection, `k.go('menu')` leaves the scene, which runs the
handler of `k.onSceneLeave`. What the engine does to the objects of a scene that is left is
outside the source. -/
def onEscape (n : NetworkingWorld) : NetworkingWorld :=
  match n.scene.world.selectedAgent with
  | some selected =>
    { n with
      scene :=
        { n.scene with
          world :=
            { n.scene.world with
              sprites := setSelected n.scene.world.sprites selected false
              selectedAgent := none } } }
  | none => onSceneLeave n

/-- What the scene reacts to: a `world_state` message, a `conversation_turn` message (`now`
is the reading of `Date.now()` when it is handled), a frame, a click on the sprite of a
handle, a click on the canvas at a mouse position, the key `escape`, the expiry of the
`i`-th pending `k.wait` of a bubble, the end of the `i`-th running fade-out tween. -/
inductive SceneEvent where
  | worldState (data : WorldState)
  | conversationTurn (turn : Turn) (now : Nat)
  | frame
  | agentClick (agent : Nat)
  | click (mousePosX mousePosY : ℚ)
  | escape
  | waitOver (i : Nat)
  | tweenEnd (i : Nat)
deriving DecidableEq

/-- The reaction of the scene to one event. The engine delivers a click to a sprite that
exists: one that was created and not destroyed; its handler (agent.js, lines 93-97) calls
`handleAgentSelect`. A timer that is not pending does not expire. -/
def sceneStep (sqrt : ℚ → ℚ) (n : NetworkingWorld) : SceneEvent → NetworkingWorld
  | .worldState data =>
    { n with scene := { n.scene with world := updateAgents n.scene.world data } }
  | .conversationTurn turn now =>
    { n with scene := handleConversationTurn n.scene turn now }
  | .frame =>
    { n with scene := { n.scene with world := onUpdate sqrt n.scene.world } }
  | .agentClick agent =>
    match n.scene.world.sprites[agent]? with
    | some a =>
      if a.destroyed then n
      else { n with scene := { n.scene with world := handleAgentSelect n.scene.world agent } }
    | none => n
  | .click mousePosX mousePosY =>
    { n with scene := { n.scene with world := onClick n.scene.world mousePosX mousePosY } }
  | .escape => onEscape n
  | .waitOver i =>
    match n.scene.waits[i]? with
    | some t =>
      { n with
        scene := bubbleWaitOver { n.scene with waits := n.scene.waits.eraseIdx i } t.agent t.bubble }
    | none => n
  | .tweenEnd i =>
    match n.scene.tweens[i]? with
    | some t =>
      { n with
        scene := fadeOutEnd { n.scene with tweens := n.scene.tweens.eraseIdx i } t.agent t.bubble }
    | none => n

/-- The state after a sequence of events, from the start of the scene. -/
def sceneRun (sqrt : ℚ → ℚ) (events : List SceneEvent) : NetworkingWorld :=
  events.foldl (sceneStep sqrt) NetworkingWorld.start

/-! ## speechBubble.js: `wrapText` -/

/-- The method `String.prototype.split` for a separator of one code unit: the pieces of the
string between the occurrences of the separator (one piece, the string itself, when there
is none). -/
def split (text : JsString) (separator : Nat) : List JsString :=
  match text with
  | [] => [[]]
  | c :: rest =>
    if c = separator then [] :: split rest separator
    else
      match split rest separator with
      | word :: words => (c :: word) :: words
      | [] => [[c]]

/-- The value `charsPerLine` of line 114, `Math.floor(maxWidth / (fontSize * 0.55))`, in
exact arithmetic. -/
def charsPerLine (maxWidth fontSize : ℚ) : Int :=
  ⌊maxWidth / (fontSize * (55 / 100))⌋

/-- The body of the loop of `wrapText` (lines 117-129) for one word, on the pair of `lines`
and `currentLine`. A string is truthy when it is not empty; `substring` takes a negative
index for 0. -/
def wrapWord (charsPerLine : Int) (st : List JsString × JsString) (word : JsString) :
    List JsString × JsString :=
  let lines := st.1
  let currentLine := st.2
  let testLine := if currentLine ≠ [] then currentLine ++ js " " ++ word else word
  if (testLine.length : Int) > charsPerLine then
    if currentLine ≠ [] then (lines ++ [currentLine], word)
    else (lines ++ [word.take charsPerLine.toNat], word.drop charsPerLine.toNat)
  else (lines, testLine)

/-- The function `wrapText` (lines 109-138). -/
def wrapText (text : JsString) (maxWidth fontSize : ℚ) : List JsString :=
  let words := split text 32
  let st := words.foldl (wrapWord (charsPerLine maxWidth fontSize)) ([], [])
  let lines := if st.2 ≠ [] then st.1 ++ [st.2] else st.1
  lines.take 5

/-! ## Predicates used in the statements and proofs -/

/-- Every entry of the sprite mapping points to a sprite of the heap whose `agentId` is the
key of the entry (the way `updateAgents` registers the sprites it creates). -/
def registeredUnderOwnId (w : World) : Bool :=
  w.agents.all fun e =>
    match w.sprites[e.2]? with
    | some s => s.agentId == e.1
    | none => false

/-- The sprite `t` has the fields of `s` that the update-or-create loop of `updateAgents`
never rewrites. -/
def sameIdentity (s t : AgentSprite) : Prop :=
  t.agentId = s.agentId ∧ t.agentName = s.agentName ∧ t.agentType = s.agentType ∧
    t.destroyed = s.destroyed ∧ t.isSelected = s.isSelected ∧ t.posX = s.posX ∧ t.posY = s.posY

/-- A sprite with its talking flag put aside: what a proximity check reads of it and never
writes. -/
def withoutTalking (s : AgentSprite) : AgentSprite :=
  { s with isTalking := false }

/-- What `checkPair` finds for a pair: nothing when a handle is dangling or the two types
are equal, else the key of the pair and whether the pair is nearer than the threshold. -/
def verdict (sqrt : ℚ → ℚ) (w : World) (p : Nat × Nat) : Option (JsString × Bool) :=
  match w.sprites[p.1]?, w.sprites[p.2]? with
  | some agent1, some agent2 =>
    if agent1.agentType = agent2.agentType then none
    else some (pairKey agent1.agentId agent2.agentId,
               decide (distance sqrt agent1 agent2 < PROXIMITY_THRESHOLD))
  | _, _ => none

/-- The key of a pair of sprites of differing type. -/
def differingKey (w : World) (p : Nat × Nat) : Option JsString :=
  match w.sprites[p.1]?, w.sprites[p.2]? with
  | some agent1, some agent2 =>
    if agent1.agentType = agent2.agentType then none
    else some (pairKey agent1.agentId agent2.agentId)
  | _, _ => none

/-- The keys of the pairs of tracked sprites of differing type, in the order of the check. -/
def differingPairKeys (w : World) : List JsString :=
  (pairs (mapValues w.agents)).filterMap (differingKey w)

/-- The sprite of handle `h` has its talking flag set, and the key `k` includes its
identifier. -/
def talkingWith (k : JsString) (w : World) (h : Nat) : Prop :=
  ∃ s, w.sprites[h]? = some s ∧ s.isTalking = true ∧ includes k s.agentId = true

/-- The pairs (identifier, type) that the snapshots of a run report. -/
def reported (events : List Event) : List (JsString × JsString) :=
  events.flatMap fun e =>
    match e with
    | .worldState data => data.agents.map fun a => (a.agent_id, a.agent_type)
    | .frame => []

/-- Every sprite of the heap was created for a record of `S`, and every active key is the
key of two records of `S` of differing type. -/
def fromRecords (S : List (JsString × JsString)) (w : World) : Prop :=
  (∀ s ∈ w.sprites, (s.agentId, s.agentType) ∈ S) ∧
  ∀ k ∈ w.activeConversations, ∃ x ∈ S, ∃ y ∈ S, x.2 ≠ y.2 ∧ k = pairKey x.1 y.1

/-- The type field of a parsed value, in the words of the specification: the property
`type` of an object that has one, and nothing for any other value. -/
def typeField : Json → Option Json
  | .object properties => (properties.find? fun p => p.1 == js "type").map Prod.snd
  | _ => none

/-- The value is `null`. -/
def Json.isNull : Json → Bool
  | .null => true
  | _ => false

/-- The value is the string `'ping'`. -/
def isPingString : Option Json → Bool
  | some (.string s) => s == js "ping"
  | _ => false

/-- The counter of an instance is within the ceiling, and the ceiling is 5. -/
def withinCeiling (c : WorldWebSocket) : Prop :=
  c.maxReconnectAttempts = 5 ∧ c.reconnectAttempts ≤ 5

/-- The sprite of handle `h` has the role and the name of the speaker of the turn. -/
def matchesTurn (w : World) (turn : Turn) (h : Nat) : Bool :=
  hasRole w turn.role h && hasName w turn.speaker_name h

/-- The value `dx * dx + dy * dy` of lines 428-430, in double arithmetic. -/
def sumOfSquares (s : AgentSprite) : ℚ :=
  fadd (fmul (fsub s.targetX s.posX) (fsub s.targetX s.posX))
    (fmul (fsub s.targetY s.posY) (fsub s.targetY s.posY))

/-- The value `dist` of lines 428-430: what the frame callback computes as the distance of
a sprite to its target. -/
def distToTarget (sqrt : ℚ → ℚ) (s : AgentSprite) : ℚ :=
  sqrt (sumOfSquares s)

/-- The value that `sqrt` gives for `x` is the square root of `x` up to the rounding of a
double: it is not negative and its square is within `x / 2 ^ 51` of `x`. A correctly rounded
square root is within `1 / 2 ^ 53` of the root, relatively, so its square is within
`x / 2 ^ 51` of `x`. -/
def accurateAt (sqrt : ℚ → ℚ) (x : ℚ) : Prop :=
  0 ≤ sqrt x ∧ |sqrt x * sqrt x - x| ≤ x / 2 ^ 51
/-- The identifier contains the character `'-'`. -/
def hasDash (id : JsString) : Bool :=
  includes id (js "-")

/-- One call of `addToLog`: its three arguments and the reading of `Date.now()` in it, which
make the entry that it adds. -/
def logCall (s : Scene) (c : LogEntry) : Scene :=
  addToLog s c.speakerName c.content c.role c.time

/-- The scene after a sequence of calls of `addToLog`, from the start of the scene. -/
def logCalls (calls : List LogEntry) : Scene :=
  calls.foldl logCall Scene.init

/-- Some tracked sprite has both the `agentType` that is the role of the turn and the
`agentName` that is the speaker name of the turn. -/
def namesTrackedSprite (w : World) (turn : Turn) : Prop :=
  ∃ h ∈ mapValues w.agents, ∃ a, w.sprites[h]? = some a ∧
    a.agentType = turn.role ∧ a.agentName = turn.speaker_name

/-- What the selection reads of a sprite: its identifier, whether it was destroyed, and its
selected flag. -/
def selectionView (s : AgentSprite) : JsString × Bool × Bool :=
  (s.agentId, s.destroyed, s.isSelected)

/-- The world `w'` has the sprite mapping and the selection handle of `w`, and a heap whose
sprites have the identifiers, the destroyed flags and the selected flags of those of `w`. -/
def sameSelection (w w' : World) : Prop :=
  w'.agents = w.agents ∧ w'.selectedAgent = w.selectedAgent ∧
    w'.sprites.map selectionView = w.sprites.map selectionView

/-- The sprite mapping and the selection are consistent: the mapping has one entry per key;
every entry points to a sprite that has the key as identifier and was not destroyed; every
sprite of the heap that was not destroyed is registered under its identifier; the selection
handle, when set, points to a sprite that was not destroyed; and a sprite that was not
destroyed has its selected flag set exactly when the selection handle points to it. -/
def selectionInv (w : World) : Prop :=
  (mapKeys w.agents).Nodup ∧
  (∀ e ∈ w.agents, ∃ s, w.sprites[e.2]? = some s ∧ s.agentId = e.1 ∧ s.destroyed = false) ∧
  (∀ (h : Nat) (s : AgentSprite), w.sprites[h]? = some s → s.destroyed = false →
    (s.agentId, h) ∈ w.agents) ∧
  (∀ h : Nat, w.selectedAgent = some h →
    ∃ s, w.sprites[h]? = some s ∧ s.destroyed = false) ∧
  (∀ (h : Nat) (s : AgentSprite), w.sprites[h]? = some s → s.destroyed = false →
    (s.isSelected = true ↔ w.selectedAgent = some h))

/-- The target of the sprite lies in the play area. -/
def inPlayArea (s : AgentSprite) : Prop :=
  80 ≤ s.targetX ∧ s.targetX ≤ 820 ∧ 120 ≤ s.targetY ∧ s.targetY ≤ 680

/-- Every sprite of the heap has its target in the play area. -/
def targetsInv (w : World) : Prop :=
  ∀ s ∈ w.sprites, inPlayArea s

/-- Every identifier that has a bubble registered is a key of the sprite mapping. -/
def bubblesInv (w : World) : Prop :=
  ∀ k ∈ mapKeys w.activeBubbles, k ∈ mapKeys w.agents

/-- The three properties that every state of a run of the scene has. -/
def sceneInv (n : NetworkingWorld) : Prop :=
  selectionInv n.scene.world ∧ targetsInv n.scene.world ∧ bubblesInv n.scene.world

/-! ## Sample data -/

/-- The snapshot `{agents: [A@(10,10)]}` of the example. -/
def snapshotA : WorldState :=
  { agents := [{ agent_id := js "A", name := js "A", agent_type := js "recruiter",
                 x := 10, y := 10, state := js "idle" }]
    active_conversations := [] }

/-- The snapshot `{agents: [A@(50,50), B@(20,20)]}` of the example. -/
def snapshotAB : WorldState :=
  { agents := [{ agent_id := js "A", name := js "A", agent_type := js "recruiter",
                 x := 50, y := 50, state := js "idle" },
               { agent_id := js "B", name := js "B", agent_type := js "candidate",
                 x := 20, y := 20, state := js "idle" }]
    active_conversations := [] }

/-- A snapshot that lists the identifier `A` twice, at two positions. -/
def snapshotAA : WorldState :=
  { agents := [{ agent_id := js "A", name := js "A", agent_type := js "recruiter",
                 x := 10, y := 10, state := js "idle" },
               { agent_id := js "A", name := js "A", agent_type := js "recruiter",
                 x := 900, y := 700, state := js "talking" }]
    active_conversations := [] }

/-- The sprite of `A` at `(300, 300)`, selected by the user, with a manual target. -/
def selectedSpriteA : AgentSprite :=
  { agentId := js "A", agentName := js "A", agentType := js "recruiter",
    posX := 300, posY := 300, targetX := 400, targetY := 500,
    isTalking := false, isSelected := true, destroyed := false }

/-- A world that tracks `A`, selected, with a bubble registered for it. -/
def worldSelectedA : World :=
  { sprites := [selectedSpriteA]
    bubbles := [{ posX := 300, posY := 230, destroyed := false }]
    agents := [(js "A", 0)]
    activeBubbles := [(js "A", 0)]
    selectedAgent := some 0
    activeConversations := [] }

/-- A snapshot that lists `B` alone. -/
def snapshotB : WorldState :=
  { agents := [{ agent_id := js "B", name := js "B", agent_type := js "candidate",
                 x := 20, y := 20, state := js "idle" }]
    active_conversations := [] }

/-- A record of a snapshot, in state `idle`, named as its identifier. -/
def record (id type : String) (x y : ℚ) : AgentData :=
  { agent_id := js id, name := js id, agent_type := js type, x := x, y := y,
    state := js "idle" }

/-- A snapshot of the given records, with no conversation. -/
def snapshotOf (agents : List AgentData) : WorldState :=
  { agents := agents, active_conversations := [] }

/-- A recruiter `A` and a candidate `B`, 50 apart. -/
def snapshotNear : WorldState :=
  snapshotOf [record "A" "recruiter" 100 200, record "B" "candidate" 130 240]

/-- The recruiter `A` alone. -/
def snapshotAlone : WorldState :=
  snapshotOf [record "A" "recruiter" 100 200]

/-- The recruiter `A`, and `B` again, now reported as a recruiter. -/
def snapshotRetyped : WorldState :=
  snapshotOf [record "A" "recruiter" 100 200, record "B" "recruiter" 130 240]

/-- A run in which `B` leaves while the pair `A`, `B` is active and comes back with the type
of `A`. -/
def eventsRetyped : List Event :=
  [.worldState snapshotNear, .frame, .worldState snapshotAlone, .worldState snapshotRetyped,
   .frame]

/-- Two recruiters `a-b` and `c`, and a recruiter `a` 50 from a candidate `b-c`: the two
pairs have the key `a-b-c`. -/
def snapshotSharedKey : WorldState :=
  snapshotOf [record "a-b" "recruiter" 100 200, record "c" "recruiter" 500 200,
              record "a" "recruiter" 100 600, record "b-c" "candidate" 130 640]

/-- A recruiter `a-b` 50 from a candidate `c`, and a recruiter `a` 500 from a candidate
`b-c`: the two pairs have the key `a-b-c`, and the check visits the far pair last. -/
def snapshotSharedKeyFar : WorldState :=
  snapshotOf [record "a-b" "recruiter" 100 200, record "c" "candidate" 130 240,
              record "a" "recruiter" 500 200, record "b-c" "candidate" 800 600]

/-- Recruiters `A` and `C` around a candidate `B`, all within 50 of each other. -/
def snapshotThree : WorldState :=
  snapshotOf [record "A" "recruiter" 100 200, record "B" "candidate" 130 240,
              record "C" "recruiter" 110 210]

/-- The sprite of a record after a check that found it near a sprite of the other type. -/
def talkingSprite (id type : String) (x y : ℚ) : AgentSprite :=
  { agentId := js id, agentName := js id, agentType := js type, posX := x, posY := y,
    targetX := x, targetY := y, isTalking := true, isSelected := false, destroyed := false }

/-- A recruiter `A` and a candidate `B`, 500 apart, both talking, their pair active. -/
def worldApart : World :=
  { sprites := [talkingSprite "A" "recruiter" 100 200, talkingSprite "B" "candidate" 400 600]
    bubbles := []
    agents := [(js "A", 0), (js "B", 1)]
    activeBubbles := []
    selectedAgent := none
    activeConversations := [js "A-B"] }

/-- A connection that is lost and retried until the counter reaches the ceiling: each socket
closes before it opens, and each timeout runs. -/
def eventsFiveFailures : List WsEvent :=
  [.connect, .socketClose 0, .timeout, .socketClose 1, .timeout, .socketClose 2, .timeout,
   .socketClose 3, .timeout, .socketClose 4, .timeout]

/-- A connection that opens and is then closed by `disconnect`, whose socket then reports
its close. -/
def eventsDisconnect : List WsEvent :=
  [.connect, .socketOpen 0, .disconnect, .socketClose 0]

/-- The parsed frame `{"type": "world_state"}`. -/
def frameWorldState : Json :=
  .object [(js "type", .string (js "world_state"))]

/-- The parsed frame `{"type": "ping"}`. -/
def framePing : Json :=
  .object [(js "type", .string (js "ping"))]

/-- Two recruiters of the same name, `Ann`, with the identifiers `A1` and `A2`. -/
def snapshotTwins : WorldState :=
  snapshotOf
    [{ agent_id := js "A1", name := js "Ann", agent_type := js "recruiter",
       x := 100, y := 200, state := js "idle" },
     { agent_id := js "A2", name := js "Ann", agent_type := js "recruiter",
       x := 400, y := 500, state := js "idle" }]

/-- A turn of the recruiter `Ann`. -/
def turnAnn : Turn :=
  { speaker_name := js "Ann", role := js "recruiter", content := js "Hello", is_final := false }

/-- The scene after the snapshot of the two recruiters named `Ann`. -/
def sceneTwins : Scene :=
  { Scene.init with world := updateAgents World.init snapshotTwins }

/-- The scene after a turn of `Ann`, and then a second turn of `Ann`: the first bubble is
superseded, and its callback is still pending. -/
def sceneTwoTurns : Scene :=
  handleConversationTurn (handleConversationTurn sceneTwins turnAnn 1000) turnAnn 2000

/-- The recruiter `A` at `(100, 200)`, and then reported at `(130, 240)`: after the two
snapshots its sprite is at `(100, 200)` and its target 50 away. -/
def worldMoving : World :=
  updateAgents (updateAgents World.init (snapshotOf [record "A" "recruiter" 100 200]))
    (snapshotOf [record "A" "recruiter" 130 240])

/-- The sprite of `A` in `worldMoving`. -/
def spriteMoving : AgentSprite :=
  { agentId := js "A", agentName := js "A", agentType := js "recruiter", posX := 100,
    posY := 200, targetX := 130, targetY := 240, isTalking := false, isSelected := false,
    destroyed := false }

/-- A snapshot that reports `A` once, at `(50, 50)` and talking, and `B`. -/
def snapshotTalking : WorldState :=
  snapshotOf [{ agent_id := js "A", name := js "A", agent_type := js "recruiter",
                x := 50, y := 50, state := js "talking" },
              record "B" "candidate" 20 20]

/-- The recruiter `A` at `(400, 400)`, and then reported at `(403, 404)`: after the two
snapshots its sprite is at `(400, 400)` and its target 5 away. -/
def worldNearTarget : World :=
  updateAgents (updateAgents World.init (snapshotOf [record "A" "recruiter" 400 400]))
    (snapshotOf [record "A" "recruiter" 403 404])

/-- The sprite of `A` in `worldNearTarget`. -/
def spriteNearTarget : AgentSprite :=
  { agentId := js "A", agentName := js "A", agentType := js "recruiter", posX := 400,
    posY := 400, targetX := 403, targetY := 404, isTalking := false, isSelected := false,
    destroyed := false }
/-- The world after the snapshot of `A` and `B`: two sprites, at the clamped positions,
nothing selected. -/
def worldAB : World :=
  updateAgents World.init snapshotAB

/-- The sprite of `B` in `worldAB`: reported at `(20, 20)`, created at `(80, 120)`. -/
def spriteB : AgentSprite :=
  { agentId := js "B", agentName := js "B", agentType := js "candidate", posX := 80,
    posY := 120, targetX := 80, targetY := 120, isTalking := false, isSelected := false,
    destroyed := false }

/-- The sprite of `A` in `worldAB`: reported at `(50, 50)`, created at `(80, 120)`. -/
def spriteA : AgentSprite :=
  { agentId := js "A", agentName := js "A", agentType := js "recruiter", posX := 80,
    posY := 120, targetX := 80, targetY := 120, isTalking := false, isSelected := false,
    destroyed := false }

/-- The world `worldAB` after a click on the sprite of `A`. -/
def worldABSelected : World :=
  handleAgentSelect worldAB 0

/-- The `i`-th call of `addToLog` of a sample sequence: speaker `A`, at time `i`. -/
def sampleCall (i : Nat) : LogEntry :=
  { speakerName := js "A", content := js "Hi", role := js "recruiter", time := i }

/-- Nine calls of `addToLog`, at the times 0 to 8. -/
def nineCalls : List LogEntry :=
  (List.range 9).map sampleCall

/-- A run that tracks `A` and `B` and selects `A` by a click on its sprite. -/
def eventsSelectA : List SceneEvent :=
  [.worldState snapshotAB, .agentClick 0]

/-- A text of one word of 60 characters, `'a'` repeated. -/
def longWord : JsString :=
  List.replicate 60 97

/-- The text `'a '` followed by a word of 40 characters, `'b'` repeated. -/
def shortThenLong : JsString :=
  js "a " ++ List.replicate 40 98

/-- A turn of a candidate named `Ann`: the name of tracked sprites, which are recruiters. -/
def turnAnnCandidate : Turn :=
  { speaker_name := js "Ann", role := js "candidate", content := js "Hello", is_final := false }

/-- A turn of a recruiter named `Bob`, a name that no tracked sprite has. -/
def turnBob : Turn :=
  { speaker_name := js "Bob", role := js "recruiter", content := js "Hello", is_final := false }

/-- A run in which `A`, reported outside the play area, is selected, sent by a click on the
canvas to a point outside the play area, and moves for a frame. -/
def eventsClickOutside : List SceneEvent :=
  [.worldState snapshotAB, .agentClick 0, .click 1000 50, .frame]

/-- A run in which two recruiters named `Ann` are tracked, a turn of `Ann` shows a bubble,
and a frame passes. -/
def eventsTurn : List SceneEvent :=
  [.worldState snapshotTwins, .conversationTurn turnAnn 1000, .frame]

/-- The run `eventsTurn`, after which a snapshot lists `B` alone. -/
def eventsTurnThenGone : List SceneEvent :=
  eventsTurn ++ [.worldState snapshotB]

/-! ## Heap and `Map` lemmas -/

theorem getElem?_modifyAt {α : Type} (l : List α) (h j : Nat) (f : α → α) :
    (modifyAt l h f)[j]? = if j = h then l[j]?.map f else l[j]? := by
  unfold modifyAt
  cases hl : l[h]? with
  | none =>
    by_cases hj : j = h
    · subst hj; simp [hl]
    · simp [hj]
  | some a =>
    by_cases hj : j = h
    · subst hj
      have : j < l.length := by
        rcases List.getElem?_eq_some_iff.mp hl with ⟨h1, _⟩
        exact h1
      simp [hl, List.getElem?_set, this]
    · have : ¬ h = j := fun e => hj e.symm
      simp [hj, List.getElem?_set, this]

theorem length_modifyAt {α : Type} (l : List α) (h : Nat) (f : α → α) :
    (modifyAt l h f).length = l.length := by
  unfold modifyAt
  cases l[h]? <;> simp

theorem mapGet_eq_none_iff (m : List (JsString × Nat)) (key : JsString) :
    mapGet m key = none ↔ key ∉ mapKeys m := by
  simp only [mapGet, mapKeys, Option.map_eq_none', List.find?_eq_none, List.mem_map, not_exists,
    not_and, beq_iff_eq, Bool.not_eq_true, beq_eq_false_iff_ne, ne_eq]

theorem mapHas_iff (m : List (JsString × Nat)) (key : JsString) :
    mapHas m key = true ↔ key ∈ mapKeys m := by
  simp only [mapHas, mapKeys, List.any_eq_true, beq_iff_eq, List.mem_map]

theorem mapGet_eq_some_mem {m : List (JsString × Nat)} {key : JsString} {h : Nat}
    (hg : mapGet m key = some h) : (key, h) ∈ m := by
  simp only [mapGet, Option.map_eq_some'] at hg
  obtain ⟨e, he, rfl⟩ := hg
  have h1 := List.mem_of_find?_eq_some he
  have h2 := List.find?_some he
  simp only [beq_iff_eq] at h2
  cases e; simp_all

theorem mapGet_of_mem_nodup {m : List (JsString × Nat)} {key : JsString} {h : Nat}
    (hn : (mapKeys m).Nodup) (hm : (key, h) ∈ m) : mapGet m key = some h := by
  induction m with
  | nil => simp at hm
  | cons e m ih =>
    simp only [mapKeys, List.map_cons, List.nodup_cons, List.mem_map, not_exists, not_and] at hn
    rcases List.mem_cons.mp hm with rfl | hm2
    · simp [mapGet]
    · have hne : ¬ e.1 = key := by
        intro he
        exact hn.1 (key, h) hm2 he.symm
      have := ih hn.2 hm2
      simp only [mapGet] at this
      simp [mapGet, List.find?_cons, hne, this]

theorem mem_mapKeys_of_mem {m : List (JsString × Nat)} {key : JsString} {h : Nat}
    (hm : (key, h) ∈ m) : key ∈ mapKeys m :=
  List.mem_map.mpr ⟨(key, h), hm, rfl⟩

/-! ## The removal loop -/

theorem removeStale_agents (ids : List JsString) (w : World) (e : JsString × Nat) :
    (removeStale ids w e).agents = if e.1 ∈ ids then w.agents else mapDelete w.agents e.1 := by
  unfold removeStale
  by_cases hc : e.1 ∈ ids <;> simp [hc]

theorem removeStale_activeConversations (ids : List JsString) (w : World) (e : JsString × Nat) :
    (removeStale ids w e).activeConversations = w.activeConversations := by
  unfold removeStale
  by_cases hc : e.1 ∈ ids <;> simp [hc]

theorem removeStale_sprites (ids : List JsString) (w : World) (e : JsString × Nat) :
    (removeStale ids w e).sprites =
      if e.1 ∈ ids then w.sprites
      else modifyAt w.sprites e.2 fun s => { s with destroyed := true } := by
  unfold removeStale
  by_cases hc : e.1 ∈ ids <;> simp [hc]

theorem removeStale_selectedAgent (ids : List JsString) (w : World) (e : JsString × Nat) :
    (removeStale ids w e).selectedAgent =
      if e.1 ∈ ids then w.selectedAgent
      else if w.selectedAgent = some e.2 then none else w.selectedAgent := by
  unfold removeStale
  by_cases hc : e.1 ∈ ids <;> simp [hc]

theorem mapDelete_of_not_mem {m : List (JsString × Nat)} {key : JsString}
    (h : key ∉ mapKeys m) : mapDelete m key = m := by
  simp only [mapDelete, List.filter_eq_self, bne_iff_ne, ne_eq]
  intro a ha heq
  exact h (List.mem_map.mpr ⟨a, ha, heq⟩)

theorem removeStale_activeBubbles (ids : List JsString) (w : World) (e : JsString × Nat) :
    (removeStale ids w e).activeBubbles =
      if e.1 ∈ ids then w.activeBubbles else mapDelete w.activeBubbles e.1 := by
  unfold removeStale
  by_cases hc : e.1 ∈ ids
  · simp [hc]
  · by_cases hb : mapHas w.activeBubbles e.1 = true
    · simp [hc, hb]
    · have : e.1 ∉ mapKeys w.activeBubbles := fun h => hb ((mapHas_iff _ _).mpr h)
      simp [hc, hb, mapDelete_of_not_mem this]

theorem removeStale_bubbles (ids : List JsString) (w : World) (e : JsString × Nat) :
    (removeStale ids w e).bubbles =
      if e.1 ∈ ids then w.bubbles
      else match mapGet w.activeBubbles e.1 with
        | some b => modifyAt w.bubbles b fun x => { x with destroyed := true }
        | none => w.bubbles := by
  unfold removeStale
  by_cases hc : e.1 ∈ ids <;> simp [hc]

/-- The registrations that the removal loop leaves: an entry stays when its identifier is in
the snapshot or is not among the entries visited. -/
theorem foldl_removeStale_agents (ids : List JsString) (l : List (JsString × Nat)) (w : World) :
    (l.foldl (removeStale ids) w).agents =
      w.agents.filter fun e => decide (e.1 ∈ ids) || !decide (e.1 ∈ mapKeys l) := by
  induction l generalizing w with
  | nil => simp [mapKeys]
  | cons e l ih =>
    rw [List.foldl_cons, ih, removeStale_agents]
    by_cases hc : e.1 ∈ ids
    · simp only [hc, ↓reduceIte]
      apply List.filter_congr
      intro x _
      by_cases hx : x.1 = e.1
      · simp [hx, hc, mapKeys]
      · have hb : (x.1 == e.1) = false := by simpa using hx
        simp [hb, bne, mapKeys]
    · simp only [hc, ↓reduceIte, mapDelete, List.filter_filter]
      apply List.filter_congr
      intro x _
      by_cases hx : x.1 = e.1
      · simp [hx, hc, mapKeys]
      · have hb : (x.1 == e.1) = false := by simpa using hx
        simp [hb, bne, mapKeys]

theorem removal_agents (ids : List JsString) (w : World) :
    (w.agents.foldl (removeStale ids) w).agents = w.agents.filter fun e => decide (e.1 ∈ ids) := by
  rw [foldl_removeStale_agents]
  apply List.filter_congr
  intro x hx
  have : x.1 ∈ mapKeys w.agents := List.mem_map.mpr ⟨x, hx, rfl⟩
  simp [this]

/-! ## The update-or-create loop -/

theorem upsertAgent_agents (w : World) (a : AgentData) :
    (upsertAgent w a).agents =
      if a.agent_id ∈ mapKeys w.agents then w.agents
      else w.agents ++ [(a.agent_id, w.sprites.length)] := by
  unfold upsertAgent
  cases hg : mapGet w.agents a.agent_id with
  | none =>
    have hn := (mapGet_eq_none_iff _ _).mp hg
    have hh : mapHas w.agents a.agent_id = false := by
      rw [← Bool.not_eq_true, mapHas_iff]; exact hn
    simp [hn, mapSet, hh, createAgentSprite]
  | some h =>
    have hn : a.agent_id ∈ mapKeys w.agents := by
      by_contra hc
      rw [(mapGet_eq_none_iff _ _).mpr hc] at hg
      cases hg
    simp [hn]

theorem upsertAgent_keys (w : World) (a : AgentData) :
    mapKeys (upsertAgent w a).agents =
      if a.agent_id ∈ mapKeys w.agents then mapKeys w.agents
      else mapKeys w.agents ++ [a.agent_id] := by
  rw [upsertAgent_agents]
  split <;> simp [mapKeys]

theorem foldl_upsertAgent_mem_keys (l : List AgentData) (w : World) (k : JsString) :
    k ∈ mapKeys (l.foldl upsertAgent w).agents ↔
      k ∈ mapKeys w.agents ∨ k ∈ l.map AgentData.agent_id := by
  induction l generalizing w with
  | nil => simp
  | cons a l ih =>
    rw [List.foldl_cons, ih, upsertAgent_keys]
    by_cases hc : a.agent_id ∈ mapKeys w.agents
    · simp only [hc, ↓reduceIte, List.map_cons, List.mem_cons]
      constructor
      · rintro (h | h)
        · exact Or.inl h
        · exact Or.inr (Or.inr h)
      · rintro (h | h | h)
        · exact Or.inl h
        · exact Or.inl (h ▸ hc)
        · exact Or.inr h
    · simp only [hc, ↓reduceIte, List.mem_append, List.mem_singleton, List.map_cons,
        List.mem_cons]
      tauto

theorem foldl_upsertAgent_nodup (l : List AgentData) (w : World)
    (hn : (mapKeys w.agents).Nodup) : (mapKeys (l.foldl upsertAgent w).agents).Nodup := by
  induction l generalizing w with
  | nil => simpa using hn
  | cons a l ih =>
    rw [List.foldl_cons]
    apply ih
    rw [upsertAgent_keys]
    by_cases hc : a.agent_id ∈ mapKeys w.agents
    · simpa [hc] using hn
    · simp only [hc, ↓reduceIte]
      rw [List.nodup_append]
      refine ⟨hn, List.nodup_singleton _, ?_⟩
      intro x hx hy
      rw [List.mem_singleton] at hy
      exact hc (hy ▸ hx)

theorem updateAgents_nodup (w : World) (ws : WorldState) (hn : (mapKeys w.agents).Nodup) :
    (mapKeys (updateAgents w ws).agents).Nodup := by
  unfold updateAgents
  apply foldl_upsertAgent_nodup
  rw [removal_agents]
  exact hn.sublist ((List.filter_sublist _).map _)

theorem updateAgents_mem_keys (w : World) (ws : WorldState) (k : JsString) :
    k ∈ mapKeys (updateAgents w ws).agents ↔ k ∈ ws.agents.map AgentData.agent_id := by
  unfold updateAgents
  rw [foldl_upsertAgent_mem_keys, removal_agents]
  constructor
  · rintro (h | h)
    · simp only [mapKeys, List.mem_map, List.mem_filter, decide_eq_true_eq] at h
      obtain ⟨e, ⟨_, h2⟩, rfl⟩ := h
      exact List.mem_map.mpr h2
    · exact h
  · exact Or.inr

/-! ## Heap cells along a loop -/

/-- A relation between the old and the new content of a heap cell that every iteration of a
loop establishes, and that is reflexive and transitive, holds across the whole loop. -/
theorem foldl_sprite_rel {β : Type} (R : AgentSprite → AgentSprite → Prop)
    (hrefl : ∀ s, R s s) (htrans : ∀ a b c, R a b → R b c → R a c) (f : World → β → World)
    (hstep : ∀ (w : World) (x : β) (h : Nat) (sp : AgentSprite), w.sprites[h]? = some sp →
      ∃ sp', (f w x).sprites[h]? = some sp' ∧ R sp sp')
    (l : List β) (w : World) (h : Nat) (sp : AgentSprite) (hsp : w.sprites[h]? = some sp) :
    ∃ sp', (l.foldl f w).sprites[h]? = some sp' ∧ R sp sp' := by
  induction l generalizing w sp with
  | nil => exact ⟨sp, hsp, hrefl sp⟩
  | cons x l ih =>
    obtain ⟨sp1, h1, r1⟩ := hstep w x h sp hsp
    obtain ⟨sp2, h2, r2⟩ := ih (f w x) sp1 h1
    exact ⟨sp2, h2, htrans _ _ _ r1 r2⟩

/-- A cell of a heap after `modifyAt`: the old content, or its image. -/
theorem modifyAt_rel {α : Type} (R : α → α → Prop) (hrefl : ∀ s, R s s) (l : List α)
    (g : α → α) (hg : ∀ s, R s (g s)) (j h : Nat) (sp : α) (hsp : l[h]? = some sp) :
    ∃ sp', (modifyAt l j g)[h]? = some sp' ∧ R sp sp' := by
  rw [getElem?_modifyAt]
  by_cases hj : h = j
  · simp only [hj, ↓reduceIte]
    rw [hj] at hsp
    exact ⟨g sp, by simp [hsp], hg sp⟩
  · simp only [hj, ↓reduceIte]
    exact ⟨sp, hsp, hrefl sp⟩

theorem removeStale_sprite_rel (R : AgentSprite → AgentSprite → Prop) (hrefl : ∀ s, R s s)
    (hd : ∀ s : AgentSprite, R s { s with destroyed := true })
    (ids : List JsString) (w : World) (e : JsString × Nat) (h : Nat) (sp : AgentSprite)
    (hsp : w.sprites[h]? = some sp) :
    ∃ sp', (removeStale ids w e).sprites[h]? = some sp' ∧ R sp sp' := by
  rw [removeStale_sprites]
  split
  · exact ⟨sp, hsp, hrefl sp⟩
  · exact modifyAt_rel R hrefl _ _ hd _ _ _ hsp

theorem upsertAgent_sprites (w : World) (a : AgentData) :
    (upsertAgent w a).sprites =
      match mapGet w.agents a.agent_id with
      | some sprite =>
        modifyAt w.sprites sprite fun s =>
          if !s.isSelected then updateAgentPosition s (adjustedX a.x) (adjustedY a.y) a.state
          else { s with isTalking := a.state == js "talking" }
      | none =>
        (createAgentSprite w.sprites { a with x := adjustedX a.x, y := adjustedY a.y }).1 := by
  unfold upsertAgent
  cases mapGet w.agents a.agent_id <;> rfl

theorem upsertAgent_sprite_rel (R : AgentSprite → AgentSprite → Prop) (hrefl : ∀ s, R s s)
    (hu : ∀ (s : AgentSprite) (a : AgentData), R s
      (if !s.isSelected then updateAgentPosition s (adjustedX a.x) (adjustedY a.y) a.state
       else { s with isTalking := a.state == js "talking" }))
    (w : World) (a : AgentData) (h : Nat) (sp : AgentSprite)
    (hsp : w.sprites[h]? = some sp) :
    ∃ sp', (upsertAgent w a).sprites[h]? = some sp' ∧ R sp sp' := by
  rw [upsertAgent_sprites]
  cases mapGet w.agents a.agent_id with
  | none =>
    refine ⟨sp, ?_, hrefl sp⟩
    simp only [createAgentSprite]
    have hlt : h < w.sprites.length := (List.getElem?_eq_some_iff.mp hsp).1
    rw [List.getElem?_append_left hlt]
    exact hsp
  | some j => exact modifyAt_rel R hrefl _ _ (fun s => hu s a) _ _ _ hsp

theorem updateAgents_sprite_rel (R : AgentSprite → AgentSprite → Prop) (hrefl : ∀ s, R s s)
    (htrans : ∀ a b c, R a b → R b c → R a c)
    (hd : ∀ s : AgentSprite, R s { s with destroyed := true })
    (hu : ∀ (s : AgentSprite) (a : AgentData), R s
      (if !s.isSelected then updateAgentPosition s (adjustedX a.x) (adjustedY a.y) a.state
       else { s with isTalking := a.state == js "talking" }))
    (w : World) (ws : WorldState) (h : Nat) (sp : AgentSprite)
    (hsp : w.sprites[h]? = some sp) :
    ∃ sp', (updateAgents w ws).sprites[h]? = some sp' ∧ R sp sp' := by
  unfold updateAgents
  obtain ⟨sp1, h1, r1⟩ := foldl_sprite_rel R hrefl htrans _
    (fun w x h sp hsp => removeStale_sprite_rel R hrefl hd _ w x h sp hsp) w.agents w h sp hsp
  obtain ⟨sp2, h2, r2⟩ := foldl_sprite_rel R hrefl htrans _
    (fun w x h sp hsp => upsertAgent_sprite_rel R hrefl hu w x h sp hsp) ws.agents _ h sp1 h1
  exact ⟨sp2, h2, htrans _ _ _ r1 r2⟩

/-! ## Lookups along `updateAgents` -/

theorem mapGet_filter_key (q : JsString → Bool) (m : List (JsString × Nat)) (id : JsString)
    (hq : q id = true) : mapGet (m.filter fun e => q e.1) id = mapGet m id := by
  simp only [mapGet, List.find?_filter]
  congr 2
  funext a
  by_cases ha : a.1 = id
  · simp [ha, hq]
  · simp [ha]

theorem mapGet_append_of_some (m : List (JsString × Nat)) (e : JsString × Nat) (id : JsString)
    (h : Nat) (hg : mapGet m id = some h) : mapGet (m ++ [e]) id = some h := by
  simp only [mapGet, Option.map_eq_some'] at hg ⊢
  obtain ⟨a, ha, rfl⟩ := hg
  exact ⟨a, by simp [List.find?_append, ha], rfl⟩

theorem removal_mapGet (ids : List JsString) (w : World) (id : JsString) (hid : id ∈ ids) :
    mapGet (w.agents.foldl (removeStale ids) w).agents id = mapGet w.agents id := by
  rw [removal_agents]
  exact mapGet_filter_key (fun k => decide (k ∈ ids)) _ _ (by simpa using hid)

theorem upsertAgent_mapGet_some (w : World) (a : AgentData) (id : JsString) (h : Nat)
    (hg : mapGet w.agents id = some h) : mapGet (upsertAgent w a).agents id = some h := by
  rw [upsertAgent_agents]
  split
  · exact hg
  · exact mapGet_append_of_some _ _ _ _ hg

theorem foldl_upsertAgent_mapGet_some (l : List AgentData) (w : World) (id : JsString) (h : Nat)
    (hg : mapGet w.agents id = some h) : mapGet (l.foldl upsertAgent w).agents id = some h := by
  induction l generalizing w with
  | nil => exact hg
  | cons a l ih => exact ih _ (upsertAgent_mapGet_some w a id h hg)

theorem updateAgents_mapGet_some (w : World) (ws : WorldState) (id : JsString) (h : Nat)
    (hg : mapGet w.agents id = some h) (hid : id ∈ ws.agents.map AgentData.agent_id) :
    mapGet (updateAgents w ws).agents id = some h := by
  unfold updateAgents
  apply foldl_upsertAgent_mapGet_some
  rw [removal_mapGet _ _ _ hid]
  exact hg

/-! ## Claims on `updateAgents` -/

/-- C1: whatever the sprite mapping holds (as a `Map`, one entry per key), after a sequence of
snapshot updates its keys are exactly the `agent_id` values of the last snapshot, each key
once, also when that snapshot lists an identifier several times. -/
theorem updateAgents_keys_eq_snapshot (w : World) (earlier : List WorldState)
    (snapshot : WorldState) (hmap : (mapKeys w.agents).Nodup) :
    (mapKeys ((earlier ++ [snapshot]).foldl updateAgents w).agents).Nodup ∧
      ∀ id, id ∈ mapKeys ((earlier ++ [snapshot]).foldl updateAgents w).agents ↔
        id ∈ snapshot.agents.map AgentData.agent_id := by
  rw [List.foldl_append, List.foldl_cons, List.foldl_nil]
  have hn : (mapKeys (earlier.foldl updateAgents w).agents).Nodup := by
    clear snapshot
    induction earlier generalizing w with
    | nil => exact hmap
    | cons s l ih => exact ih _ (updateAgents_nodup w s hmap)
  exact ⟨updateAgents_nodup _ _ hn, updateAgents_mem_keys _ _⟩

/-- C2: a tracked sprite that is selected and listed in the snapshot keeps its position and
its target through `updateAgents` (and stays selected), whatever the snapshot reports. -/
theorem updateAgents_selected_position_unchanged (w : World) (snapshot : WorldState)
    (id : JsString) (h : Nat) (sp : AgentSprite)
    (htracked : mapGet w.agents id = some h) (hsp : w.sprites[h]? = some sp)
    (hsel : sp.isSelected = true)
    (hlisted : id ∈ snapshot.agents.map AgentData.agent_id) :
    mapGet (updateAgents w snapshot).agents id = some h ∧
    ∃ sp', (updateAgents w snapshot).sprites[h]? = some sp' ∧
      sp'.posX = sp.posX ∧ sp'.posY = sp.posY ∧
      sp'.targetX = sp.targetX ∧ sp'.targetY = sp.targetY ∧ sp'.isSelected = true := by
  refine ⟨updateAgents_mapGet_some w snapshot id h htracked hlisted, ?_⟩
  obtain ⟨sp', h1, r⟩ := updateAgents_sprite_rel
    (fun s t => s.isSelected = true → t.posX = s.posX ∧ t.posY = s.posY ∧
      t.targetX = s.targetX ∧ t.targetY = s.targetY ∧ t.isSelected = true)
    (fun s hs => ⟨rfl, rfl, rfl, rfl, hs⟩)
    (fun a b c hab hbc ha => by
      obtain ⟨e1, e2, e3, e4, e5⟩ := hab ha
      obtain ⟨f1, f2, f3, f4, f5⟩ := hbc e5
      exact ⟨f1.trans e1, f2.trans e2, f3.trans e3, f4.trans e4, f5⟩)
    (fun s hs => ⟨rfl, rfl, rfl, rfl, hs⟩)
    (fun s a hs => by simp [hs])
    w snapshot h sp hsp
  exact ⟨sp', h1, r hsel⟩

theorem registeredUnderOwnId_iff (w : World) :
    registeredUnderOwnId w = true ↔
      ∀ e ∈ w.agents, ∃ s, w.sprites[e.2]? = some s ∧ s.agentId = e.1 := by
  simp only [registeredUnderOwnId, List.all_eq_true]
  constructor
  · intro h e he
    have := h e he
    cases hs : w.sprites[e.2]? with
    | none => simp [hs] at this
    | some s => exact ⟨s, rfl, by simpa [hs] using this⟩
  · intro h e he
    obtain ⟨s, hs, hid⟩ := h e he
    simp [hs, hid]

theorem foldl_removeStale_getElem?_of_ne (ids : List JsString) (l : List (JsString × Nat))
    (w : World) (h : Nat) (hne : ∀ e ∈ l, e.1 ∉ ids → e.2 ≠ h) :
    (l.foldl (removeStale ids) w).sprites[h]? = w.sprites[h]? := by
  induction l generalizing w with
  | nil => rfl
  | cons e l ih =>
    rw [List.foldl_cons, ih _ (fun x hx => hne x (List.mem_cons_of_mem _ hx)),
      removeStale_sprites]
    split
    · rfl
    · rename_i hc
      have := hne e (List.mem_cons_self _ _) hc
      rw [getElem?_modifyAt]
      have hh : ¬ h = e.2 := fun h' => this h'.symm
      simp only [hh, ↓reduceIte]

theorem foldl_removeStale_length (ids : List JsString) (l : List (JsString × Nat)) (w : World) :
    (l.foldl (removeStale ids) w).sprites.length = w.sprites.length := by
  induction l generalizing w with
  | nil => rfl
  | cons e l ih =>
    rw [List.foldl_cons, ih, removeStale_sprites]
    split
    · rfl
    · exact length_modifyAt _ _ _

theorem upsertAgent_length_le (w : World) (a : AgentData) :
    w.sprites.length ≤ (upsertAgent w a).sprites.length := by
  rw [upsertAgent_sprites]
  cases mapGet w.agents a.agent_id with
  | none => simp [createAgentSprite]
  | some j => simp [length_modifyAt]

theorem mapGet_append_of_none (m : List (JsString × Nat)) (id : JsString) (v : Nat)
    (hg : mapGet m id = none) : mapGet (m ++ [(id, v)]) id = some v := by
  simp only [mapGet, Option.map_eq_none'] at hg
  simp [mapGet, List.find?_append, hg]

theorem mapGet_append_of_ne (m : List (JsString × Nat)) (id k : JsString) (v : Nat)
    (hne : k ≠ id) : mapGet (m ++ [(k, v)]) id = mapGet m id := by
  simp only [mapGet, List.find?_append]
  cases hf : List.find? (fun e => e.1 == id) m with
  | some x => simp
  | none => simp [hne]

theorem sameIdentity_refl (s : AgentSprite) : sameIdentity s s :=
  ⟨rfl, rfl, rfl, rfl, rfl, rfl, rfl⟩

theorem sameIdentity_trans (a b c : AgentSprite) (h1 : sameIdentity a b)
    (h2 : sameIdentity b c) : sameIdentity a c := by
  obtain ⟨a1, a2, a3, a4, a5, a6, a7⟩ := h1
  obtain ⟨b1, b2, b3, b4, b5, b6, b7⟩ := h2
  exact ⟨b1.trans a1, b2.trans a2, b3.trans a3, b4.trans a4, b5.trans a5, b6.trans a6,
    b7.trans a7⟩

theorem sameIdentity_update (s : AgentSprite) (a : AgentData) : sameIdentity s
    (if !s.isSelected then updateAgentPosition s (adjustedX a.x) (adjustedY a.y) a.state
     else { s with isTalking := a.state == js "talking" }) := by
  unfold updateAgentPosition sameIdentity
  cases s.isSelected <;> simp

theorem foldl_upsertAgent_sameIdentity (l : List AgentData) (w : World) (h : Nat)
    (sp : AgentSprite) (hsp : w.sprites[h]? = some sp) :
    ∃ sp', (l.foldl upsertAgent w).sprites[h]? = some sp' ∧ sameIdentity sp sp' :=
  foldl_sprite_rel sameIdentity sameIdentity_refl sameIdentity_trans _
    (fun w x h sp hsp =>
      upsertAgent_sprite_rel sameIdentity sameIdentity_refl sameIdentity_update w x h sp hsp)
    l w h sp hsp

theorem foldl_upsertAgent_creates (l : List AgentData) (w : World) (id : JsString)
    (hid : id ∈ l.map AgentData.agent_id) (hg : mapGet w.agents id = none) :
    ∃ h', mapGet (l.foldl upsertAgent w).agents id = some h' ∧ w.sprites.length ≤ h' ∧
      ∃ sp', (l.foldl upsertAgent w).sprites[h']? = some sp' ∧ sp'.agentId = id ∧
        sp'.destroyed = false ∧ sp'.isSelected = false := by
  induction l generalizing w with
  | nil => simp at hid
  | cons a l ih =>
    rw [List.foldl_cons]
    have hnk : a.agent_id ∈ mapKeys w.agents → a.agent_id ≠ id := by
      intro hk heq
      rw [heq] at hk
      exact (mapGet_eq_none_iff _ _).mp hg hk
    by_cases ha : a.agent_id = id
    · have hnot : a.agent_id ∉ mapKeys w.agents := fun hk => hnk hk ha
      have hag : (upsertAgent w a).agents = w.agents ++ [(id, w.sprites.length)] := by
        rw [upsertAgent_agents, if_neg hnot, ha]
      have hget : mapGet w.agents a.agent_id = none := (mapGet_eq_none_iff _ _).mpr hnot
      have hsp : (upsertAgent w a).sprites[w.sprites.length]? =
          some { agentId := id, agentName := a.name, agentType := a.agent_type,
                 posX := adjustedX a.x, posY := adjustedY a.y, targetX := adjustedX a.x,
                 targetY := adjustedY a.y, isTalking := false, isSelected := false,
                 destroyed := false } := by
        rw [upsertAgent_sprites, hget]
        simp [createAgentSprite, ha]
      have hg1 : mapGet (upsertAgent w a).agents id = some w.sprites.length := by
        rw [hag]; exact mapGet_append_of_none _ _ _ hg
      obtain ⟨sp', h1, r⟩ := foldl_upsertAgent_sameIdentity l _ _ _ hsp
      refine ⟨w.sprites.length, foldl_upsertAgent_mapGet_some l _ id _ hg1, le_refl _, sp', h1,
        ?_, ?_, ?_⟩
      · exact r.1
      · exact r.2.2.2.1
      · exact r.2.2.2.2.1
    · have hid' : id ∈ l.map AgentData.agent_id := by
        simp only [List.map_cons, List.mem_cons] at hid
        rcases hid with h | h
        · exact absurd h.symm ha
        · exact h
      have hg1 : mapGet (upsertAgent w a).agents id = none := by
        rw [upsertAgent_agents]
        split
        · exact hg
        · rw [mapGet_append_of_ne _ _ _ _ ha]; exact hg
      obtain ⟨h', e1, e2, e3⟩ := ih (upsertAgent w a) hid' hg1
      exact ⟨h', e1, le_trans (upsertAgent_length_le w a) e2, e3⟩

/-- C3: through `updateAgents`, an identifier that was tracked and is listed keeps its
sprite, which the update does not destroy (in a mapping that registers every sprite under
its own `agentId`); an identifier that was not tracked and is listed is mapped to a sprite
that did not exist before; and the example `[A@(10,10)]` then `[A@(50,50), B@(20,20)]`
keeps the sprite of A, undestroyed, and creates exactly one sprite, for B. -/
theorem updateAgents_keeps_or_creates (w : World) (snapshot : WorldState) (id : JsString)
    (hlisted : id ∈ snapshot.agents.map AgentData.agent_id) :
    (∀ h sp, registeredUnderOwnId w = true → mapGet w.agents id = some h →
      w.sprites[h]? = some sp →
      mapGet (updateAgents w snapshot).agents id = some h ∧
      ∃ sp', (updateAgents w snapshot).sprites[h]? = some sp' ∧
        sp'.destroyed = sp.destroyed ∧ sp'.agentId = sp.agentId) ∧
    (mapGet w.agents id = none →
      ∃ h', mapGet (updateAgents w snapshot).agents id = some h' ∧ w.sprites.length ≤ h' ∧
        ∃ sp', (updateAgents w snapshot).sprites[h']? = some sp' ∧ sp'.agentId = id ∧
          sp'.destroyed = false) ∧
    (mapGet (updateAgents World.init snapshotA).agents (js "A") = some 0 ∧
      (updateAgents World.init snapshotA).sprites.length = 1 ∧
      mapGet (updateAgents (updateAgents World.init snapshotA) snapshotAB).agents (js "A")
        = some 0 ∧
      mapGet (updateAgents (updateAgents World.init snapshotA) snapshotAB).agents (js "B")
        = some 1 ∧
      (updateAgents (updateAgents World.init snapshotA) snapshotAB).sprites.length = 2 ∧
      (updateAgents (updateAgents World.init snapshotA) snapshotAB).sprites.map
        AgentSprite.destroyed = [false, false]) := by
  refine ⟨?_, ?_, by decide!⟩
  · intro h sp hreg hg hsp
    refine ⟨updateAgents_mapGet_some w snapshot id h hg hlisted, ?_⟩
    unfold updateAgents
    have hrem : (w.agents.foldl (removeStale (snapshot.agents.map AgentData.agent_id)) w).sprites[h]?
        = some sp := by
      rw [foldl_removeStale_getElem?_of_ne]
      · exact hsp
      · intro e he hstale heq
        obtain ⟨s, hs, hsid⟩ := (registeredUnderOwnId_iff w).mp hreg e he
        obtain ⟨s2, hs2, hsid2⟩ := (registeredUnderOwnId_iff w).mp hreg _ (mapGet_eq_some_mem hg)
        rw [heq] at hs
        simp only at hs2 hsid2
        rw [hs] at hs2
        cases hs2
        exact hstale (by rw [← hsid, hsid2]; exact hlisted)
    obtain ⟨sp', h1, r⟩ := foldl_upsertAgent_sameIdentity snapshot.agents _ h sp hrem
    exact ⟨sp', h1, r.2.2.2.1, r.1⟩
  · intro hg
    unfold updateAgents
    have hg1 : mapGet (w.agents.foldl (removeStale (snapshot.agents.map AgentData.agent_id))
        w).agents id = none := by
      rw [removal_mapGet _ _ _ hlisted]; exact hg
    obtain ⟨h', e1, e2, sp', e3, e4, e5, _⟩ :=
      foldl_upsertAgent_creates snapshot.agents _ id hlisted hg1
    rw [foldl_removeStale_length] at e2
    exact ⟨h', e1, e2, sp', e3, e4, e5⟩

/-- C4: the position that `updateAgents` uses for a reported position `(x, y)` is
`(max(80, min(x, 820)), max(120, min(y, 680)))`; it lies in the rectangle
`80 <= x' <= 820`, `120 <= y' <= 680` and is `(x, y)` itself when `(x, y)` lies in it. It is
the position and the target of a sprite created for the record, and the target given to a
tracked sprite that is not selected. -/
theorem updateAgents_uses_clamped_position (w : World) (a : AgentData) :
    adjustedX a.x = max 80 (min a.x 820) ∧ adjustedY a.y = max 120 (min a.y 680) ∧
    (80 ≤ adjustedX a.x ∧ adjustedX a.x ≤ 820 ∧ 120 ≤ adjustedY a.y ∧ adjustedY a.y ≤ 680) ∧
    (80 ≤ a.x → a.x ≤ 820 → adjustedX a.x = a.x) ∧
    (120 ≤ a.y → a.y ≤ 680 → adjustedY a.y = a.y) ∧
    (mapGet w.agents a.agent_id = none →
      ∃ s, (upsertAgent w a).sprites[w.sprites.length]? = some s ∧
        mapGet (upsertAgent w a).agents a.agent_id = some w.sprites.length ∧
        s.posX = adjustedX a.x ∧ s.posY = adjustedY a.y ∧
        s.targetX = adjustedX a.x ∧ s.targetY = adjustedY a.y) ∧
    (∀ h s, mapGet w.agents a.agent_id = some h → w.sprites[h]? = some s →
      s.isSelected = false →
      ∃ s', (upsertAgent w a).sprites[h]? = some s' ∧
        s'.targetX = adjustedX a.x ∧ s'.targetY = adjustedY a.y) := by
  have hx : adjustedX a.x = max 80 (min a.x 820) := by
    unfold adjustedX WORLD_CONFIG; norm_num
  have hy : adjustedY a.y = max 120 (min a.y 680) := by
    unfold adjustedY WORLD_CONFIG; norm_num
  refine ⟨hx, hy, ⟨?_, ?_, ?_, ?_⟩, ?_, ?_, ?_, ?_⟩
  · rw [hx]; exact le_max_left _ _
  · rw [hx]; exact max_le (by norm_num) (min_le_right _ _)
  · rw [hy]; exact le_max_left _ _
  · rw [hy]; exact max_le (by norm_num) (min_le_right _ _)
  · intro h1 h2
    rw [hx, min_eq_left h2, max_eq_right h1]
  · intro h1 h2
    rw [hy, min_eq_left h2, max_eq_right h1]
  · intro hg
    refine ⟨{ agentId := a.agent_id, agentName := a.name, agentType := a.agent_type,
              posX := adjustedX a.x, posY := adjustedY a.y, targetX := adjustedX a.x,
              targetY := adjustedY a.y, isTalking := false, isSelected := false,
              destroyed := false }, ?_, ?_, ?_⟩
    · rw [upsertAgent_sprites, hg]
      simp only [createAgentSprite]
      rw [List.getElem?_append_right (le_refl _)]
      simp
    · rw [upsertAgent_agents, if_neg ((mapGet_eq_none_iff _ _).mp hg)]
      exact mapGet_append_of_none _ _ _ hg
    · exact ⟨rfl, rfl, rfl, rfl⟩
  · intro h s hg hs hsel
    rw [upsertAgent_sprites, hg]
    simp only [getElem?_modifyAt, ↓reduceIte, hs, Option.map_some']
    refine ⟨_, rfl, ?_, ?_⟩ <;> simp [hsel, updateAgentPosition]

/-! ## Removal of stale sprites -/

theorem foldl_upsertAgent_selectedAgent (l : List AgentData) (w : World) :
    (l.foldl upsertAgent w).selectedAgent = w.selectedAgent ∧
    (l.foldl upsertAgent w).activeBubbles = w.activeBubbles ∧
    (l.foldl upsertAgent w).bubbles = w.bubbles ∧
    (l.foldl upsertAgent w).activeConversations = w.activeConversations := by
  induction l generalizing w with
  | nil => exact ⟨rfl, rfl, rfl, rfl⟩
  | cons a l ih =>
    rw [List.foldl_cons]
    have h : (upsertAgent w a).selectedAgent = w.selectedAgent ∧
        (upsertAgent w a).activeBubbles = w.activeBubbles ∧
        (upsertAgent w a).bubbles = w.bubbles ∧
        (upsertAgent w a).activeConversations = w.activeConversations := by
      unfold upsertAgent
      cases mapGet w.agents a.agent_id <;> exact ⟨rfl, rfl, rfl, rfl⟩
    obtain ⟨h1, h2, h3, h4⟩ := ih (upsertAgent w a)
    exact ⟨h1.trans h.1, h2.trans h.2.1, h3.trans h.2.2.1, h4.trans h.2.2.2⟩

theorem foldl_removeStale_destroyed_mono (ids : List JsString) (l : List (JsString × Nat))
    (w : World) (h : Nat) (sp : AgentSprite) (hsp : w.sprites[h]? = some sp) :
    ∃ sp', (l.foldl (removeStale ids) w).sprites[h]? = some sp' ∧
      (sp.destroyed = true → sp'.destroyed = true) :=
  foldl_sprite_rel (fun s t => s.destroyed = true → t.destroyed = true) (fun _ hs => hs)
    (fun _ _ _ h1 h2 hs => h2 (h1 hs)) _
    (fun w x h sp hsp =>
      removeStale_sprite_rel (fun s t => s.destroyed = true → t.destroyed = true)
        (fun _ hs => hs) (fun _ _ => rfl) ids w x h sp hsp)
    l w h sp hsp

theorem foldl_removeStale_destroys (ids : List JsString) (l : List (JsString × Nat))
    (w : World) (id : JsString) (h : Nat) (sp : AgentSprite) (hmem : (id, h) ∈ l)
    (hstale : id ∉ ids) (hsp : w.sprites[h]? = some sp) :
    ∃ sp', (l.foldl (removeStale ids) w).sprites[h]? = some sp' ∧ sp'.destroyed = true := by
  induction l generalizing w sp with
  | nil => simp at hmem
  | cons e l ih =>
    rw [List.foldl_cons]
    rcases List.mem_cons.mp hmem with heq | hl
    · have h1 : (removeStale ids w e).sprites[h]? = some { sp with destroyed := true } := by
        rw [removeStale_sprites, ← heq]
        simp only [hstale, ↓reduceIte, getElem?_modifyAt, hsp, Option.map_some']
      obtain ⟨sp', h2, r⟩ := foldl_removeStale_destroyed_mono ids l _ h _ h1
      exact ⟨sp', h2, r rfl⟩
    · obtain ⟨sp1, h1, _⟩ := removeStale_sprite_rel (fun _ _ => True) (fun _ => trivial)
        (fun _ => trivial) ids w e h sp hsp
      exact ih _ _ hl h1

theorem foldl_removeStale_selectedAgent_none (ids : List JsString) (l : List (JsString × Nat))
    (w : World) (hsel : w.selectedAgent = none) :
    (l.foldl (removeStale ids) w).selectedAgent = none := by
  induction l generalizing w with
  | nil => exact hsel
  | cons e l ih =>
    rw [List.foldl_cons]
    apply ih
    rw [removeStale_selectedAgent, hsel]
    simp

theorem foldl_removeStale_deselects (ids : List JsString) (l : List (JsString × Nat))
    (w : World) (id : JsString) (h : Nat) (hmem : (id, h) ∈ l) (hstale : id ∉ ids)
    (hsel : w.selectedAgent = some h) :
    (l.foldl (removeStale ids) w).selectedAgent = none := by
  induction l generalizing w with
  | nil => simp at hmem
  | cons e l ih =>
    rw [List.foldl_cons]
    by_cases hc : (removeStale ids w e).selectedAgent = none
    · exact foldl_removeStale_selectedAgent_none ids l _ hc
    · rcases List.mem_cons.mp hmem with heq | hl
      · exfalso
        apply hc
        rw [removeStale_selectedAgent, ← heq]
        simp [hstale, hsel]
      · apply ih _ hl
        rw [removeStale_selectedAgent] at hc ⊢
        split
        · exact hsel
        · rename_i hst
          simp only [hst, ↓reduceIte] at hc
          by_cases h2 : w.selectedAgent = some e.2
          · simp [h2] at hc
          · rw [if_neg h2]; exact hsel

theorem mapKeys_mapDelete (m : List (JsString × Nat)) (k id : JsString) :
    id ∈ mapKeys (mapDelete m k) ↔ id ∈ mapKeys m ∧ id ≠ k := by
  simp only [mapKeys, mapDelete, List.mem_map, List.mem_filter, bne_iff_ne, ne_eq]
  constructor
  · rintro ⟨e, ⟨h1, h2⟩, rfl⟩
    exact ⟨⟨e, h1, rfl⟩, h2⟩
  · rintro ⟨⟨e, h1, rfl⟩, h2⟩
    exact ⟨e, ⟨h1, h2⟩, rfl⟩

theorem foldl_removeStale_activeBubbles_sub (ids : List JsString) (l : List (JsString × Nat))
    (w : World) (id : JsString) (hnot : id ∉ mapKeys w.activeBubbles) :
    id ∉ mapKeys (l.foldl (removeStale ids) w).activeBubbles := by
  induction l generalizing w with
  | nil => exact hnot
  | cons e l ih =>
    rw [List.foldl_cons]
    apply ih
    rw [removeStale_activeBubbles]
    split
    · exact hnot
    · rw [mapKeys_mapDelete]
      exact fun h => hnot h.1

theorem foldl_removeStale_unregisters (ids : List JsString) (l : List (JsString × Nat))
    (w : World) (id : JsString) (hmem : id ∈ mapKeys l) (hstale : id ∉ ids) :
    id ∉ mapKeys (l.foldl (removeStale ids) w).activeBubbles := by
  induction l generalizing w with
  | nil => simp [mapKeys] at hmem
  | cons e l ih =>
    rw [List.foldl_cons]
    by_cases he : e.1 = id
    · apply foldl_removeStale_activeBubbles_sub
      rw [removeStale_activeBubbles, he, if_neg hstale, mapKeys_mapDelete]
      exact fun h => h.2 rfl
    · apply ih
      simp only [mapKeys, List.map_cons, List.mem_cons] at hmem
      rcases hmem with h | h
      · exact absurd h.symm he
      · exact h

theorem removeStale_bubble_mono (ids : List JsString) (w : World) (e : JsString × Nat)
    (b : Nat) (bb : Bubble) (hbb : w.bubbles[b]? = some bb) :
    ∃ bb', (removeStale ids w e).bubbles[b]? = some bb' ∧
      (bb.destroyed = true → bb'.destroyed = true) := by
  rw [removeStale_bubbles]
  split
  · exact ⟨bb, hbb, fun h => h⟩
  · cases mapGet w.activeBubbles e.1 with
    | none => exact ⟨bb, hbb, fun h => h⟩
    | some j =>
      exact modifyAt_rel (fun s t : Bubble => s.destroyed = true → t.destroyed = true)
        (fun _ h => h) _ _ (fun _ _ => rfl) _ _ _ hbb

theorem foldl_removeStale_bubble_mono (ids : List JsString) (l : List (JsString × Nat))
    (w : World) (b : Nat) (bb : Bubble) (hbb : w.bubbles[b]? = some bb) :
    ∃ bb', (l.foldl (removeStale ids) w).bubbles[b]? = some bb' ∧
      (bb.destroyed = true → bb'.destroyed = true) := by
  induction l generalizing w bb with
  | nil => exact ⟨bb, hbb, fun h => h⟩
  | cons e l ih =>
    obtain ⟨b1, h1, r1⟩ := removeStale_bubble_mono ids w e b bb hbb
    obtain ⟨b2, h2, r2⟩ := ih (removeStale ids w e) b1 h1
    exact ⟨b2, h2, fun h => r2 (r1 h)⟩

theorem mapGet_mapDelete_of_ne (m : List (JsString × Nat)) (k id : JsString) (hne : id ≠ k) :
    mapGet (mapDelete m k) id = mapGet m id :=
  mapGet_filter_key (fun x => x != k) m id (by simpa using hne)

theorem foldl_removeStale_destroys_bubble (ids : List JsString) (l : List (JsString × Nat))
    (w : World) (id : JsString) (b : Nat) (bb : Bubble) (hmem : id ∈ mapKeys l)
    (hstale : id ∉ ids) (hreg : mapGet w.activeBubbles id = some b)
    (hbb : w.bubbles[b]? = some bb) :
    ∃ bb', (l.foldl (removeStale ids) w).bubbles[b]? = some bb' ∧ bb'.destroyed = true := by
  induction l generalizing w bb with
  | nil => simp [mapKeys] at hmem
  | cons e l ih =>
    rw [List.foldl_cons]
    by_cases he : e.1 = id
    · have h1 : (removeStale ids w e).bubbles[b]? = some { bb with destroyed := true } := by
        rw [removeStale_bubbles, he, if_neg hstale, hreg]
        simp only [getElem?_modifyAt, ↓reduceIte, hbb, Option.map_some']
      obtain ⟨bb', h2, r⟩ := foldl_removeStale_bubble_mono ids l _ b _ h1
      exact ⟨bb', h2, r rfl⟩
    · have hmem' : id ∈ mapKeys l := by
        simp only [mapKeys, List.map_cons, List.mem_cons] at hmem
        rcases hmem with h | h
        · exact absurd h.symm he
        · exact h
      obtain ⟨b1, h1, _⟩ := removeStale_bubble_mono ids w e b bb hbb
      refine ih _ b1 hmem' ?_ h1
      rw [removeStale_activeBubbles]
      split
      · exact hreg
      · rw [mapGet_mapDelete_of_ne _ _ _ (fun h => he h.symm)]
        exact hreg

/-- C5: an identifier that is tracked and absent from the snapshot has, after
`updateAgents`, its sprite destroyed and unregistered; the bubble mapping holds no bubble
for it, and the bubble that was registered for it is destroyed; and when its sprite was the
selected agent, the selection handle is null. -/
theorem updateAgents_removes_absent (w : World) (snapshot : WorldState) (id : JsString)
    (h : Nat) (sp : AgentSprite) (htracked : (id, h) ∈ w.agents)
    (hsp : w.sprites[h]? = some sp)
    (habsent : id ∉ snapshot.agents.map AgentData.agent_id) :
    (∃ sp', (updateAgents w snapshot).sprites[h]? = some sp' ∧ sp'.destroyed = true) ∧
    mapGet (updateAgents w snapshot).agents id = none ∧
    mapGet (updateAgents w snapshot).activeBubbles id = none ∧
    (∀ b bb, mapGet w.activeBubbles id = some b → w.bubbles[b]? = some bb →
      ∃ bb', (updateAgents w snapshot).bubbles[b]? = some bb' ∧ bb'.destroyed = true) ∧
    (w.selectedAgent = some h → (updateAgents w snapshot).selectedAgent = none) := by
  have hkey : id ∈ mapKeys w.agents := mem_mapKeys_of_mem htracked
  refine ⟨?_, ?_, ?_, ?_, ?_⟩
  · unfold updateAgents
    obtain ⟨sp1, h1, d1⟩ := foldl_removeStale_destroys _ w.agents w id h sp htracked habsent hsp
    obtain ⟨sp2, h2, r⟩ := foldl_upsertAgent_sameIdentity snapshot.agents _ h sp1 h1
    exact ⟨sp2, h2, by rw [r.2.2.2.1, d1]⟩
  · rw [mapGet_eq_none_iff, updateAgents_mem_keys]
    exact habsent
  · unfold updateAgents
    rw [(foldl_upsertAgent_selectedAgent _ _).2.1, mapGet_eq_none_iff]
    exact foldl_removeStale_unregisters _ _ _ _ hkey habsent
  · intro b bb hreg hbb
    unfold updateAgents
    rw [(foldl_upsertAgent_selectedAgent _ _).2.2.1]
    exact foldl_removeStale_destroys_bubble _ _ _ _ _ _ hkey habsent hreg hbb
  · intro hsel
    unfold updateAgents
    rw [(foldl_upsertAgent_selectedAgent _ _).1]
    exact foldl_removeStale_deselects _ _ _ _ _ htracked habsent hsel

/-! ## Instances of the claims on `updateAgents` -/

/-- C1 at the snapshots `[A]`, `[A, B]` and then one that lists `A` twice: one key, `A`. -/
theorem updateAgents_keys_eq_snapshot_witness :
    (mapKeys World.init.agents).Nodup ∧
    ((mapKeys (([snapshotA, snapshotAB] ++ [snapshotAA]).foldl updateAgents
        World.init).agents).Nodup ∧
      ∀ id, id ∈ mapKeys (([snapshotA, snapshotAB] ++ [snapshotAA]).foldl updateAgents
          World.init).agents ↔
        id ∈ snapshotAA.agents.map AgentData.agent_id) :=
  ⟨by decide, updateAgents_keys_eq_snapshot World.init [snapshotA, snapshotAB] snapshotAA
    (by decide)⟩

/-- C2 at a selected sprite of `A` for which the snapshot reports `(50, 50)`. -/
theorem updateAgents_selected_position_unchanged_witness :
    mapGet worldSelectedA.agents (js "A") = some 0 ∧
    worldSelectedA.sprites[0]? = some selectedSpriteA ∧
    selectedSpriteA.isSelected = true ∧
    js "A" ∈ snapshotAB.agents.map AgentData.agent_id ∧
    (mapGet (updateAgents worldSelectedA snapshotAB).agents (js "A") = some 0 ∧
      ∃ sp', (updateAgents worldSelectedA snapshotAB).sprites[0]? = some sp' ∧
        sp'.posX = selectedSpriteA.posX ∧ sp'.posY = selectedSpriteA.posY ∧
        sp'.targetX = selectedSpriteA.targetX ∧ sp'.targetY = selectedSpriteA.targetY ∧
        sp'.isSelected = true) :=
  ⟨by decide, by decide!, rfl, by decide,
    updateAgents_selected_position_unchanged worldSelectedA snapshotAB (js "A") 0
      selectedSpriteA (by decide) (by decide!) rfl (by decide)⟩

/-- C3 at the snapshot `[A, B]`, in the world that tracks `A`: `A` keeps its sprite, `B` gets
a new one. -/
theorem updateAgents_keeps_or_creates_witness :
    (js "A" ∈ snapshotAB.agents.map AgentData.agent_id ∧
      registeredUnderOwnId worldSelectedA = true ∧
      mapGet worldSelectedA.agents (js "A") = some 0 ∧
      worldSelectedA.sprites[0]? = some selectedSpriteA ∧
      mapGet (updateAgents worldSelectedA snapshotAB).agents (js "A") = some 0 ∧
      ∃ sp', (updateAgents worldSelectedA snapshotAB).sprites[0]? = some sp' ∧
        sp'.destroyed = selectedSpriteA.destroyed ∧ sp'.agentId = selectedSpriteA.agentId) ∧
    (js "B" ∈ snapshotAB.agents.map AgentData.agent_id ∧
      mapGet worldSelectedA.agents (js "B") = none ∧
      ∃ h', mapGet (updateAgents worldSelectedA snapshotAB).agents (js "B") = some h' ∧
        worldSelectedA.sprites.length ≤ h' ∧
        ∃ sp', (updateAgents worldSelectedA snapshotAB).sprites[h']? = some sp' ∧
          sp'.agentId = js "B" ∧ sp'.destroyed = false) :=
  ⟨⟨by decide, by decide!, by decide, by decide!,
      (updateAgents_keeps_or_creates worldSelectedA snapshotAB (js "A") (by decide)).1 0
        selectedSpriteA (by decide!) (by decide) (by decide!)⟩,
    ⟨by decide, by decide,
      (updateAgents_keeps_or_creates worldSelectedA snapshotAB (js "B") (by decide)).2.1
        (by decide)⟩⟩

/-- C4 at the record `A@(900, 700)`, for a new sprite and for a tracked unselected one. -/
theorem updateAgents_uses_clamped_position_witness :
    (∃ s, (upsertAgent World.init
        { agent_id := js "A", name := js "A", agent_type := js "recruiter",
          x := 900, y := 700, state := js "idle" }).sprites[0]? = some s ∧
      s.posX = 820 ∧ s.posY = 680 ∧ s.targetX = 820 ∧ s.targetY = 680) ∧
    (∃ s, (upsertAgent (updateAgents World.init snapshotA)
        { agent_id := js "A", name := js "A", agent_type := js "recruiter",
          x := 900, y := 700, state := js "idle" }).sprites[0]? = some s ∧
      s.posX = 80 ∧ s.posY = 120 ∧ s.targetX = 820 ∧ s.targetY = 680) := by
  have h1 := updateAgents_uses_clamped_position World.init
    { agent_id := js "A", name := js "A", agent_type := js "recruiter",
      x := 900, y := 700, state := js "idle" }
  have h2 := updateAgents_uses_clamped_position (updateAgents World.init snapshotA)
    { agent_id := js "A", name := js "A", agent_type := js "recruiter",
      x := 900, y := 700, state := js "idle" }
  have ex : adjustedX 900 = 820 := by decide!
  have ey : adjustedY 700 = 680 := by decide!
  constructor
  · obtain ⟨s, e1, _, e3, e4, e5, e6⟩ := h1.2.2.2.2.2.1 (by decide)
    exact ⟨s, e1, e3.trans ex, e4.trans ey, e5.trans ex, e6.trans ey⟩
  · obtain ⟨s, e1, e2, e3⟩ := h2.2.2.2.2.2.2 0
      { agentId := js "A", agentName := js "A", agentType := js "recruiter",
        posX := 80, posY := 120, targetX := 80, targetY := 120,
        isTalking := false, isSelected := false, destroyed := false }
      (by decide) (by decide!) rfl
    refine ⟨s, e1, ?_, ?_, e2.trans ex, e3.trans ey⟩
    · have : (upsertAgent (updateAgents World.init snapshotA)
        { agent_id := js "A", name := js "A", agent_type := js "recruiter",
          x := 900, y := 700, state := js "idle" }).sprites[0]?.map AgentSprite.posX
          = some 80 := by decide!
      rw [e1] at this
      simpa using this
    · have : (upsertAgent (updateAgents World.init snapshotA)
        { agent_id := js "A", name := js "A", agent_type := js "recruiter",
          x := 900, y := 700, state := js "idle" }).sprites[0]?.map AgentSprite.posY
          = some 120 := by decide!
      rw [e1] at this
      simpa using this

/-- C5 at the selected sprite of `A`, with its bubble, when the snapshot lists `B` alone. -/
theorem updateAgents_removes_absent_witness :
    (js "A", 0) ∈ worldSelectedA.agents ∧
    worldSelectedA.sprites[0]? = some selectedSpriteA ∧
    js "A" ∉ snapshotB.agents.map AgentData.agent_id ∧
    ((∃ sp', (updateAgents worldSelectedA snapshotB).sprites[0]? = some sp' ∧
        sp'.destroyed = true) ∧
      mapGet (updateAgents worldSelectedA snapshotB).agents (js "A") = none ∧
      mapGet (updateAgents worldSelectedA snapshotB).activeBubbles (js "A") = none ∧
      (∀ b bb, mapGet worldSelectedA.activeBubbles (js "A") = some b →
        worldSelectedA.bubbles[b]? = some bb →
        ∃ bb', (updateAgents worldSelectedA snapshotB).bubbles[b]? = some bb' ∧
          bb'.destroyed = true) ∧
      (worldSelectedA.selectedAgent = some 0 →
        (updateAgents worldSelectedA snapshotB).selectedAgent = none)) :=
  ⟨by decide, by decide!, by decide,
    updateAgents_removes_absent worldSelectedA snapshotB (js "A") 0 selectedSpriteA
      (by decide) (by decide!) (by decide)⟩

/-! ## Strings -/

theorem js_dash : js "-" = [45] := by decide

theorem strLt_asymm (a b : JsString) (h : strLt a b = true) : strLt b a = false := by
  induction a generalizing b with
  | nil => cases b <;> simp [strLt] at h ⊢
  | cons x xs ih =>
    cases b with
    | nil => simp [strLt] at h
    | cons y ys =>
      simp only [strLt] at h ⊢
      by_cases hxy : x < y
      · have : ¬ y < x := by omega
        simp [hxy, this]
      · by_cases hyx : y < x
        · simp [hxy, hyx] at h
        · simp only [hxy, hyx, ↓reduceIte] at h ⊢
          exact ih ys h

theorem strLt_connex (a b : JsString) (h1 : strLt a b = false) (h2 : strLt b a = false) :
    a = b := by
  induction a generalizing b with
  | nil => cases b <;> simp [strLt] at h1 ⊢
  | cons x xs ih =>
    cases b with
    | nil => simp [strLt] at h2
    | cons y ys =>
      simp only [strLt] at h1 h2
      by_cases hxy : x < y
      · simp [hxy] at h1
      · by_cases hyx : y < x
        · simp [hyx] at h2
        · simp only [hxy, hyx, ↓reduceIte] at h1 h2
          have : x = y := by omega
          rw [this, ih ys h1 h2]

/-- The key of a pair is the two identifiers, smaller first, around a `'-'`. -/
theorem pairKey_eq (a b : JsString) :
    pairKey a b = if strLt b a then b ++ [45] ++ a else a ++ [45] ++ b := by
  unfold pairKey sort2
  rw [js_dash]
  split <;> simp [join]

theorem pairKey_comm (a b : JsString) : pairKey a b = pairKey b a := by
  rw [pairKey_eq, pairKey_eq]
  by_cases hba : strLt b a = true
  · have hab := strLt_asymm b a hba
    simp [hba, hab]
  · by_cases hab : strLt a b = true
    · simp [hba, hab]
    · have : a = b := strLt_connex a b (by simpa using hab) (by simpa using hba)
      simp [this]

theorem includes_iff (k search : JsString) : includes k search = true ↔ search <:+: k := by
  simp only [includes, List.any_eq_true, List.mem_tails, List.isPrefixOf_iff_prefix]
  rw [List.infix_iff_prefix_suffix]
  constructor
  · rintro ⟨t, h1, h2⟩; exact ⟨t, h2, h1⟩
  · rintro ⟨t, h1, h2⟩; exact ⟨t, h2, h1⟩

theorem includes_pairKey_left (a b : JsString) : includes (pairKey a b) a = true := by
  rw [includes_iff, pairKey_eq]
  split
  · exact ⟨b ++ [45], [], by simp⟩
  · exact ⟨[], [45] ++ b, by simp⟩

theorem includes_pairKey_right (a b : JsString) : includes (pairKey a b) b = true := by
  rw [pairKey_comm]
  exact includes_pairKey_left b a

theorem append_dash_inj (x y x' y' : JsString) (hx : 45 ∉ x) (hx' : 45 ∉ x')
    (h : x ++ [45] ++ y = x' ++ [45] ++ y') : x = x' ∧ y = y' := by
  induction x generalizing x' with
  | nil =>
    cases x' with
    | nil => simpa using h
    | cons c cs =>
      simp only [List.nil_append, List.singleton_append, List.cons_append, List.cons.injEq] at h
      exact absurd (by rw [← h.1]; exact List.mem_cons_self _ _) hx'
  | cons c cs ih =>
    cases x' with
    | nil =>
      simp only [List.nil_append, List.singleton_append, List.cons_append, List.cons.injEq] at h
      exact absurd (by rw [h.1]; exact List.mem_cons_self _ _) hx
    | cons d ds =>
      simp only [List.cons_append, List.cons.injEq] at h
      have hx2 : 45 ∉ cs := fun hm => hx (List.mem_cons_of_mem _ hm)
      have hx2' : 45 ∉ ds := fun hm => hx' (List.mem_cons_of_mem _ hm)
      obtain ⟨e1, e2⟩ := ih ds hx2 hx2' (by simpa using h.2)
      exact ⟨by rw [h.1, e1], e2⟩

/-- Identifiers without `'-'` are recovered from the key of their pair, up to order. -/
theorem pairKey_inj (a b c d : JsString) (ha : 45 ∉ a) (hb : 45 ∉ b) (hc : 45 ∉ c)
    (hd : 45 ∉ d) (h : pairKey a b = pairKey c d) :
    (a = c ∧ b = d) ∨ (a = d ∧ b = c) := by
  rw [pairKey_eq, pairKey_eq] at h
  split at h <;> split at h
  · obtain ⟨e1, e2⟩ := append_dash_inj _ _ _ _ hb hd h
    exact Or.inl ⟨e2, e1⟩
  · obtain ⟨e1, e2⟩ := append_dash_inj _ _ _ _ hb hc h
    exact Or.inr ⟨e2, e1⟩
  · obtain ⟨e1, e2⟩ := append_dash_inj _ _ _ _ ha hd h
    exact Or.inr ⟨e1, e2⟩
  · obtain ⟨e1, e2⟩ := append_dash_inj _ _ _ _ ha hc h
    exact Or.inl ⟨e1, e2⟩

/-- C10: the key of `(a, b)` is the key of `(b, a)`; it is the two identifiers joined by
`'-'`, in sorted order: the second is not smaller than the first. -/
theorem pairKey_unordered (a b : JsString) :
    pairKey a b = pairKey b a ∧
    ∃ x y, ((x = a ∧ y = b) ∨ (x = b ∧ y = a)) ∧ strLt y x = false ∧
      pairKey a b = x ++ js "-" ++ y := by
  refine ⟨pairKey_comm a b, ?_⟩
  rw [pairKey_eq, js_dash]
  by_cases hba : strLt b a = true
  · exact ⟨b, a, Or.inr ⟨rfl, rfl⟩, strLt_asymm b a hba, by simp [hba]⟩
  · exact ⟨a, b, Or.inl ⟨rfl, rfl⟩, by simpa using hba, by simp [hba]⟩

/-! ## The proximity check -/

theorem verdict_map_fst (sqrt : ℚ → ℚ) (w : World) (p : Nat × Nat) :
    (verdict sqrt w p).map Prod.fst = differingKey w p := by
  unfold verdict differingKey
  cases w.sprites[p.1]? <;> cases w.sprites[p.2]? <;> simp
  split <;> simp

theorem setTalking_withoutTalking (l : List AgentSprite) (h j : Nat) (v : Bool) :
    ((setTalking l h v)[j]?).map withoutTalking = (l[j]?).map withoutTalking := by
  unfold setTalking
  rw [getElem?_modifyAt]
  split
  · cases l[j]? <;> simp [withoutTalking]
  · rfl

theorem checkPair_agents (sqrt : ℚ → ℚ) (w : World) (p : Nat × Nat) :
    (checkPair sqrt w p).agents = w.agents := by
  unfold checkPair
  cases e1 : w.sprites[p.1]? with
  | none => rfl
  | some a1 =>
    cases e2 : w.sprites[p.2]? with
    | none => rfl
    | some a2 =>
      dsimp only
      by_cases hty : a1.agentType = a2.agentType
      · simp [hty]
      · by_cases hnear : distance sqrt a1 a2 < PROXIMITY_THRESHOLD <;>
          by_cases hin : pairKey a1.agentId a2.agentId ∈ w.activeConversations <;>
          simp [hty, hnear, hin]

theorem checkPair_withoutTalking (sqrt : ℚ → ℚ) (w : World) (p : Nat × Nat) (j : Nat) :
    ((checkPair sqrt w p).sprites[j]?).map withoutTalking =
      (w.sprites[j]?).map withoutTalking := by
  unfold checkPair
  cases e1 : w.sprites[p.1]? with
  | none => rfl
  | some a1 =>
    cases e2 : w.sprites[p.2]? with
    | none => rfl
    | some a2 =>
      dsimp only
      by_cases hty : a1.agentType = a2.agentType
      · simp [hty]
      · by_cases hnear : distance sqrt a1 a2 < PROXIMITY_THRESHOLD <;>
          by_cases hin : pairKey a1.agentId a2.agentId ∈ w.activeConversations
        · simp [hty, hnear, hin]
        · simp only [hty, hnear, hin, ↓reduceIte, not_false_eq_true, setTalking_withoutTalking]
        · simp only [hty, hnear, hin, ↓reduceIte]
          split <;> split <;> simp only [setTalking_withoutTalking]
        · simp [hty, hnear, hin]

theorem verdict_congr (sqrt : ℚ → ℚ) (w w' : World) (p : Nat × Nat)
    (h : ∀ j : Nat,
      (w'.sprites[j]?).map withoutTalking = (w.sprites[j]?).map withoutTalking) :
    verdict sqrt w' p = verdict sqrt w p := by
  have h1 := h p.1
  have h2 := h p.2
  unfold verdict
  cases e1 : w.sprites[p.1]? <;> cases e2 : w.sprites[p.2]? <;>
    cases e3 : w'.sprites[p.1]? <;> cases e4 : w'.sprites[p.2]? <;>
    simp only [e1, e2, e3, e4, Option.map_some', Option.map_none', Option.some.injEq,
      reduceCtorEq] at h1 h2 ⊢
  rename_i a1 a2 b1 b2
  have f1 : b1.agentType = a1.agentType ∧ b1.agentId = a1.agentId ∧ b1.posX = a1.posX ∧
      b1.posY = a1.posY := by
    have := congrArg (fun s : AgentSprite => (s.agentType, s.agentId, s.posX, s.posY)) h1
    simpa [withoutTalking] using this
  have f2 : b2.agentType = a2.agentType ∧ b2.agentId = a2.agentId ∧ b2.posX = a2.posX ∧
      b2.posY = a2.posY := by
    have := congrArg (fun s : AgentSprite => (s.agentType, s.agentId, s.posX, s.posY)) h2
    simpa [withoutTalking] using this
  simp only [distance, f1.1, f1.2.1, f1.2.2.1, f1.2.2.2, f2.1, f2.2.1, f2.2.2.1, f2.2.2.2]

theorem verdict_checkPair (sqrt : ℚ → ℚ) (w : World) (q p : Nat × Nat) :
    verdict sqrt (checkPair sqrt w q) p = verdict sqrt w p :=
  verdict_congr sqrt w _ p (checkPair_withoutTalking sqrt w q)

theorem differingKey_checkPair (sqrt : ℚ → ℚ) (w : World) (q p : Nat × Nat) :
    differingKey (checkPair sqrt w q) p = differingKey w p := by
  rw [← verdict_map_fst sqrt, ← verdict_map_fst sqrt, verdict_checkPair]

/-- The active set after one pair: the key of the pair is in it exactly when the pair is
near; every other key is in it exactly when it was. -/
theorem mem_checkPair_active (sqrt : ℚ → ℚ) (w : World) (p : Nat × Nat) (k : JsString) :
    k ∈ (checkPair sqrt w p).activeConversations ↔
      match verdict sqrt w p with
      | none => k ∈ w.activeConversations
      | some (kp, near) => if k = kp then near = true else k ∈ w.activeConversations := by
  unfold checkPair verdict
  cases e1 : w.sprites[p.1]? with
  | none => simp
  | some a1 =>
    cases e2 : w.sprites[p.2]? with
    | none => simp
    | some a2 =>
      dsimp only
      by_cases hty : a1.agentType = a2.agentType
      · simp [hty]
      · by_cases hnear : distance sqrt a1 a2 < PROXIMITY_THRESHOLD
        · by_cases hin : pairKey a1.agentId a2.agentId ∈ w.activeConversations
          · by_cases hk : k = pairKey a1.agentId a2.agentId
            · simp [hty, hnear, hin, hk]
            · simp [hty, hnear, hin, hk]
          · by_cases hk : k = pairKey a1.agentId a2.agentId
            · simp [hty, hnear, hin, hk]
            · simp [hty, hnear, hin, hk]
        · by_cases hin : pairKey a1.agentId a2.agentId ∈ w.activeConversations
          · by_cases hk : k = pairKey a1.agentId a2.agentId
            · simp [hty, hnear, hin, hk]
            · simp [hty, hnear, hin, hk]
          · by_cases hk : k = pairKey a1.agentId a2.agentId
            · simp [hty, hnear, hin, hk]
            · simp [hty, hnear, hin, hk]

theorem foldl_checkPair_withoutTalking (sqrt : ℚ → ℚ) (l : List (Nat × Nat)) (w : World)
    (j : Nat) :
    (((l.foldl (checkPair sqrt) w).sprites[j]?).map withoutTalking) =
      (w.sprites[j]?).map withoutTalking := by
  induction l generalizing w with
  | nil => rfl
  | cons q l ih => rw [List.foldl_cons, ih, checkPair_withoutTalking]

theorem foldl_checkPair_agents (sqrt : ℚ → ℚ) (l : List (Nat × Nat)) (w : World) :
    (l.foldl (checkPair sqrt) w).agents = w.agents := by
  induction l generalizing w with
  | nil => rfl
  | cons q l ih => rw [List.foldl_cons, ih, checkPair_agents]

theorem differingKey_checkPair_fun (sqrt : ℚ → ℚ) (w : World) (q : Nat × Nat) :
    differingKey (checkPair sqrt w q) = differingKey w :=
  funext fun p => differingKey_checkPair sqrt w q p

theorem differingKey_of_verdict {sqrt : ℚ → ℚ} {w : World} {p : Nat × Nat} {k : JsString}
    {near : Bool} (hv : verdict sqrt w p = some (k, near)) : differingKey w p = some k := by
  rw [← verdict_map_fst sqrt, hv]; rfl

theorem mem_checkPair_active_of_ne (sqrt : ℚ → ℚ) (w : World) (q : Nat × Nat) (k : JsString)
    (hk : differingKey w q ≠ some k) :
    k ∈ (checkPair sqrt w q).activeConversations ↔ k ∈ w.activeConversations := by
  rw [mem_checkPair_active]
  cases hv : verdict sqrt w q with
  | none => simp
  | some x =>
    obtain ⟨kq, near⟩ := x
    have hne : k ≠ kq := by
      intro h
      apply hk
      rw [differingKey_of_verdict hv, h]
    simp [hne]

theorem foldl_checkPair_mem_of_not_key (sqrt : ℚ → ℚ) (l : List (Nat × Nat)) (w : World)
    (k : JsString) (hk : k ∉ l.filterMap (differingKey w)) :
    k ∈ (l.foldl (checkPair sqrt) w).activeConversations ↔ k ∈ w.activeConversations := by
  induction l generalizing w with
  | nil => rfl
  | cons q l ih =>
    rw [List.foldl_cons, ih, mem_checkPair_active_of_ne]
    · intro hq
      apply hk
      simp [List.filterMap_cons, hq]
    · rw [differingKey_checkPair_fun]
      intro hm
      apply hk
      rw [List.filterMap_cons]
      cases differingKey w q with
      | none => exact hm
      | some x => exact List.mem_cons_of_mem _ hm

/-- After the loop over a list of pairs whose keys are pairwise distinct, the key of a pair
of the list is active exactly when the pair is near. -/
theorem foldl_checkPair_mem (sqrt : ℚ → ℚ) (l : List (Nat × Nat)) (w : World)
    (hn : (l.filterMap (differingKey w)).Nodup) (p : Nat × Nat) (hp : p ∈ l) (k : JsString)
    (near : Bool) (hv : verdict sqrt w p = some (k, near)) :
    k ∈ (l.foldl (checkPair sqrt) w).activeConversations ↔ near = true := by
  induction l generalizing w with
  | nil => simp at hp
  | cons q l ih =>
    rw [List.foldl_cons]
    rw [List.filterMap_cons] at hn
    by_cases hq : differingKey w q = some k
    · rw [hq] at hn
      simp only [List.nodup_cons] at hn
      rw [foldl_checkPair_mem_of_not_key]
      · have hvq : ∃ nq, verdict sqrt w q = some (k, nq) := by
          have := verdict_map_fst sqrt w q
          rw [hq] at this
          cases hvq : verdict sqrt w q with
          | none => rw [hvq] at this; cases this
          | some x =>
            rw [hvq] at this
            simp only [Option.map_some', Option.some.injEq] at this
            exact ⟨x.2, by rw [← this]⟩
        obtain ⟨nq, hvq⟩ := hvq
        rcases List.mem_cons.mp hp with rfl | hpl
        · rw [mem_checkPair_active, hv]; simp
        · exfalso
          apply hn.1
          exact List.mem_filterMap.mpr ⟨p, hpl, differingKey_of_verdict hv⟩
      · rw [differingKey_checkPair_fun]; exact hn.1
    · have hpl : p ∈ l := by
        rcases List.mem_cons.mp hp with rfl | hpl
        · exact absurd (differingKey_of_verdict hv) hq
        · exact hpl
      apply ih
      · rw [differingKey_checkPair_fun]
        cases hd : differingKey w q with
        | none => rw [hd] at hn; exact hn
        | some x => rw [hd] at hn; exact (List.nodup_cons.mp hn).2
      · exact hpl
      · rw [verdict_checkPair]; exact hv

/-- C7, as the code has it: immediately after a proximity check, for a pair of tracked
sprites of differing type, the key of the pair is in the active set exactly when the
distance of the two sprites is below the threshold of 100, provided that no two pairs of
tracked sprites of differing type have the same key. So a pair that is farther than 100, or
at exactly 100, is not active, whatever the set held before. -/
theorem checkProximity_active_iff_near (sqrt : ℚ → ℚ) (w : World)
    (hkeys : (differingPairKeys w).Nodup) (p : Nat × Nat)
    (hp : p ∈ pairs (mapValues (checkProximityForConversations sqrt w).agents))
    (agent1 agent2 : AgentSprite)
    (h1 : (checkProximityForConversations sqrt w).sprites[p.1]? = some agent1)
    (h2 : (checkProximityForConversations sqrt w).sprites[p.2]? = some agent2)
    (htype : agent1.agentType ≠ agent2.agentType) :
    (pairKey agent1.agentId agent2.agentId ∈
        (checkProximityForConversations sqrt w).activeConversations ↔
      distance sqrt agent1 agent2 < PROXIMITY_THRESHOLD) ∧
    (distance sqrt agent1 agent2 = 100 →
      pairKey agent1.agentId agent2.agentId ∉
        (checkProximityForConversations sqrt w).activeConversations) ∧
    (100 < distance sqrt agent1 agent2 →
      pairKey agent1.agentId agent2.agentId ∉
        (checkProximityForConversations sqrt w).activeConversations) := by
  have hv' : verdict sqrt (checkProximityForConversations sqrt w) p =
      some (pairKey agent1.agentId agent2.agentId,
        decide (distance sqrt agent1 agent2 < PROXIMITY_THRESHOLD)) := by
    unfold verdict
    rw [h1, h2]
    simp [htype]
  have hv : verdict sqrt w p = some (pairKey agent1.agentId agent2.agentId,
      decide (distance sqrt agent1 agent2 < PROXIMITY_THRESHOLD)) := by
    rw [← hv']
    exact (verdict_congr sqrt w _ p
      (foldl_checkPair_withoutTalking sqrt _ w)).symm
  have hp' : p ∈ pairs (mapValues w.agents) := by
    unfold checkProximityForConversations at hp
    rw [foldl_checkPair_agents] at hp
    exact hp
  have hiff := foldl_checkPair_mem sqrt _ w hkeys p hp' _ _ hv
  have hmain : pairKey agent1.agentId agent2.agentId ∈
      (checkProximityForConversations sqrt w).activeConversations ↔
      distance sqrt agent1 agent2 < PROXIMITY_THRESHOLD := by
    unfold checkProximityForConversations
    rw [hiff]
    simp
  refine ⟨hmain, ?_, ?_⟩
  · intro hd hm
    have := hmain.mp hm
    rw [hd] at this
    exact absurd this (by unfold PROXIMITY_THRESHOLD; norm_num)
  · intro hd hm
    have := hmain.mp hm
    unfold PROXIMITY_THRESHOLD at this
    exact absurd this (not_lt.mpr (le_of_lt hd))

/-! ## Talking flags along the proximity check -/

theorem clear_keeps (convs : List JsString) (l : List AgentSprite) (h' h : Nat)
    (s : AgentSprite) (id : JsString) (hs : l[h]? = some s)
    (hother : h = h' → hasOtherConvo convs id = true) :
    (if !hasOtherConvo convs id then setTalking l h' false else l)[h]? = some s := by
  by_cases hc : hasOtherConvo convs id = true
  · simp [hc, hs]
  · have hne : ¬ h = h' := fun e => hc (hother e)
    simp only [hc, Bool.not_false, ↓reduceIte, setTalking, getElem?_modifyAt, hne]
    simpa using hs

theorem hasOtherConvo_of_mem (convs : List JsString) (k id : JsString) (hk : k ∈ convs)
    (hi : includes k id = true) : hasOtherConvo convs id = true := by
  simp only [hasOtherConvo, List.any_eq_true]
  exact ⟨k, hk, hi⟩

theorem setTalking_true_talking (l : List AgentSprite) (h' h : Nat) (s : AgentSprite)
    (hs : l[h]? = some s) (ht : s.isTalking = true) :
    ∃ s', (setTalking l h' true)[h]? = some s' ∧ s'.isTalking = true ∧
      s'.agentId = s.agentId := by
  simp only [setTalking, getElem?_modifyAt]
  by_cases hh : h = h'
  · subst hh
    simp [hs]
  · simp [hh, hs, ht]

/-- A pair with another key leaves talking a sprite whose identifier an active key
includes. -/
theorem checkPair_keeps_talking (sqrt : ℚ → ℚ) (w : World) (q : Nat × Nat) (k : JsString)
    (h : Nat) (hk : k ∈ w.activeConversations) (hq : differingKey w q ≠ some k)
    (ht : talkingWith k w h) : talkingWith k (checkPair sqrt w q) h := by
  obtain ⟨s, hs, htalk, hinc⟩ := ht
  unfold differingKey at hq
  unfold checkPair
  cases e1 : w.sprites[q.1]? with
  | none => exact ⟨s, hs, htalk, hinc⟩
  | some a1 =>
    cases e2 : w.sprites[q.2]? with
    | none => exact ⟨s, hs, htalk, hinc⟩
    | some a2 =>
      rw [e1, e2] at hq
      dsimp only at hq ⊢
      by_cases hty : a1.agentType = a2.agentType
      · simp only [hty, ↓reduceIte]; exact ⟨s, hs, htalk, hinc⟩
      · simp only [hty, ↓reduceIte, ne_eq, Option.some.injEq] at hq
        by_cases hnear : distance sqrt a1 a2 < PROXIMITY_THRESHOLD <;>
          by_cases hin : pairKey a1.agentId a2.agentId ∈ w.activeConversations
        · simp only [hty, hnear, hin, ↓reduceIte, not_true_eq_false]
          exact ⟨s, hs, htalk, hinc⟩
        · simp only [hty, hnear, hin, ↓reduceIte, not_false_eq_true]
          obtain ⟨s1, f1, g1, i1⟩ := setTalking_true_talking w.sprites q.1 h s hs htalk
          obtain ⟨s2, f2, g2, i2⟩ := setTalking_true_talking _ q.2 h s1 f1 g1
          exact ⟨s2, f2, g2, by rw [i2, i1]; exact hinc⟩
        · simp only [hty, hnear, hin, ↓reduceIte]
          have hkc : k ∈ w.activeConversations.filter
              fun x => x != pairKey a1.agentId a2.agentId := by
            simp only [List.mem_filter, bne_iff_ne, ne_eq]
            exact ⟨hk, fun e => hq e.symm⟩
          refine ⟨s, ?_, htalk, hinc⟩
          apply clear_keeps
          · apply clear_keeps _ _ _ _ _ _ hs
            intro e
            rw [e, e1] at hs
            cases hs
            exact hasOtherConvo_of_mem _ k _ hkc hinc
          · intro e
            rw [e, e2] at hs
            cases hs
            exact hasOtherConvo_of_mem _ k _ hkc hinc
        · simp only [hty, hnear, hin, ↓reduceIte]
          exact ⟨s, hs, htalk, hinc⟩

/-- A near pair whose key is not yet active has both its sprites talking afterwards. -/
theorem checkPair_sets_talking (sqrt : ℚ → ℚ) (w : World) (p : Nat × Nat) (k : JsString)
    (hv : verdict sqrt w p = some (k, true)) (hk : k ∉ w.activeConversations) :
    talkingWith k (checkPair sqrt w p) p.1 ∧ talkingWith k (checkPair sqrt w p) p.2 := by
  unfold verdict at hv
  unfold checkPair
  cases e1 : w.sprites[p.1]? with
  | none => rw [e1] at hv; cases hv
  | some a1 =>
    cases e2 : w.sprites[p.2]? with
    | none => rw [e1, e2] at hv; cases hv
    | some a2 =>
      rw [e1, e2] at hv
      dsimp only at hv ⊢
      by_cases hty : a1.agentType = a2.agentType
      · simp [hty] at hv
      · simp only [hty, ↓reduceIte, Option.some.injEq, Prod.mk.injEq, decide_eq_true_eq] at hv
        obtain ⟨hkey, hnear⟩ := hv
        rw [hkey]
        simp only [hty, hnear, hk, ↓reduceIte, not_false_eq_true]
        unfold talkingWith
        simp only [setTalking, getElem?_modifyAt]
        constructor
        · by_cases h12 : p.1 = p.2
          · simp only [h12, ↓reduceIte, e2, Option.map_some']
            rw [h12, e2] at e1
            cases e1
            exact absurd rfl hty
          · simp only [h12, ↓reduceIte, e1, Option.map_some']
            exact ⟨_, rfl, rfl, by rw [← hkey]; exact includes_pairKey_left _ _⟩
        · by_cases h12 : p.2 = p.1
          · rw [h12, e1] at e2
            cases e2
            exact absurd rfl hty
          · simp only [↓reduceIte, h12, e2, Option.map_some']
            exact ⟨_, rfl, rfl, by rw [← hkey]; exact includes_pairKey_right _ _⟩

theorem foldl_checkPair_keeps_talking (sqrt : ℚ → ℚ) (l : List (Nat × Nat)) (w : World)
    (k : JsString) (h : Nat) (hk : k ∈ w.activeConversations)
    (hl : k ∉ l.filterMap (differingKey w)) (ht : talkingWith k w h) :
    talkingWith k (l.foldl (checkPair sqrt) w) h := by
  induction l generalizing w with
  | nil => exact ht
  | cons q l ih =>
    rw [List.foldl_cons]
    rw [List.filterMap_cons] at hl
    have hq : differingKey w q ≠ some k := by
      intro e
      rw [e] at hl
      exact hl (List.mem_cons_self _ _)
    have hl' : k ∉ l.filterMap (differingKey w) := by
      intro hm
      apply hl
      cases differingKey w q with
      | none => exact hm
      | some x => exact List.mem_cons_of_mem _ hm
    apply ih
    · rw [mem_checkPair_active_of_ne sqrt w q k hq]; exact hk
    · rw [differingKey_checkPair_fun]; exact hl'
    · exact checkPair_keeps_talking sqrt w q k h hk hq ht

/-- Along the loop over pairs with pairwise distinct keys, a near pair ends with both its
sprites talking when, at the start, its key was not active or both were talking. -/
theorem foldl_checkPair_talking (sqrt : ℚ → ℚ) (l : List (Nat × Nat)) (w : World)
    (hn : (l.filterMap (differingKey w)).Nodup) (p : Nat × Nat) (hp : p ∈ l) (k : JsString)
    (hv : verdict sqrt w p = some (k, true))
    (hpre : k ∉ w.activeConversations ∨ (talkingWith k w p.1 ∧ talkingWith k w p.2)) :
    talkingWith k (l.foldl (checkPair sqrt) w) p.1 ∧
      talkingWith k (l.foldl (checkPair sqrt) w) p.2 := by
  induction l generalizing w with
  | nil => simp at hp
  | cons q l ih =>
    rw [List.foldl_cons]
    rw [List.filterMap_cons] at hn
    have hdk := differingKey_of_verdict hv
    by_cases hq : differingKey w q = some k
    · rw [hq] at hn
      simp only [List.nodup_cons] at hn
      have hvq : verdict sqrt w q = some (k, true) := by
        rcases List.mem_cons.mp hp with rfl | hpl
        · exact hv
        · exact absurd (List.mem_filterMap.mpr ⟨p, hpl, hdk⟩) hn.1
      have hkin : k ∈ (checkPair sqrt w q).activeConversations := by
        rw [mem_checkPair_active, hvq]; simp
      have hpq : p = q := by
        rcases List.mem_cons.mp hp with rfl | hpl
        · rfl
        · exact absurd (List.mem_filterMap.mpr ⟨p, hpl, hdk⟩) hn.1
      subst hpq
      have hnot : k ∉ l.filterMap (differingKey (checkPair sqrt w p)) := by
        rw [differingKey_checkPair_fun]; exact hn.1
      have hstep : talkingWith k (checkPair sqrt w p) p.1 ∧
          talkingWith k (checkPair sqrt w p) p.2 := by
        by_cases hin : k ∈ w.activeConversations
        · rcases hpre with hpre | hpre
          · exact absurd hin hpre
          · have hsame : checkPair sqrt w p = w := by
              unfold verdict at hv
              unfold checkPair
              cases e1 : w.sprites[p.1]? with
              | none => rfl
              | some a1 =>
                cases e2 : w.sprites[p.2]? with
                | none => rfl
                | some a2 =>
                  rw [e1, e2] at hv
                  dsimp only at hv ⊢
                  by_cases hty : a1.agentType = a2.agentType
                  · simp [hty]
                  · simp only [hty, ↓reduceIte, Option.some.injEq, Prod.mk.injEq,
                      decide_eq_true_eq] at hv
                    rw [← hv.1] at hin
                    simp [hty, hv.2, hin]
            rw [hsame]; exact hpre
        · exact checkPair_sets_talking sqrt w p k hv hin
      exact ⟨foldl_checkPair_keeps_talking sqrt l _ k p.1 hkin hnot hstep.1,
        foldl_checkPair_keeps_talking sqrt l _ k p.2 hkin hnot hstep.2⟩
    · have hpl : p ∈ l := by
        rcases List.mem_cons.mp hp with rfl | hpl
        · exact absurd hdk hq
        · exact hpl
      apply ih
      · rw [differingKey_checkPair_fun]
        cases hd : differingKey w q with
        | none => rw [hd] at hn; exact hn
        | some x => rw [hd] at hn; exact (List.nodup_cons.mp hn).2
      · exact hpl
      · rw [verdict_checkPair]; exact hv
      · rcases hpre with hpre | hpre
        · left
          rw [mem_checkPair_active_of_ne sqrt w q k hq]; exact hpre
        · by_cases hin : k ∈ w.activeConversations
          · right
            exact ⟨checkPair_keeps_talking sqrt w q k p.1 hin hq hpre.1,
              checkPair_keeps_talking sqrt w q k p.2 hin hq hpre.2⟩
          · left
            rw [mem_checkPair_active_of_ne sqrt w q k hq]; exact hin

/-- C8: when one step of a proximity check turns the talking flag of a sprite from set to
clear, no key of the active set at that moment includes the identifier of the sprite; so
the set holds no key of a pair that the sprite is part of. -/
theorem checkPair_clears_only_without_pair (sqrt : ℚ → ℚ) (w : World) (p : Nat × Nat)
    (h : Nat) (s s' : AgentSprite) (hs : w.sprites[h]? = some s)
    (htalk : s.isTalking = true) (hs' : (checkPair sqrt w p).sprites[h]? = some s')
    (hclear : s'.isTalking = false) :
    hasOtherConvo (checkPair sqrt w p).activeConversations s.agentId = false ∧
    ∀ other, pairKey s.agentId other ∉ (checkPair sqrt w p).activeConversations ∧
      pairKey other s.agentId ∉ (checkPair sqrt w p).activeConversations := by
  have hno : hasOtherConvo (checkPair sqrt w p).activeConversations s.agentId = false := by
    have hcontra : ∀ t : AgentSprite, t.isTalking = true → some t ≠ some s' := by
      intro t ht e
      cases e
      rw [ht] at hclear
      cases hclear
    unfold checkPair at hs' ⊢
    cases e1 : w.sprites[p.1]? with
    | none =>
      rw [e1] at hs'
      simp only at hs'
      exact absurd (hs.symm.trans hs') (hcontra s htalk)
    | some a1 =>
      cases e2 : w.sprites[p.2]? with
      | none =>
        rw [e1, e2] at hs'
        simp only at hs'
        exact absurd (hs.symm.trans hs') (hcontra s htalk)
      | some a2 =>
        rw [e1, e2] at hs'
        dsimp only at hs' ⊢
        by_cases hty : a1.agentType = a2.agentType
        · simp only [hty, ↓reduceIte] at hs'
          exact absurd (hs.symm.trans hs') (hcontra s htalk)
        · by_cases hnear : distance sqrt a1 a2 < PROXIMITY_THRESHOLD <;>
            by_cases hin : pairKey a1.agentId a2.agentId ∈ w.activeConversations
          · simp only [hty, hnear, hin, ↓reduceIte, not_true_eq_false] at hs'
            exact absurd (hs.symm.trans hs') (hcontra s htalk)
          · simp only [hty, hnear, hin, ↓reduceIte, not_false_eq_true] at hs'
            obtain ⟨s1, f1, g1, _⟩ := setTalking_true_talking w.sprites p.1 h s hs htalk
            obtain ⟨s2, f2, g2, _⟩ := setTalking_true_talking _ p.2 h s1 f1 g1
            exact absurd (f2.symm.trans hs') (hcontra s2 g2)
          · simp only [hty, hnear, hin, ↓reduceIte] at hs' ⊢
            by_contra hother
            have hother' : hasOtherConvo (w.activeConversations.filter
                fun k => k != pairKey a1.agentId a2.agentId) s.agentId = true := by
              simpa using hother
            have : (if !hasOtherConvo (w.activeConversations.filter
                  fun k => k != pairKey a1.agentId a2.agentId) a2.agentId then
                setTalking (if !hasOtherConvo (w.activeConversations.filter
                  fun k => k != pairKey a1.agentId a2.agentId) a1.agentId then
                  setTalking w.sprites p.1 false else w.sprites) p.2 false
                else (if !hasOtherConvo (w.activeConversations.filter
                  fun k => k != pairKey a1.agentId a2.agentId) a1.agentId then
                  setTalking w.sprites p.1 false else w.sprites))[h]? = some s := by
              apply clear_keeps
              · apply clear_keeps _ _ _ _ _ _ hs
                intro e
                rw [e, e1] at hs
                cases hs
                exact hother'
              · intro e
                rw [e, e2] at hs
                cases hs
                exact hother'
            exact absurd (this.symm.trans hs') (hcontra s htalk)
          · simp only [hty, hnear, hin, ↓reduceIte] at hs'
            exact absurd (hs.symm.trans hs') (hcontra s htalk)
  refine ⟨hno, fun other => ⟨?_, ?_⟩⟩
  · intro hm
    rw [hasOtherConvo_of_mem _ _ _ hm (includes_pairKey_left _ _)] at hno
    cases hno
  · intro hm
    rw [hasOtherConvo_of_mem _ _ _ hm (includes_pairKey_right _ _)] at hno
    cases hno

/-- C9, as the code has it: immediately after a proximity check, both sprites of a pair of
tracked sprites of differing type that is nearer than 100 have their talking flag set,
when before the check the key of the pair was not active or both flags were set, and no two
pairs of tracked sprites of differing type have the same key. -/
theorem checkProximity_near_pair_talking (sqrt : ℚ → ℚ) (w : World)
    (hkeys : (differingPairKeys w).Nodup) (p : Nat × Nat)
    (hp : p ∈ pairs (mapValues w.agents)) (agent1 agent2 : AgentSprite)
    (h1 : w.sprites[p.1]? = some agent1) (h2 : w.sprites[p.2]? = some agent2)
    (htype : agent1.agentType ≠ agent2.agentType)
    (hnear : distance sqrt agent1 agent2 < PROXIMITY_THRESHOLD)
    (hpre : pairKey agent1.agentId agent2.agentId ∉ w.activeConversations ∨
      (agent1.isTalking = true ∧ agent2.isTalking = true)) :
    ∃ after1 after2,
      (checkProximityForConversations sqrt w).sprites[p.1]? = some after1 ∧
      (checkProximityForConversations sqrt w).sprites[p.2]? = some after2 ∧
      after1.isTalking = true ∧ after2.isTalking = true ∧
      distance sqrt after1 after2 = distance sqrt agent1 agent2 ∧
      pairKey agent1.agentId agent2.agentId ∈
        (checkProximityForConversations sqrt w).activeConversations := by
  have hv : verdict sqrt w p = some (pairKey agent1.agentId agent2.agentId, true) := by
    unfold verdict
    rw [h1, h2]
    simp [htype, hnear]
  have hpre' : pairKey agent1.agentId agent2.agentId ∉ w.activeConversations ∨
      (talkingWith (pairKey agent1.agentId agent2.agentId) w p.1 ∧
        talkingWith (pairKey agent1.agentId agent2.agentId) w p.2) := by
    rcases hpre with hpre | hpre
    · exact Or.inl hpre
    · exact Or.inr ⟨⟨agent1, h1, hpre.1, includes_pairKey_left _ _⟩,
        ⟨agent2, h2, hpre.2, includes_pairKey_right _ _⟩⟩
  obtain ⟨⟨a1, e1, t1, _⟩, ⟨a2, e2, t2, _⟩⟩ :=
    foldl_checkPair_talking sqrt _ w hkeys p hp _ hv hpre'
  have hmem := (foldl_checkPair_mem sqrt _ w hkeys p hp _ _ hv).mpr rfl
  refine ⟨a1, a2, e1, e2, t1, t2, ?_, hmem⟩
  have g1 := foldl_checkPair_withoutTalking sqrt (pairs (mapValues w.agents)) w p.1
  have g2 := foldl_checkPair_withoutTalking sqrt (pairs (mapValues w.agents)) w p.2
  rw [e1, h1] at g1
  rw [e2, h2] at g2
  simp only [Option.map_some', Option.some.injEq] at g1 g2
  have f1 : a1.posX = agent1.posX ∧ a1.posY = agent1.posY := by
    have := congrArg (fun s : AgentSprite => (s.posX, s.posY)) g1
    simpa [withoutTalking] using this
  have f2 : a2.posX = agent2.posX ∧ a2.posY = agent2.posY := by
    have := congrArg (fun s : AgentSprite => (s.posX, s.posY)) g2
    simpa [withoutTalking] using this
  simp only [distance, f1.1, f1.2, f2.1, f2.2]

/-! ## Runs: where sprites and active keys come from -/

theorem forall_mem_modifyAt {α : Type} (P : α → Prop) (l : List α) (h : Nat) (f : α → α)
    (hl : ∀ s ∈ l, P s) (hf : ∀ s, P s → P (f s)) : ∀ s ∈ modifyAt l h f, P s := by
  intro s hs
  obtain ⟨i, hi⟩ := List.mem_iff_getElem?.mp hs
  rw [getElem?_modifyAt] at hi
  split at hi
  · cases e : l[i]? with
    | none => rw [e] at hi; cases hi
    | some t =>
      rw [e] at hi
      simp only [Option.map_some', Option.some.injEq] at hi
      rw [← hi]
      exact hf t (hl t (List.mem_iff_getElem?.mpr ⟨i, e⟩))
  · exact hl s (List.mem_iff_getElem?.mpr ⟨i, hi⟩)

theorem fromRecords_removeStale (S : List (JsString × JsString)) (ids : List JsString)
    (w : World) (e : JsString × Nat) (hw : fromRecords S w) :
    fromRecords S (removeStale ids w e) := by
  refine ⟨?_, ?_⟩
  · rw [removeStale_sprites]
    split
    · exact hw.1
    · exact forall_mem_modifyAt _ _ _ _ hw.1 (fun s hs => hs)
  · rw [removeStale_activeConversations]
    exact hw.2

theorem fromRecords_upsertAgent (S : List (JsString × JsString)) (w : World) (a : AgentData)
    (ha : (a.agent_id, a.agent_type) ∈ S) (hw : fromRecords S w) :
    fromRecords S (upsertAgent w a) := by
  refine ⟨?_, ?_⟩
  · rw [upsertAgent_sprites]
    cases mapGet w.agents a.agent_id with
    | none =>
      simp only [createAgentSprite]
      intro s hs
      rcases List.mem_append.mp hs with h | h
      · exact hw.1 s h
      · rw [List.mem_singleton] at h
        rw [h]
        exact ha
    | some j =>
      apply forall_mem_modifyAt _ _ _ _ hw.1
      intro s hs
      unfold updateAgentPosition
      cases s.isSelected <;> exact hs
  · have hact := (foldl_upsertAgent_selectedAgent [a] w).2.2.2
    simp only [List.foldl_cons, List.foldl_nil] at hact
    rw [hact]
    exact hw.2

theorem fromRecords_updateAgents (S : List (JsString × JsString)) (w : World)
    (ws : WorldState) (ha : ∀ a ∈ ws.agents, (a.agent_id, a.agent_type) ∈ S)
    (hw : fromRecords S w) : fromRecords S (updateAgents w ws) := by
  unfold updateAgents
  have h1 : ∀ (l : List (JsString × Nat)) (w : World), fromRecords S w →
      fromRecords S (l.foldl (removeStale (ws.agents.map AgentData.agent_id)) w) := by
    intro l
    induction l with
    | nil => exact fun w hw => hw
    | cons e l ih => exact fun w hw => ih _ (fromRecords_removeStale S _ w e hw)
  have h2 : ∀ (l : List AgentData) (w : World), (∀ a ∈ l, (a.agent_id, a.agent_type) ∈ S) →
      fromRecords S w → fromRecords S (l.foldl upsertAgent w) := by
    intro l
    induction l with
    | nil => exact fun w _ hw => hw
    | cons a l ih =>
      exact fun w hl hw => ih _ (fun x hx => hl x (List.mem_cons_of_mem _ hx))
        (fromRecords_upsertAgent S w a (hl a (List.mem_cons_self _ _)) hw)
  exact h2 _ _ ha (h1 _ _ hw)

theorem fromRecords_moveAgent (S : List (JsString × JsString)) (sqrt : ℚ → ℚ) (w : World)
    (e : JsString × Nat) (hw : fromRecords S w) : fromRecords S (moveAgent sqrt w e) := by
  refine ⟨?_, hw.2⟩
  unfold moveAgent
  apply forall_mem_modifyAt _ _ _ _ hw.1
  intro s hs
  unfold moveSprite
  dsimp only
  split <;> exact hs

theorem fromRecords_checkPair (S : List (JsString × JsString)) (sqrt : ℚ → ℚ) (w : World)
    (p : Nat × Nat) (hw : fromRecords S w) : fromRecords S (checkPair sqrt w p) := by
  refine ⟨?_, ?_⟩
  · intro s hs
    obtain ⟨i, hi⟩ := List.mem_iff_getElem?.mp hs
    have hwt := checkPair_withoutTalking sqrt w p i
    rw [hi] at hwt
    cases e : w.sprites[i]? with
    | none => rw [e] at hwt; cases hwt
    | some t =>
      rw [e] at hwt
      simp only [Option.map_some', Option.some.injEq] at hwt
      have := congrArg (fun s : AgentSprite => (s.agentId, s.agentType)) hwt
      simp only [withoutTalking] at this
      rw [this]
      exact hw.1 t (List.mem_iff_getElem?.mpr ⟨i, e⟩)
  · intro k hk
    rw [mem_checkPair_active] at hk
    cases hv : verdict sqrt w p with
    | none => rw [hv] at hk; exact hw.2 k hk
    | some x =>
      obtain ⟨kp, near⟩ := x
      rw [hv] at hk
      simp only at hk
      by_cases hkk : k = kp
      · unfold verdict at hv
        cases e1 : w.sprites[p.1]? with
        | none => rw [e1] at hv; cases hv
        | some a1 =>
          cases e2 : w.sprites[p.2]? with
          | none => rw [e1, e2] at hv; cases hv
          | some a2 =>
            rw [e1, e2] at hv
            dsimp only at hv
            by_cases hty : a1.agentType = a2.agentType
            · simp [hty] at hv
            · simp only [hty, ↓reduceIte, Option.some.injEq, Prod.mk.injEq] at hv
              refine ⟨(a1.agentId, a1.agentType),
                hw.1 a1 (List.mem_iff_getElem?.mpr ⟨p.1, e1⟩),
                (a2.agentId, a2.agentType),
                hw.1 a2 (List.mem_iff_getElem?.mpr ⟨p.2, e2⟩), hty, ?_⟩
              rw [hkk, ← hv.1]
      · simp only [hkk, ↓reduceIte] at hk
        exact hw.2 k hk

theorem fromRecords_onUpdate (S : List (JsString × JsString)) (sqrt : ℚ → ℚ) (w : World)
    (hw : fromRecords S w) : fromRecords S (onUpdate sqrt w) := by
  unfold onUpdate checkProximityForConversations
  have h1 : ∀ (l : List (JsString × Nat)) (w : World), fromRecords S w →
      fromRecords S (l.foldl (moveAgent sqrt) w) := by
    intro l
    induction l with
    | nil => exact fun w hw => hw
    | cons e l ih => exact fun w hw => ih _ (fromRecords_moveAgent S sqrt w e hw)
  have h2 : ∀ (l : List (Nat × Nat)) (w : World), fromRecords S w →
      fromRecords S (l.foldl (checkPair sqrt) w) := by
    intro l
    induction l with
    | nil => exact fun w hw => hw
    | cons e l ih => exact fun w hw => ih _ (fromRecords_checkPair S sqrt w e hw)
  exact h2 _ _ (h1 _ _ hw)

theorem fromRecords_run (sqrt : ℚ → ℚ) (events : List Event) :
    fromRecords (reported events) (run sqrt events) := by
  have h : ∀ (l : List Event) (w : World) (S : List (JsString × JsString)),
      (∀ x ∈ reported l, x ∈ S) → fromRecords S w →
      fromRecords S (l.foldl (step sqrt) w) := by
    intro l
    induction l with
    | nil => exact fun w S _ hw => hw
    | cons e l ih =>
      intro w S hS hw
      rw [List.foldl_cons]
      apply ih
      · intro x hx
        apply hS
        simp only [reported, List.flatMap_cons, List.mem_append]
        exact Or.inr hx
      · cases e with
        | frame => exact fromRecords_onUpdate S sqrt w hw
        | worldState data =>
          apply fromRecords_updateAgents S w data _ hw
          intro a ha
          apply hS
          simp only [reported, List.flatMap_cons, List.mem_append, List.mem_map]
          exact Or.inl ⟨a, ha, rfl⟩
  apply h events World.init _ (fun x hx => hx)
  exact ⟨fun s hs => by simp [World.init] at hs, fun k hk => by simp [World.init] at hk⟩

/-! ## Runs: every sprite is registered under its own identifier -/

theorem ownId_of_rel (w w' : World) (hsub : ∀ e ∈ w'.agents, e ∈ w.agents)
    (hrel : ∀ (h : Nat) (s : AgentSprite), w.sprites[h]? = some s →
      ∃ s', w'.sprites[h]? = some s' ∧ s'.agentId = s.agentId)
    (hw : registeredUnderOwnId w = true) : registeredUnderOwnId w' = true := by
  rw [registeredUnderOwnId_iff] at hw ⊢
  intro e he
  obtain ⟨s, hs, hid⟩ := hw e (hsub e he)
  obtain ⟨s', hs', hid'⟩ := hrel _ s hs
  exact ⟨s', hs', hid'.trans hid⟩

theorem ownId_removeStale (ids : List JsString) (w : World) (e : JsString × Nat)
    (hw : registeredUnderOwnId w = true) : registeredUnderOwnId (removeStale ids w e) = true := by
  apply ownId_of_rel w _ _ _ hw
  · rw [removeStale_agents]
    split
    · exact fun x hx => hx
    · exact fun x hx => (List.mem_filter.mp hx).1
  · exact fun h s hs => removeStale_sprite_rel (fun s t => t.agentId = s.agentId)
      (fun _ => rfl) (fun _ => rfl) ids w e h s hs

theorem ownId_upsertAgent (w : World) (a : AgentData)
    (hw : registeredUnderOwnId w = true) : registeredUnderOwnId (upsertAgent w a) = true := by
  have hrel : ∀ (h : Nat) (s : AgentSprite), w.sprites[h]? = some s →
      ∃ s', (upsertAgent w a).sprites[h]? = some s' ∧ s'.agentId = s.agentId := by
    intro h s hs
    obtain ⟨s', e1, r⟩ := upsertAgent_sprite_rel sameIdentity sameIdentity_refl
      sameIdentity_update w a h s hs
    exact ⟨s', e1, r.1⟩
  by_cases hk : a.agent_id ∈ mapKeys w.agents
  · apply ownId_of_rel w _ _ hrel hw
    rw [upsertAgent_agents, if_pos hk]
    exact fun x hx => hx
  · rw [registeredUnderOwnId_iff] at hw ⊢
    intro e he
    rw [upsertAgent_agents, if_neg hk] at he
    rcases List.mem_append.mp he with hold | hnew
    · obtain ⟨s, hs, hid⟩ := hw e hold
      obtain ⟨s', hs', hid'⟩ := hrel _ s hs
      exact ⟨s', hs', hid'.trans hid⟩
    · rw [List.mem_singleton] at hnew
      rw [hnew, upsertAgent_sprites, (mapGet_eq_none_iff _ _).mpr hk]
      simp only [createAgentSprite]
      rw [List.getElem?_append_right (le_refl _)]
      simp

theorem ownId_moveAgent (sqrt : ℚ → ℚ) (w : World) (e : JsString × Nat)
    (hw : registeredUnderOwnId w = true) : registeredUnderOwnId (moveAgent sqrt w e) = true := by
  refine ownId_of_rel w (moveAgent sqrt w e) (fun x hx => hx) ?_ hw
  intro h s hs
  unfold moveAgent
  dsimp only
  apply modifyAt_rel (fun s t : AgentSprite => t.agentId = s.agentId) (fun _ => rfl) _ _ _ _ _ _ hs
  intro t
  unfold moveSprite
  dsimp only
  split <;> rfl

theorem ownId_checkPair (sqrt : ℚ → ℚ) (w : World) (p : Nat × Nat)
    (hw : registeredUnderOwnId w = true) : registeredUnderOwnId (checkPair sqrt w p) = true := by
  apply ownId_of_rel w _ _ _ hw
  · rw [checkPair_agents]; exact fun x hx => hx
  · intro h s hs
    have hwt := checkPair_withoutTalking sqrt w p h
    rw [hs] at hwt
    cases e : (checkPair sqrt w p).sprites[h]? with
    | none => rw [e] at hwt; cases hwt
    | some t =>
      rw [e] at hwt
      simp only [Option.map_some', Option.some.injEq] at hwt
      exact ⟨t, rfl, by simpa [withoutTalking] using congrArg AgentSprite.agentId hwt⟩

theorem foldl_preserves {β : Type} (P : World → Prop) (f : World → β → World)
    (hf : ∀ w x, P w → P (f w x)) (l : List β) (w : World) (hw : P w) : P (l.foldl f w) := by
  induction l generalizing w with
  | nil => exact hw
  | cons x l ih => exact ih _ (hf w x hw)

/-- In every state of a run, every entry of the sprite mapping points to a sprite whose
`agentId` is the key of the entry. -/
theorem registeredUnderOwnId_run (sqrt : ℚ → ℚ) (events : List Event) :
    registeredUnderOwnId (run sqrt events) = true := by
  unfold run
  apply foldl_preserves (fun w => registeredUnderOwnId w = true)
  · intro w e hw
    cases e with
    | frame =>
      exact foldl_preserves _ _ (fun w p hw => ownId_checkPair sqrt w p hw) _ _
        (foldl_preserves _ _ (fun w x hw => ownId_moveAgent sqrt w x hw) _ _ hw)
    | worldState data =>
      exact foldl_preserves _ _ (fun w a hw => ownId_upsertAgent w a hw) _ _
        (foldl_preserves _ _ (fun w x hw => ownId_removeStale _ w x hw) _ _ hw)
  · rfl

/-- In every state of a run, the sprite mapping has one entry per key. -/
theorem mapKeys_nodup_run (sqrt : ℚ → ℚ) (events : List Event) :
    (mapKeys (run sqrt events).agents).Nodup := by
  unfold run
  apply foldl_preserves (fun w => (mapKeys w.agents).Nodup)
  · intro w e hw
    cases e with
    | frame =>
      show (mapKeys (onUpdate sqrt w).agents).Nodup
      unfold onUpdate checkProximityForConversations
      rw [foldl_checkPair_agents]
      exact foldl_preserves (fun w => (mapKeys w.agents).Nodup) (moveAgent sqrt)
        (fun w x hw => hw) _ _ hw
    | worldState data => exact updateAgents_nodup w data hw
  · exact List.nodup_nil

/-- C6, as the code has it: in a state reached from the initial state by snapshot updates and
frame updates, no two tracked sprites of the same type have their pair key in the active
set, when the snapshots always report an identifier with the same type and no reported
identifier contains `'-'`. The two sprites carry the identifiers they are tracked under. -/
theorem same_type_pair_not_active (sqrt : ℚ → ℚ) (events : List Event)
    (htypes : ∀ x ∈ reported events, ∀ y ∈ reported events, x.1 = y.1 → x.2 = y.2)
    (hdash : ∀ x ∈ reported events, 45 ∉ x.1)
    (id1 id2 : JsString) (h1 h2 : Nat) (s1 s2 : AgentSprite)
    (ht1 : (id1, h1) ∈ (run sqrt events).agents) (ht2 : (id2, h2) ∈ (run sqrt events).agents)
    (hs1 : (run sqrt events).sprites[h1]? = some s1)
    (hs2 : (run sqrt events).sprites[h2]? = some s2)
    (hsame : s1.agentType = s2.agentType) :
    s1.agentId = id1 ∧ s2.agentId = id2 ∧
      pairKey id1 id2 ∉ (run sqrt events).activeConversations := by
  have hreg := (registeredUnderOwnId_iff _).mp (registeredUnderOwnId_run sqrt events)
  obtain ⟨t1, ht1', hid1⟩ := hreg _ ht1
  obtain ⟨t2, ht2', hid2⟩ := hreg _ ht2
  simp only at ht1' ht2' hid1 hid2
  rw [hs1] at ht1'
  rw [hs2] at ht2'
  cases ht1'
  cases ht2'
  refine ⟨hid1, hid2, ?_⟩
  rw [← hid1, ← hid2]
  intro hk
  obtain ⟨hsp, hact⟩ := fromRecords_run sqrt events
  obtain ⟨x, hx, y, hy, hxy, hkey⟩ := hact _ hk
  have m1 := hsp s1 (List.mem_iff_getElem?.mpr ⟨h1, hs1⟩)
  have m2 := hsp s2 (List.mem_iff_getElem?.mpr ⟨h2, hs2⟩)
  rcases pairKey_inj _ _ _ _ (hdash _ m1) (hdash _ m2) (hdash _ hx) (hdash _ hy) hkey with
    ⟨e1, e2⟩ | ⟨e1, e2⟩
  · have t1 := htypes _ m1 _ hx e1
    have t2 := htypes _ m2 _ hy e2
    simp only at t1 t2
    exact hxy (by rw [← t1, ← t2]; exact hsame)
  · have t1 := htypes _ m1 _ hy e1
    have t2 := htypes _ m2 _ hx e2
    simp only at t1 t2
    exact hxy (by rw [← t1, ← t2]; exact hsame.symm)

/-! ## Instances of the claims on the proximity check -/

/-- C6 fails as stated. When `B` leaves while the pair `A`, `B` is active and comes back with
the type of `A`, the key `A-B` is still in the active set, for two tracked recruiters. And
when two recruiters `a-b` and `c` are tracked beside a recruiter `a` near a candidate `b-c`,
the key `a-b-c` of the two recruiters is in the active set. -/
theorem same_type_pair_active_counterexample :
    (∃ s1 s2, (js "A", 0) ∈ (run sqrtQ eventsRetyped).agents ∧
      (js "B", 2) ∈ (run sqrtQ eventsRetyped).agents ∧
      (run sqrtQ eventsRetyped).sprites[0]? = some s1 ∧
      (run sqrtQ eventsRetyped).sprites[2]? = some s2 ∧
      s1.agentType = s2.agentType ∧
      pairKey s1.agentId s2.agentId ∈ (run sqrtQ eventsRetyped).activeConversations) ∧
    (∃ s1 s2, (js "a-b", 0) ∈ (run sqrtQ [.worldState snapshotSharedKey, .frame]).agents ∧
      (js "c", 1) ∈ (run sqrtQ [.worldState snapshotSharedKey, .frame]).agents ∧
      (run sqrtQ [.worldState snapshotSharedKey, .frame]).sprites[0]? = some s1 ∧
      (run sqrtQ [.worldState snapshotSharedKey, .frame]).sprites[1]? = some s2 ∧
      s1.agentType = s2.agentType ∧
      pairKey s1.agentId s2.agentId ∈
        (run sqrtQ [.worldState snapshotSharedKey, .frame]).activeConversations) :=
  ⟨⟨{ talkingSprite "A" "recruiter" 100 200 with isTalking := false },
      { talkingSprite "B" "recruiter" 130 240 with isTalking := false },
      by decide!, by decide!, by decide!, by decide!, by decide!, by decide!⟩,
    ⟨{ talkingSprite "a-b" "recruiter" 100 200 with isTalking := false },
      { talkingSprite "c" "recruiter" 500 200 with isTalking := false },
      by decide!, by decide!, by decide!, by decide!, by decide!, by decide!⟩⟩

/-- C6 at the run of the snapshot of `A`, `B`, `C` and one frame, for the recruiters `A` and
`C`. -/
theorem same_type_pair_not_active_witness :
    (∀ x ∈ reported [.worldState snapshotThree, .frame],
      ∀ y ∈ reported [.worldState snapshotThree, .frame], x.1 = y.1 → x.2 = y.2) ∧
    (∀ x ∈ reported [.worldState snapshotThree, .frame], 45 ∉ x.1) ∧
    (js "A", 0) ∈ (run sqrtQ [.worldState snapshotThree, .frame]).agents ∧
    (js "C", 2) ∈ (run sqrtQ [.worldState snapshotThree, .frame]).agents ∧
    (run sqrtQ [.worldState snapshotThree, .frame]).sprites[0]? =
      some (talkingSprite "A" "recruiter" 100 200) ∧
    (run sqrtQ [.worldState snapshotThree, .frame]).sprites[2]? =
      some (talkingSprite "C" "recruiter" 110 210) ∧
    (talkingSprite "A" "recruiter" 100 200).agentType =
      (talkingSprite "C" "recruiter" 110 210).agentType ∧
    pairKey (js "A") (js "C") ∉
      (run sqrtQ [.worldState snapshotThree, .frame]).activeConversations :=
  ⟨by decide, by decide, by decide!, by decide!, by decide!, by decide!, rfl,
    (same_type_pair_not_active sqrtQ [.worldState snapshotThree, .frame] (by decide)
      (by decide) (js "A") (js "C") 0 2 (talkingSprite "A" "recruiter" 100 200)
      (talkingSprite "C" "recruiter" 110 210) (by decide!) (by decide!) (by decide!)
      (by decide!) rfl).2.2⟩

/-- C7 fails as stated. After the check of the snapshot in which `a-b`, `c` are 50 apart and
`a`, `b-c` are 500 apart, the tracked pair `a-b`, `c` of differing type is nearer than 100
and its key is not in the active set: the far pair, which has the same key, removed it. -/
theorem checkProximity_shared_key_counterexample :
    ∃ agent1 agent2,
      (0, 1) ∈ pairs (mapValues (checkProximityForConversations sqrtQ
        (updateAgents World.init snapshotSharedKeyFar)).agents) ∧
      (checkProximityForConversations sqrtQ
        (updateAgents World.init snapshotSharedKeyFar)).sprites[0]? = some agent1 ∧
      (checkProximityForConversations sqrtQ
        (updateAgents World.init snapshotSharedKeyFar)).sprites[1]? = some agent2 ∧
      agent1.agentType ≠ agent2.agentType ∧
      distance sqrtQ agent1 agent2 < PROXIMITY_THRESHOLD ∧
      pairKey agent1.agentId agent2.agentId ∉
        (checkProximityForConversations sqrtQ
          (updateAgents World.init snapshotSharedKeyFar)).activeConversations :=
  ⟨talkingSprite "a-b" "recruiter" 100 200, talkingSprite "c" "candidate" 130 240,
    by decide!, by decide!, by decide!, by decide!, by decide!, by decide!⟩

/-- C7 at the check of the snapshot of `A` and `B`, 50 apart. -/
theorem checkProximity_active_iff_near_witness :
    (differingPairKeys (updateAgents World.init snapshotNear)).Nodup ∧
    (pairKey (js "A") (js "B") ∈ (checkProximityForConversations sqrtQ
        (updateAgents World.init snapshotNear)).activeConversations ↔
      distance sqrtQ (talkingSprite "A" "recruiter" 100 200)
        (talkingSprite "B" "candidate" 130 240) < PROXIMITY_THRESHOLD) :=
  ⟨by decide!,
    (checkProximity_active_iff_near sqrtQ (updateAgents World.init snapshotNear) (by decide!)
      (0, 1) (by decide!) (talkingSprite "A" "recruiter" 100 200)
      (talkingSprite "B" "candidate" 130 240) (by decide!) (by decide!) (by decide)).1⟩

/-- C8 at the pair `A`, `B` that is active and 500 apart: the flag of `A` is cleared, and no
key that includes `A` is left. -/
theorem checkPair_clears_only_without_pair_witness :
    worldApart.sprites[0]? = some (talkingSprite "A" "recruiter" 100 200) ∧
    (checkPair sqrtQ worldApart (0, 1)).sprites[0]? =
      some { talkingSprite "A" "recruiter" 100 200 with isTalking := false } ∧
    hasOtherConvo (checkPair sqrtQ worldApart (0, 1)).activeConversations (js "A") = false :=
  ⟨by decide!, by decide!,
    (checkPair_clears_only_without_pair sqrtQ worldApart (0, 1) 0
      (talkingSprite "A" "recruiter" 100 200)
      { talkingSprite "A" "recruiter" 100 200 with isTalking := false }
      (by decide!) rfl (by decide!) rfl).1⟩

/-- C9 fails as stated. After a snapshot, a frame, the same snapshot again and a frame, the
recruiter `A` and the candidate `B` are tracked and 50 apart, and the talking flag of `A` is
clear: the snapshot cleared it, and the check does not set it for a key that is active. -/
theorem near_pair_not_talking_counterexample :
    ∃ agent1 agent2,
      (0, 1) ∈ pairs (mapValues (run sqrtQ [.worldState snapshotNear, .frame,
        .worldState snapshotNear, .frame]).agents) ∧
      (run sqrtQ [.worldState snapshotNear, .frame,
        .worldState snapshotNear, .frame]).sprites[0]? = some agent1 ∧
      (run sqrtQ [.worldState snapshotNear, .frame,
        .worldState snapshotNear, .frame]).sprites[1]? = some agent2 ∧
      agent1.agentType ≠ agent2.agentType ∧
      distance sqrtQ agent1 agent2 < PROXIMITY_THRESHOLD ∧
      agent1.isTalking = false :=
  ⟨{ talkingSprite "A" "recruiter" 100 200 with isTalking := false },
    { talkingSprite "B" "candidate" 130 240 with isTalking := false },
    by decide!, by decide!, by decide!, by decide!, by decide!, rfl⟩

/-- C9 at the check of the snapshot of `A` and `B`, 50 apart, whose key is not yet active. -/
theorem checkProximity_near_pair_talking_witness :
    (differingPairKeys (updateAgents World.init snapshotNear)).Nodup ∧
    pairKey (js "A") (js "B") ∉ (updateAgents World.init snapshotNear).activeConversations ∧
    ∃ after1 after2,
      (checkProximityForConversations sqrtQ
        (updateAgents World.init snapshotNear)).sprites[0]? = some after1 ∧
      (checkProximityForConversations sqrtQ
        (updateAgents World.init snapshotNear)).sprites[1]? = some after2 ∧
      after1.isTalking = true ∧ after2.isTalking = true :=
  ⟨by decide!, by decide!, by
    obtain ⟨a1, a2, e1, e2, t1, t2, _⟩ :=
      checkProximity_near_pair_talking sqrtQ (updateAgents World.init snapshotNear)
        (by decide!) (0, 1) (by decide!)
        { talkingSprite "A" "recruiter" 100 200 with isTalking := false }
        { talkingSprite "B" "candidate" 130 240 with isTalking := false }
        (by decide!) (by decide!) (by decide) (by decide!) (Or.inl (by decide!))
    exact ⟨a1, a2, e1, e2, t1, t2⟩⟩

/-! ## websocket.js: the reconnect counter -/

theorem withinCeiling_wsStep (c : WorldWebSocket) (e : WsEvent) (hc : withinCeiling c) :
    withinCeiling (wsStep c e) := by
  obtain ⟨hmax, hle⟩ := hc
  cases e with
  | connect =>
    simp only [wsStep, WorldWebSocket.connect]
    split
    · split <;> exact ⟨hmax, hle⟩
    · exact ⟨hmax, hle⟩
  | disconnect =>
    simp only [wsStep, WorldWebSocket.disconnect]
    split <;> exact ⟨hmax, hle⟩
  | timeout =>
    simp only [wsStep]
    split
    · exact ⟨hmax, hle⟩
    · simp only [WorldWebSocket.connect]
      split
      · split <;> exact ⟨hmax, hle⟩
      · exact ⟨hmax, hle⟩
  | socketOpen socket =>
    simp only [wsStep, WorldWebSocket.onopen]
    split
    · exact ⟨hmax, Nat.zero_le _⟩
    · exact ⟨hmax, hle⟩
  | socketMessage socket parsed =>
    simp only [wsStep, WorldWebSocket.onmessage, WorldWebSocket.onmessageTry]
    split
    · cases parsed with
      | none => exact ⟨hmax, hle⟩
      | some data =>
        cases hd : data.type with
        | error e => simp only [hd]; exact ⟨hmax, hle⟩
        | ok t =>
          simp only [hd]
          cases notPing t <;> exact ⟨hmax, hle⟩
    · exact ⟨hmax, hle⟩
  | socketError socket =>
    simp only [wsStep, WorldWebSocket.onerror]
    split <;> exact ⟨hmax, hle⟩
  | socketClose socket =>
    simp only [wsStep, WorldWebSocket.onclose]
    split
    · split
      · rename_i hlt
        simp only [hmax] at hlt
        exact ⟨hmax, hlt⟩
      · exact ⟨hmax, hle⟩
    · exact ⟨hmax, hle⟩

theorem withinCeiling_wsRun (events : List WsEvent) : withinCeiling (wsRun events) := by
  have h : ∀ (l : List WsEvent) (c : WorldWebSocket), withinCeiling c →
      withinCeiling (l.foldl wsStep c) := by
    intro l
    induction l with
    | nil => exact fun c hc => hc
    | cons e l ih => exact fun c hc => ih _ (withinCeiling_wsStep c e hc)
  exact h events _ ⟨rfl, Nat.zero_le _⟩

/-- C12: in every state of a `WorldWebSocket` that a sequence of `connect`, timeout, open,
message, error, close and `disconnect` events reaches, `reconnectAttempts` is at most
`maxReconnectAttempts`, which is 5; and a close event while the counter is 5 leaves the
counter at 5 and the pending timeouts as they were: no reconnect is scheduled. -/
theorem reconnectAttempts_le_ceiling (events : List WsEvent) :
    (wsRun events).maxReconnectAttempts = 5 ∧
    (wsRun events).reconnectAttempts ≤ (wsRun events).maxReconnectAttempts ∧
    ((wsRun events).reconnectAttempts = 5 → ∀ socket,
      (wsStep (wsRun events) (.socketClose socket)).reconnectAttempts = 5 ∧
      (wsStep (wsRun events) (.socketClose socket)).timeouts = (wsRun events).timeouts) := by
  obtain ⟨hmax, hle⟩ := withinCeiling_wsRun events
  refine ⟨hmax, by rw [hmax]; exact hle, ?_⟩
  intro h5 socket
  simp only [wsStep, WorldWebSocket.onclose]
  split
  · simp only [hmax, h5, lt_self_iff_false, ↓reduceIte, and_self]
  · exact ⟨h5, rfl⟩

/-- C12 at a connection that fails five times: the counter is 5, and the close of the sixth
socket leaves it at 5 and schedules nothing. -/
theorem reconnectAttempts_le_ceiling_witness :
    (wsRun eventsFiveFailures).reconnectAttempts = 5 ∧
    (wsRun eventsFiveFailures).sockets.length = 6 ∧
    (wsRun eventsFiveFailures).timeouts = [] ∧
    (wsStep (wsRun eventsFiveFailures) (.socketClose 5)).reconnectAttempts = 5 ∧
    (wsStep (wsRun eventsFiveFailures) (.socketClose 5)).timeouts = [] :=
  ⟨by decide, by decide, by decide,
    ((reconnectAttempts_le_ceiling eventsFiveFailures).2.2 (by decide) 5).1,
    ((reconnectAttempts_le_ceiling eventsFiveFailures).2.2 (by decide) 5).2.trans (by decide)⟩

/-- C15: on every close event of a socket of the instance, the close callback is called
once; when `reconnectAttempts` is below 5 the counter grows by one and one call of `connect`
is scheduled, after 2000 ms; otherwise the counter and the pending timeouts stay as they
are. The event changes nothing else but the state of the socket. -/
theorem close_event_effect (events : List WsEvent) (socket : Nat)
    (hsocket : socket < (wsRun events).sockets.length) :
    (wsStep (wsRun events) (.socketClose socket)).onCloseCalls
      = (wsRun events).onCloseCalls + 1 ∧
    ((wsRun events).reconnectAttempts < 5 →
      (wsStep (wsRun events) (.socketClose socket)).reconnectAttempts
        = (wsRun events).reconnectAttempts + 1 ∧
      (wsStep (wsRun events) (.socketClose socket)).timeouts
        = (wsRun events).timeouts ++ [2000]) ∧
    (¬ (wsRun events).reconnectAttempts < 5 →
      (wsStep (wsRun events) (.socketClose socket)).reconnectAttempts
        = (wsRun events).reconnectAttempts ∧
      (wsStep (wsRun events) (.socketClose socket)).timeouts = (wsRun events).timeouts) ∧
    (wsStep (wsRun events) (.socketClose socket)).ws = (wsRun events).ws ∧
    (wsStep (wsRun events) (.socketClose socket)).onErrorCalls = (wsRun events).onErrorCalls ∧
    (wsStep (wsRun events) (.socketClose socket)).onMessageCalls
      = (wsRun events).onMessageCalls := by
  obtain ⟨hmax, _⟩ := withinCeiling_wsRun events
  simp only [wsStep, hsocket, ↓reduceIte, WorldWebSocket.onclose, hmax]
  by_cases hlt : (wsRun events).reconnectAttempts < 5
  · simp [hlt]
  · simp [hlt]

/-- C15 at the close of the socket of a connection that has just opened. -/
theorem close_event_effect_witness :
    0 < (wsRun [.connect, .socketOpen 0]).sockets.length ∧
    (wsRun [.connect, .socketOpen 0]).reconnectAttempts < 5 ∧
    (wsStep (wsRun [.connect, .socketOpen 0]) (.socketClose 0)).onCloseCalls = 1 ∧
    (wsStep (wsRun [.connect, .socketOpen 0]) (.socketClose 0)).reconnectAttempts = 1 ∧
    (wsStep (wsRun [.connect, .socketOpen 0]) (.socketClose 0)).timeouts = [2000] :=
  ⟨by decide, by decide,
    (close_event_effect [.connect, .socketOpen 0] 0 (by decide)).1,
    ((close_event_effect [.connect, .socketOpen 0] 0 (by decide)).2.1 (by decide)).1,
    ((close_event_effect [.connect, .socketOpen 0] 0 (by decide)).2.1 (by decide)).2⟩

/-! ## websocket.js: `disconnect` and the frames -/

/-- C13, on the code: after a connection has opened and `disconnect` has closed its socket,
the close event of that socket schedules a call of `connect` after 2000 ms and counts one
attempt; when the timeout runs, `connect` creates a second socket and makes it current. -/
theorem disconnect_then_close_reconnects :
    (wsRun [.connect, .socketOpen 0, .disconnect]).ws = none ∧
    (wsRun [.connect, .socketOpen 0, .disconnect]).sockets = [ReadyState.CLOSING] ∧
    (wsRun [.connect, .socketOpen 0, .disconnect]).timeouts = [] ∧
    (wsRun eventsDisconnect).timeouts = [2000] ∧
    (wsRun eventsDisconnect).reconnectAttempts = 1 ∧
    (wsRun (eventsDisconnect ++ [.timeout])).ws = some 1 ∧
    (wsRun (eventsDisconnect ++ [.timeout])).sockets
      = [ReadyState.CLOSED, ReadyState.CONNECTING] := by
  decide

theorem type_of_not_null (v : Json) (h : v.isNull = false) : v.type = .ok (typeField v) := by
  cases v <;> simp only [Json.type, typeField, Json.isNull] at h ⊢
  cases h

theorem notPing_eq (t : Option Json) : notPing t = !isPingString t := by
  cases t with
  | none => rfl
  | some v => cases v <;> simp [notPing, isPingString, bne]

/-- C14, as the code has it: the handler of a frame raises no error. It calls the message
callback, once and with the parsed value, exactly when the text of the frame parses as JSON
to a value that is not `null` and whose type field is not `'ping'`; for a frame that does
not parse, a frame that is `null` and a ping frame it calls nothing and leaves the instance
(socket, counter, pending timeouts) as it was. -/
theorem onmessage_dispatch (c : WorldWebSocket) (parsed : Option Json) :
    ∃ c1, c.onmessage parsed = .ok c1 ∧
      (∀ v, parsed = some v → v.isNull = false → isPingString (typeField v) = false →
        c1 = { c with onMessageCalls := c.onMessageCalls ++ [v] }) ∧
      (parsed = none → c1 = c) ∧
      (∀ v, parsed = some v → v.isNull = true → c1 = c) ∧
      (∀ v, parsed = some v → isPingString (typeField v) = true → c1 = c) := by
  cases parsed with
  | none =>
    refine ⟨c, rfl, ?_, fun _ => rfl, ?_, ?_⟩ <;> intro v hv <;> cases hv
  | some data =>
    cases hnull : data.isNull with
    | true =>
      have hd : data = Json.null := by
        cases data <;> simp [Json.isNull] at hnull
        rfl
      subst hd
      refine ⟨c, rfl, ?_, ?_, fun _ _ _ => rfl, fun _ _ _ => rfl⟩
      · intro v hv hn
        cases hv
        simp [Json.isNull] at hn
      · intro h; cases h
    | false =>
      have ht := type_of_not_null data hnull
      cases hp : isPingString (typeField data) with
      | true =>
        have h1 : c.onmessage (some data) = .ok c := by
          simp only [WorldWebSocket.onmessage, WorldWebSocket.onmessageTry, ht, notPing_eq, hp,
            Bool.not_true, Bool.false_eq_true, ↓reduceIte]
        refine ⟨c, h1, ?_, ?_, fun _ _ _ => rfl, fun _ _ _ => rfl⟩
        · intro v hv _ hnp
          cases hv
          rw [hp] at hnp
          cases hnp
        · intro h; cases h
      | false =>
        have h1 : c.onmessage (some data) =
            .ok { c with onMessageCalls := c.onMessageCalls ++ [data] } := by
          simp only [WorldWebSocket.onmessage, WorldWebSocket.onmessageTry, ht, notPing_eq, hp,
            Bool.not_false, ↓reduceIte]
        refine ⟨_, h1, ?_, ?_, ?_, ?_⟩
        · intro v hv _ _
          cases hv
          rfl
        · intro h; cases h
        · intro v hv hn
          cases hv
          rw [hnull] at hn
          cases hn
        · intro v hv hnp
          cases hv
          rw [hp] at hnp
          cases hnp

/-- C14 fails as stated. The frame `null` parses as JSON, and the value `null` has no type
field that is `'ping'`; the handler reads the property `type` of `null`, which throws, and
the `catch` drops the frame: the message callback is not called. -/
theorem onmessage_null_counterexample :
    isPingString (typeField Json.null) = false ∧
    Json.null.type = .error JsError.TypeError ∧
    WorldWebSocket.new.connect.onmessage (some Json.null) = .ok WorldWebSocket.new.connect ∧
    WorldWebSocket.new.connect.onMessageCalls = [] :=
  ⟨rfl, rfl, rfl, rfl⟩

/-- C14 at a `world_state` frame, which is dispatched, and at a ping frame, which is not. -/
theorem onmessage_dispatch_witness :
    (∃ c1, WorldWebSocket.new.connect.onmessage (some frameWorldState) = .ok c1 ∧
      c1 = { WorldWebSocket.new.connect with onMessageCalls := [frameWorldState] }) ∧
    (∃ c1, WorldWebSocket.new.connect.onmessage (some framePing) = .ok c1 ∧
      c1 = WorldWebSocket.new.connect) := by
  obtain ⟨c1, h1, d1, _, _, _⟩ := onmessage_dispatch WorldWebSocket.new.connect
    (some frameWorldState)
  obtain ⟨c2, h2, _, _, _, p2⟩ := onmessage_dispatch WorldWebSocket.new.connect
    (some framePing)
  exact ⟨⟨c1, h1, d1 frameWorldState rfl rfl (by decide)⟩,
    ⟨c2, h2, p2 framePing rfl (by decide)⟩⟩

/-! ## api.js: `getMatches` -/

theorem getMatchesUrl_of_ne_zero (toString : ℚ → JsString) (m : ℚ) (hm : m ≠ 0) :
    getMatchesUrl toString (some m) =
      API_BASE_URL ++ js "/conversation/matches?min_score=" ++ toString m := by
  simp [getMatchesUrl, hm]

/-- C18, on the code: for the minimum score 0 the URL that `getMatches` requests is
`API_BASE_URL + '/conversation/matches'`, as when no minimum score is passed; it is not
`API_BASE_URL + '/conversation/matches?min_score=' + 0`, whatever the digits of 0 are. -/
theorem getMatches_zero_without_query (toString : ℚ → JsString) :
    getMatchesUrl toString (some 0) = API_BASE_URL ++ js "/conversation/matches" ∧
    getMatchesUrl toString none = API_BASE_URL ++ js "/conversation/matches" ∧
    getMatchesUrl toString (some 0) ≠
      API_BASE_URL ++ js "/conversation/matches?min_score=" ++ toString 0 := by
  have h0 : getMatchesUrl toString (some 0) = API_BASE_URL ++ js "/conversation/matches" := by
    simp [getMatchesUrl]
  refine ⟨h0, rfl, ?_⟩
  rw [h0]
  intro h
  have hsplit : js "/conversation/matches?min_score=" =
      js "/conversation/matches" ++ js "?min_score=" := by decide
  rw [hsplit, List.append_assoc, List.append_assoc] at h
  have h1 := List.append_cancel_left h
  have h2 : js "/conversation/matches" ++ [] =
      js "/conversation/matches" ++ (js "?min_score=" ++ toString 0) := by
    rw [List.append_nil]; exact h1
  have h3 := List.append_cancel_left h2
  have h4 : (js "?min_score=" ++ toString 0).length = 0 := by rw [← h3]; rfl
  rw [List.length_append] at h4
  have h5 : (js "?min_score=").length = 11 := by decide
  omega

/-! ## `updateAgents` and the active set -/

theorem foldl_removeStale_activeConversations (ids : List JsString)
    (l : List (JsString × Nat)) (w : World) :
    (l.foldl (removeStale ids) w).activeConversations = w.activeConversations := by
  induction l generalizing w with
  | nil => rfl
  | cons e l ih => rw [List.foldl_cons, ih, removeStale_activeConversations]

theorem updateAgents_activeConversations (w : World) (ws : WorldState) :
    (updateAgents w ws).activeConversations = w.activeConversations := by
  unfold updateAgents
  rw [(foldl_upsertAgent_selectedAgent _ _).2.2.2, foldl_removeStale_activeConversations]

/-- C11, on the code: `updateAgents` leaves the active set as it is. After the snapshot of
`A` and `B` and a frame, the key `A-B` is active; the snapshot of `A` alone removes `B` from
the sprite mapping, and the key `A-B` is still in the active set. -/
theorem updateAgents_keeps_key_of_removed :
    (∀ (w : World) (snapshot : WorldState),
      (updateAgents w snapshot).activeConversations = w.activeConversations) ∧
    mapGet (run sqrtQ [.worldState snapshotNear, .frame]).agents (js "B") = some 1 ∧
    pairKey (js "A") (js "B") ∈
      (run sqrtQ [.worldState snapshotNear, .frame]).activeConversations ∧
    mapGet (run sqrtQ [.worldState snapshotNear, .frame, .worldState snapshotAlone]).agents
      (js "B") = none ∧
    (run sqrtQ [.worldState snapshotNear, .frame, .worldState snapshotAlone]).sprites.map
      AgentSprite.destroyed = [false, true] ∧
    pairKey (js "A") (js "B") ∈
      (run sqrtQ [.worldState snapshotNear, .frame,
        .worldState snapshotAlone]).activeConversations :=
  ⟨updateAgents_activeConversations, by decide!, by decide!, by decide!, by decide!,
    by decide!⟩

/-! ## Speech bubbles -/

theorem filter_key_map_set (m : List (JsString × Nat)) (k : JsString) (v : Nat)
    (hn : (mapKeys m).Nodup) :
    (m.map fun e => if e.1 == k then (k, v) else e).filter (fun e => e.1 == k) =
      if k ∈ mapKeys m then [(k, v)] else [] := by
  induction m with
  | nil => rfl
  | cons e m ih =>
    have hn' : e.1 ∉ mapKeys m ∧ (mapKeys m).Nodup := List.nodup_cons.mp hn
    have ih' := ih hn'.2
    rw [List.map_cons, List.filter_cons]
    by_cases he : e.1 = k
    · have hb : (e.1 == k) = true := by simpa using he
      have hk : k ∉ mapKeys m := by rw [← he]; exact hn'.1
      have hmem : k ∈ mapKeys (e :: m) := by
        rw [← he]; exact List.mem_cons_self _ _
      rw [if_neg hk] at ih'
      simp only [hb, ↓reduceIte, beq_self_eq_true, ih', hmem]
    · have hb : (e.1 == k) = false := by simpa using he
      have hiff : k ∈ mapKeys (e :: m) ↔ k ∈ mapKeys m := by
        simp only [mapKeys, List.map_cons, List.mem_cons]
        constructor
        · rintro (h | h)
          · exact absurd h.symm he
          · exact h
        · exact Or.inr
      simp only [hb, Bool.false_eq_true, ↓reduceIte, ih', hiff]

theorem filter_key_of_not_mem (m : List (JsString × Nat)) (k : JsString)
    (hk : k ∉ mapKeys m) : m.filter (fun e => e.1 == k) = [] := by
  simp only [List.filter_eq_nil_iff, beq_iff_eq]
  intro e he heq
  exact hk (List.mem_map.mpr ⟨e, he, heq⟩)

/-- After `Map.prototype.set`, the map has one entry for the key: the new value. -/
theorem filter_key_mapSet (m : List (JsString × Nat)) (k : JsString) (v : Nat)
    (hn : (mapKeys m).Nodup) :
    (mapSet m k v).filter (fun e => e.1 == k) = [(k, v)] := by
  unfold mapSet
  by_cases hh : mapHas m k = true
  · rw [if_pos hh, filter_key_map_set m k v hn, if_pos ((mapHas_iff m k).mp hh)]
  · rw [if_neg hh, List.filter_append,
      filter_key_of_not_mem m k (fun hk => hh ((mapHas_iff m k).mpr hk))]
    simp

theorem mapGet_map_set_of_ne (m : List (JsString × Nat)) (k id : JsString) (v : Nat)
    (hne : id ≠ k) :
    mapGet (m.map fun e => if e.1 == k then (k, v) else e) id = mapGet m id := by
  induction m with
  | nil => rfl
  | cons e m ih =>
    have ih' : (List.find? (fun e => e.1 == id)
        (m.map fun e => if e.1 == k then (k, v) else e)).map Prod.snd
        = (List.find? (fun e => e.1 == id) m).map Prod.snd := ih
    show (List.find? (fun e => e.1 == id)
        ((e :: m).map fun e => if e.1 == k then (k, v) else e)).map Prod.snd
        = (List.find? (fun e => e.1 == id) (e :: m)).map Prod.snd
    rw [List.map_cons, List.find?_cons, List.find?_cons]
    by_cases he : e.1 = k
    · have hb : (e.1 == k) = true := by simpa using he
      have h1 : (k == id) = false := by simpa using fun h : k = id => hne h.symm
      have h2 : (e.1 == id) = false := by rw [he]; exact h1
      simp only [hb, ↓reduceIte, h1, h2]
      exact ih'
    · have hb : (e.1 == k) = false := by simpa using he
      simp only [hb, Bool.false_eq_true, ↓reduceIte]
      cases hid : e.1 == id with
      | true => rfl
      | false => exact ih'

theorem mapGet_mapSet_of_ne (m : List (JsString × Nat)) (k id : JsString) (v : Nat)
    (hne : id ≠ k) : mapGet (mapSet m k v) id = mapGet m id := by
  unfold mapSet
  split
  · exact mapGet_map_set_of_ne m k id v hne
  · exact mapGet_append_of_ne m id k v (fun h => hne h.symm)

theorem showSpeechBubble_of_sprite (s : Scene) (agent : Nat) (a : AgentSprite)
    (ha : s.world.sprites[agent]? = some a) :
    (showSpeechBubble s agent).world.activeBubbles
        = mapSet s.world.activeBubbles a.agentId s.world.bubbles.length ∧
    (showSpeechBubble s agent).world.bubbles
        = (match mapGet s.world.activeBubbles a.agentId with
           | some old => modifyAt s.world.bubbles old fun x => { x with destroyed := true }
           | none => s.world.bubbles) ++
          [{ posX := a.posX, posY := a.posY - 70, destroyed := false }] ∧
    (showSpeechBubble s agent).waits
        = s.waits ++ [{ seconds := 6, agent := agent, bubble := s.world.bubbles.length }] := by
  unfold showSpeechBubble
  rw [ha]
  cases h : mapGet s.world.activeBubbles a.agentId <;> simp [h, length_modifyAt]

theorem handleConversationTurn_of_first (s : Scene) (turn : Turn) (now : Nat) (speaker : Nat)
    (hfirst : (mapValues s.world.agents).find? (matchesTurn s.world turn) = some speaker) :
    handleConversationTurn s turn now =
      addToLog (showSpeechBubble s speaker) turn.speaker_name turn.content turn.role now := by
  unfold handleConversationTurn
  have hfind : ((mapValues s.world.agents).filter (hasRole s.world turn.role)).find?
      (hasName s.world turn.speaker_name) = some speaker := by
    rw [List.find?_filter]
    have hp : (fun h => decide (hasRole s.world turn.role h = true ∧
        hasName s.world turn.speaker_name h = true)) = matchesTurn s.world turn := by
      funext h
      simp [matchesTurn]
    rw [hp]
    exact hfirst
  have hpos : ((mapValues s.world.agents).filter (hasRole s.world turn.role)).length > 0 := by
    have := List.mem_of_find?_eq_some hfind
    exact List.length_pos_of_mem this
  simp only [hpos, ↓reduceIte, hfind]

/-- C16, as the code has it: after a conversation-turn event, for the first tracked sprite
(in the order of the sprite mapping) that has the role and the name of the speaker, the
bubble mapping (a `Map`) holds one bubble for the identifier of the sprite; it is the new
bubble, 70 above the sprite; the bubble that was registered for the identifier is
destroyed; and the registrations of the other identifiers and the other bubbles are as they
were. -/
theorem handleConversationTurn_bubble (s : Scene) (turn : Turn) (now : Nat) (speaker : Nat)
    (a : AgentSprite) (hmap : (mapKeys s.world.activeBubbles).Nodup)
    (hfirst : (mapValues s.world.agents).find? (matchesTurn s.world turn) = some speaker)
    (ha : s.world.sprites[speaker]? = some a) :
    (handleConversationTurn s turn now).world.activeBubbles.filter (fun e => e.1 == a.agentId)
      = [(a.agentId, s.world.bubbles.length)] ∧
    (handleConversationTurn s turn now).world.bubbles[s.world.bubbles.length]?
      = some { posX := a.posX, posY := a.posY - 70, destroyed := false } ∧
    (∀ old x, mapGet s.world.activeBubbles a.agentId = some old →
      s.world.bubbles[old]? = some x →
      (handleConversationTurn s turn now).world.bubbles[old]?
        = some { x with destroyed := true }) ∧
    (∀ id, id ≠ a.agentId →
      mapGet (handleConversationTurn s turn now).world.activeBubbles id
        = mapGet s.world.activeBubbles id) ∧
    (∀ b, mapGet s.world.activeBubbles a.agentId ≠ some b → b < s.world.bubbles.length →
      (handleConversationTurn s turn now).world.bubbles[b]? = s.world.bubbles[b]?) := by
  rw [handleConversationTurn_of_first s turn now speaker hfirst]
  obtain ⟨hab, hbub, _⟩ := showSpeechBubble_of_sprite s speaker a ha
  have hworld : (addToLog (showSpeechBubble s speaker) turn.speaker_name turn.content
      turn.role now).world = (showSpeechBubble s speaker).world := rfl
  rw [hworld, hab, hbub]
  refine ⟨filter_key_mapSet _ _ _ hmap, ?_, ?_, ?_, ?_⟩
  · have hlen : (match mapGet s.world.activeBubbles a.agentId with
        | some old => modifyAt s.world.bubbles old fun x => { x with destroyed := true }
        | none => s.world.bubbles).length = s.world.bubbles.length := by
      cases mapGet s.world.activeBubbles a.agentId <;> simp [length_modifyAt]
    rw [List.getElem?_append_right (by rw [hlen]), hlen]
    simp
  · intro old x hold hx
    rw [hold]
    have hlt : old < s.world.bubbles.length := (List.getElem?_eq_some_iff.mp hx).1
    rw [List.getElem?_append_left (by rw [length_modifyAt]; exact hlt), getElem?_modifyAt]
    simp [hx]
  · intro id hid
    exact mapGet_mapSet_of_ne _ _ _ _ hid
  · intro b hb hlt
    cases hold : mapGet s.world.activeBubbles a.agentId with
    | none =>
      simp only
      rw [List.getElem?_append_left hlt]
    | some old =>
      simp only
      rw [List.getElem?_append_left (by rw [length_modifyAt]; exact hlt), getElem?_modifyAt]
      have hne : ¬ b = old := by
        intro e
        apply hb
        rw [hold, e]
      simp only [hne, ↓reduceIte]

/-- C16 fails as stated. Two recruiters named `Ann` are tracked, `A1` and `A2`; after a turn
of the recruiter `Ann`, the second sprite has the role and the name of the turn and the
bubble mapping holds no bubble for its identifier `A2`: the bubble went to `A1`. -/
theorem second_match_without_bubble_counterexample :
    mapGet sceneTwins.world.agents (js "A2") = some 1 ∧
    matchesTurn sceneTwins.world turnAnn 1 = true ∧
    mapGet (handleConversationTurn sceneTwins turnAnn 1000).world.activeBubbles (js "A2")
      = none ∧
    mapGet (handleConversationTurn sceneTwins turnAnn 1000).world.activeBubbles (js "A1")
      = some 0 := by
  decide!

/-- C16 at the second turn of `Ann`: the bubble of the first turn is destroyed, and the
bubble of the second turn is the one registered for `A1`. -/
theorem handleConversationTurn_bubble_witness :
    (mapKeys (handleConversationTurn sceneTwins turnAnn 1000).world.activeBubbles).Nodup ∧
    sceneTwoTurns.world.activeBubbles.filter (fun e => e.1 == js "A1") = [(js "A1", 1)] ∧
    sceneTwoTurns.world.bubbles[1]? = some { posX := 100, posY := 200 - 70, destroyed := false } ∧
    sceneTwoTurns.world.bubbles[0]? = some { posX := 100, posY := 200 - 70, destroyed := true } := by
  have h := handleConversationTurn_bubble (handleConversationTurn sceneTwins turnAnn 1000)
    turnAnn 2000 0
    { agentId := js "A1", agentName := js "Ann", agentType := js "recruiter", posX := 100,
      posY := 200, targetX := 100, targetY := 200, isTalking := false, isSelected := false,
      destroyed := false }
    (by decide!) (by decide!) (by decide!)
  exact ⟨by decide!, h.1, h.2.1,
    h.2.2.1 0 { posX := 100, posY := 200 - 70, destroyed := false } (by decide!) (by decide!)⟩

theorem mapGet_mapDelete_self (m : List (JsString × Nat)) (k : JsString) :
    mapGet (mapDelete m k) k = none := by
  rw [mapGet_eq_none_iff, mapKeys_mapDelete]
  exact fun h => h.2 rfl

/-- C17: when the callback that `showSpeechBubble` left for 6 seconds later runs, and the
bubble of the callback is still the one registered for the identifier of its sprite, a
fade-out starts, at whose end the bubble is destroyed and the identifier has no bubble
registered; when another bubble or none is registered for the identifier, the callback
changes nothing. And the end of a fade-out, for a bubble that was superseded while it
faded, leaves the registrations and the registered bubble as they are. -/
theorem bubble_timer_effect (s : Scene) (agent bubble : Nat) (a : AgentSprite)
    (ha : s.world.sprites[agent]? = some a) :
    (mapGet s.world.activeBubbles a.agentId = some bubble →
      bubbleWaitOver s agent bubble
        = { s with tweens := s.tweens ++ [{ seconds := 3 / 10, agent := agent,
                                            bubble := bubble }] } ∧
      (∀ x, s.world.bubbles[bubble]? = some x →
        ∃ x1, (fadeOutEnd (bubbleWaitOver s agent bubble) agent bubble).world.bubbles[bubble]?
            = some x1 ∧ x1.destroyed = true) ∧
      mapGet (fadeOutEnd (bubbleWaitOver s agent bubble) agent bubble).world.activeBubbles
        a.agentId = none) ∧
    (mapGet s.world.activeBubbles a.agentId ≠ some bubble →
      bubbleWaitOver s agent bubble = s) ∧
    (∀ newer, mapGet s.world.activeBubbles a.agentId = some newer → newer ≠ bubble →
      (fadeOutEnd s agent bubble).world.activeBubbles = s.world.activeBubbles ∧
      (fadeOutEnd s agent bubble).world.bubbles[newer]? = s.world.bubbles[newer]?) := by
  refine ⟨?_, ?_, ?_⟩
  · intro hreg
    have hw : bubbleWaitOver s agent bubble
        = { s with tweens := s.tweens ++ [{ seconds := 3 / 10, agent := agent,
                                            bubble := bubble }] } := by
      unfold bubbleWaitOver
      rw [ha]
      simp only [hreg, ↓reduceIte]
    rw [hw]
    refine ⟨rfl, ?_, ?_⟩
    · intro x hx
      unfold fadeOutEnd
      simp only [ha, hx]
      cases hd : x.destroyed with
      | true => exact ⟨x, by simp [hx], hd⟩
      | false =>
        simp only [Bool.not_false, ↓reduceIte, getElem?_modifyAt, hx, Option.map_some']
        exact ⟨_, rfl, rfl⟩
    · unfold fadeOutEnd
      simp only [ha, hreg, ↓reduceIte]
      exact mapGet_mapDelete_self _ _
  · intro hreg
    unfold bubbleWaitOver
    rw [ha]
    simp only [hreg, ↓reduceIte]
  · intro newer hreg hne
    have hne' : ¬ some newer = some bubble := fun h => hne (Option.some.inj h)
    unfold fadeOutEnd
    simp only [ha, hreg, hne', ↓reduceIte, true_and]
    cases hb : s.world.bubbles[bubble]? with
    | none => rfl
    | some x =>
      simp only
      split
      · rw [getElem?_modifyAt, if_neg hne]
      · rfl

/-- C17 at the scene after two turns of `Ann`: the callback of the second bubble, which is
registered, ends with that bubble destroyed and unregistered; the callback of the first
bubble, which was superseded, changes nothing. -/
theorem bubble_timer_effect_witness :
    mapGet sceneTwoTurns.world.activeBubbles (js "A1") = some 1 ∧
    sceneTwoTurns.waits = [{ seconds := 6, agent := 0, bubble := 0 },
                           { seconds := 6, agent := 0, bubble := 1 }] ∧
    bubbleWaitOver sceneTwoTurns 0 0 = sceneTwoTurns ∧
    (∃ x1, (fadeOutEnd (bubbleWaitOver sceneTwoTurns 0 1) 0 1).world.bubbles[1]? = some x1 ∧
      x1.destroyed = true) ∧
    mapGet (fadeOutEnd (bubbleWaitOver sceneTwoTurns 0 1) 0 1).world.activeBubbles (js "A1")
      = none := by
  have h := bubble_timer_effect sceneTwoTurns 0 1
    { agentId := js "A1", agentName := js "Ann", agentType := js "recruiter", posX := 100,
      posY := 200, targetX := 100, targetY := 200, isTalking := false, isSelected := false,
      destroyed := false } (by decide!)
  have h0 := bubble_timer_effect sceneTwoTurns 0 0
    { agentId := js "A1", agentName := js "Ann", agentType := js "recruiter", posX := 100,
      posY := 200, targetX := 100, targetY := 200, isTalking := false, isSelected := false,
      destroyed := false } (by decide!)
  have hreg : mapGet sceneTwoTurns.world.activeBubbles (js "A1") = some 1 := by decide!
  exact ⟨hreg, by decide!, h0.2.1 (by decide!),
    (h.1 hreg).2.1 { posX := 100, posY := 200 - 70, destroyed := false } (by decide!),
    (h.1 hreg).2.2⟩

/-! ## The movement of a frame -/

theorem mapValues_nodup (w : World) (hreg : registeredUnderOwnId w = true)
    (hkeys : (mapKeys w.agents).Nodup) : (mapValues w.agents).Nodup := by
  have hreg' := (registeredUnderOwnId_iff w).mp hreg
  unfold mapValues
  apply List.Nodup.map_on
  · intro x hx y hy hxy
    obtain ⟨sx, hsx, hidx⟩ := hreg' x hx
    obtain ⟨sy, hsy, hidy⟩ := hreg' y hy
    rw [hxy, hsy] at hsx
    cases hsx
    exact Prod.ext (hidx.symm.trans hidy) hxy
  · exact List.Nodup.of_map _ hkeys

theorem foldl_moveAgent_sprites (sqrt : ℚ → ℚ) (l : List (JsString × Nat)) (w : World)
    (hn : (mapValues l).Nodup) (h : Nat) :
    (l.foldl (moveAgent sqrt) w).sprites[h]? =
      if h ∈ mapValues l then (w.sprites[h]?).map (moveSprite sqrt) else w.sprites[h]? := by
  induction l generalizing w with
  | nil => simp [mapValues]
  | cons e l ih =>
    have hn' : e.2 ∉ mapValues l ∧ (mapValues l).Nodup := List.nodup_cons.mp hn
    rw [List.foldl_cons, ih _ hn'.2]
    have hstep : (moveAgent sqrt w e).sprites[h]? =
        if h = e.2 then (w.sprites[h]?).map (moveSprite sqrt) else w.sprites[h]? :=
      getElem?_modifyAt _ _ _ _
    rw [hstep]
    by_cases he : h = e.2
    · subst he
      have hmem : e.2 ∈ mapValues (e :: l) := List.mem_cons_self _ _
      rw [if_neg hn'.1, if_pos hmem, if_pos rfl]
    · have hiff : h ∈ mapValues (e :: l) ↔ h ∈ mapValues l := by
        simp only [mapValues, List.map_cons, List.mem_cons]
        constructor
        · rintro (h1 | h1)
          · exact absurd h1 he
          · exact h1
        · exact Or.inr
      simp only [he, ↓reduceIte, hiff]

theorem onUpdate_sprite (sqrt : ℚ → ℚ) (w : World) (hreg : registeredUnderOwnId w = true)
    (hkeys : (mapKeys w.agents).Nodup) (id : JsString) (h : Nat) (s : AgentSprite)
    (ht : (id, h) ∈ w.agents) (hs : w.sprites[h]? = some s) :
    ∃ s1, (onUpdate sqrt w).sprites[h]? = some s1 ∧
      withoutTalking s1 = withoutTalking (moveSprite sqrt s) := by
  have hmem : h ∈ mapValues w.agents := List.mem_map.mpr ⟨(id, h), ht, rfl⟩
  have hmove := foldl_moveAgent_sprites sqrt w.agents w (mapValues_nodup w hreg hkeys) h
  rw [if_pos hmem, hs] at hmove
  have hcheck := foldl_checkPair_withoutTalking sqrt
    (pairs (mapValues (w.agents.foldl (moveAgent sqrt) w).agents))
    (w.agents.foldl (moveAgent sqrt) w) h
  rw [hmove] at hcheck
  unfold onUpdate checkProximityForConversations
  cases hres : ((pairs (mapValues (w.agents.foldl (moveAgent sqrt) w).agents)).foldl
      (checkPair sqrt) (w.agents.foldl (moveAgent sqrt) w)).sprites[h]? with
  | none => rw [hres] at hcheck; cases hcheck
  | some s1 =>
    rw [hres] at hcheck
    simp only [Option.map_some', Option.some.injEq] at hcheck
    exact ⟨s1, rfl, hcheck⟩

/-! ## Rounding to a double -/

theorem log2Fuel_spec (fuel n : Nat) (hn : 1 ≤ n) (hf : n ≤ fuel) :
    2 ^ log2Fuel fuel n ≤ n ∧ n < 2 ^ (log2Fuel fuel n + 1) := by
  induction fuel generalizing n with
  | zero => omega
  | succ fuel ih =>
    unfold log2Fuel
    by_cases h2 : 2 ≤ n
    · rw [if_pos h2]
      obtain ⟨h1, h3⟩ := ih (n / 2) (by omega) (by omega)
      constructor
      · rw [pow_succ]
        omega
      · rw [pow_succ]
        omega
    · rw [if_neg h2]
      have : n = 1 := by omega
      subst this
      simp

theorem natLog2_spec (n : Nat) (hn : 1 ≤ n) :
    2 ^ natLog2 n ≤ n ∧ n < 2 ^ (natLog2 n + 1) :=
  log2Fuel_spec n n hn (le_refl n)

theorem pow2_eq (k : Int) : pow2 k = (2 : ℚ) ^ k := by
  unfold pow2
  by_cases hk : 0 ≤ k
  · rw [if_pos hk]
    push_cast
    rw [← zpow_natCast, Int.toNat_of_nonneg hk]
  · rw [if_neg hk]
    push_cast
    have hk' : 0 ≤ -k := by omega
    rw [← zpow_natCast, Int.toNat_of_nonneg hk', zpow_neg, one_div, inv_inv]

theorem pow2_pos (k : Int) : 0 < pow2 k := by
  rw [pow2_eq]
  positivity

/-- The binade of a positive rational: `2 ^ k ≤ q < 2 ^ (k + 1)` for `k = floorLog2 q`. -/
theorem floorLog2_spec (q : ℚ) (hq : 0 < q) :
    pow2 (floorLog2 q) ≤ q ∧ q < pow2 (floorLog2 q + 1) := by
  have hnum : 0 < q.num := Rat.num_pos.mpr hq
  have hn1 : 1 ≤ q.num.toNat := by omega
  have hd1 : 1 ≤ q.den := q.den_pos
  obtain ⟨na, nb⟩ := natLog2_spec q.num.toNat hn1
  obtain ⟨da, db⟩ := natLog2_spec q.den hd1
  have hqeq : q = (q.num.toNat : ℚ) / (q.den : ℚ) := by
    have h1 : ((q.num.toNat : ℤ) : ℚ) = (q.num : ℚ) := by
      rw [Int.toNat_of_nonneg (le_of_lt hnum)]
    have h2 : ((q.num.toNat : ℕ) : ℚ) = ((q.num.toNat : ℤ) : ℚ) := by push_cast; rfl
    rw [h2, h1]
    exact (Rat.num_div_den q).symm
  have hden : (0 : ℚ) < (q.den : ℚ) := by exact_mod_cast hd1
  have na' : (2 : ℚ) ^ natLog2 q.num.toNat ≤ (q.num.toNat : ℚ) := by exact_mod_cast na
  have nb' : (q.num.toNat : ℚ) < (2 : ℚ) ^ (natLog2 q.num.toNat + 1) := by exact_mod_cast nb
  have da' : (2 : ℚ) ^ natLog2 q.den ≤ (q.den : ℚ) := by exact_mod_cast da
  have db' : (q.den : ℚ) < (2 : ℚ) ^ (natLog2 q.den + 1) := by exact_mod_cast db
  -- the two candidates
  have hlow : (2 : ℚ) ^ ((natLog2 q.num.toNat : ℤ) - (natLog2 q.den : ℤ) - 1) ≤ q := by
    have e : ((natLog2 q.num.toNat : ℤ) - (natLog2 q.den : ℤ) - 1)
        = (natLog2 q.num.toNat : ℤ) - ((natLog2 q.den + 1 : ℕ) : ℤ) := by push_cast; ring
    rw [e, zpow_sub₀ (by norm_num : (2 : ℚ) ≠ 0), zpow_natCast, zpow_natCast]
    have key : (2 : ℚ) ^ natLog2 q.num.toNat / (2 : ℚ) ^ (natLog2 q.den + 1)
        ≤ (q.num.toNat : ℚ) / (q.den : ℚ) := by
      rw [div_le_div_iff₀ (by positivity) hden]
      calc (2 : ℚ) ^ natLog2 q.num.toNat * (q.den : ℚ)
          ≤ (q.num.toNat : ℚ) * (q.den : ℚ) := by
            apply mul_le_mul_of_nonneg_right na' (le_of_lt hden)
        _ ≤ (q.num.toNat : ℚ) * (2 : ℚ) ^ (natLog2 q.den + 1) := by
            apply mul_le_mul_of_nonneg_left (le_of_lt db')
            exact_mod_cast Nat.zero_le _
    exact le_of_le_of_eq key hqeq.symm
  have hhigh : q < (2 : ℚ) ^ ((natLog2 q.num.toNat : ℤ) - (natLog2 q.den : ℤ) - 1 + 1 + 1) := by
    have e : ((natLog2 q.num.toNat : ℤ) - (natLog2 q.den : ℤ) - 1 + 1 + 1)
        = ((natLog2 q.num.toNat + 1 : ℕ) : ℤ) - (natLog2 q.den : ℤ) := by push_cast; ring
    rw [e, zpow_sub₀ (by norm_num : (2 : ℚ) ≠ 0), zpow_natCast, zpow_natCast]
    have key : (q.num.toNat : ℚ) / (q.den : ℚ)
        < (2 : ℚ) ^ (natLog2 q.num.toNat + 1) / (2 : ℚ) ^ natLog2 q.den := by
      rw [div_lt_div_iff₀ hden (by positivity)]
      calc (q.num.toNat : ℚ) * (2 : ℚ) ^ natLog2 q.den
          ≤ (q.num.toNat : ℚ) * (q.den : ℚ) := by
            apply mul_le_mul_of_nonneg_left da'
            exact_mod_cast Nat.zero_le _
        _ < (2 : ℚ) ^ (natLog2 q.num.toNat + 1) * (q.den : ℚ) := by
            apply mul_lt_mul_of_pos_right nb' hden
    exact lt_of_eq_of_lt hqeq key
  unfold floorLog2
  dsimp only
  by_cases ht : pow2 ((natLog2 q.num.toNat : ℤ) - (natLog2 q.den : ℤ) - 1 + 1) ≤ q
  · rw [if_pos ht]
    exact ⟨ht, by rw [pow2_eq]; exact hhigh⟩
  · rw [if_neg ht]
    exact ⟨by rw [pow2_eq]; exact hlow, not_le.mp ht⟩

theorem roundHalfEven_error (q : ℚ) : |(roundHalfEven q : ℚ) - q| ≤ 1 / 2 := by
  have h0 : (⌊q⌋ : ℚ) ≤ q := Int.floor_le q
  have h1 : q < (⌊q⌋ : ℚ) + 1 := Int.lt_floor_add_one q
  unfold roundHalfEven
  dsimp only
  rw [abs_le]
  split_ifs with a b c
  · constructor <;> linarith
  · push_cast
    constructor <;> linarith
  · have : q - ⌊q⌋ = 1 / 2 := le_antisymm (not_lt.mp b) (not_lt.mp a)
    constructor <;> linarith
  · have : q - ⌊q⌋ = 1 / 2 := le_antisymm (not_lt.mp b) (not_lt.mp a)
    push_cast
    constructor <;> linarith

/-- The rounding of a double: the relative error is at most `2 ^ -53`. -/
theorem roundDouble_error (q : ℚ) : |roundDouble q - q| ≤ |q| / 2 ^ 53 := by
  unfold roundDouble
  by_cases hq : q = 0
  · simp [hq]
  · rw [if_neg hq]
    dsimp only
    have habs : 0 < |q| := abs_pos.mpr hq
    obtain ⟨hlow, _⟩ := floorLog2_spec |q| habs
    set k := floorLog2 |q| with hk
    have hp : 0 < pow2 (k - 52) := pow2_pos _
    have hpk : pow2 (k - 52) = pow2 k / 2 ^ 52 := by
      rw [pow2_eq, pow2_eq, zpow_sub₀ (by norm_num : (2 : ℚ) ≠ 0)]
      norm_num
    have herr := roundHalfEven_error (q / pow2 (k - 52))
    have hmul : (roundHalfEven (q / pow2 (k - 52)) : ℚ) * pow2 (k - 52) - q
        = ((roundHalfEven (q / pow2 (k - 52)) : ℚ) - q / pow2 (k - 52)) * pow2 (k - 52) := by
      field_simp
    rw [hmul, abs_mul, abs_of_pos hp]
    calc |(roundHalfEven (q / pow2 (k - 52)) : ℚ) - q / pow2 (k - 52)| * pow2 (k - 52)
        ≤ 1 / 2 * pow2 (k - 52) := by
          apply mul_le_mul_of_nonneg_right herr (le_of_lt hp)
      _ = pow2 k / 2 ^ 53 := by rw [hpk]; ring
      _ ≤ |q| / 2 ^ 53 := by
          apply div_le_div_of_nonneg_right hlow
          positivity

/-! ## The error of a step, in real arithmetic -/

/-- A value within the relative error `u` of `x` has a magnitude between `(1 - u) |x|` and
`(1 + u) |x|`. -/
theorem abs_bounds_of_rel (x y u : ℝ) (h : |y - x| ≤ u * |x|) :
    |y| ≤ (1 + u) * |x| ∧ (1 - u) * |x| ≤ |y| := by
  constructor
  · have := abs_sub_abs_le_abs_sub y x
    linarith
  · have := abs_sub_abs_le_abs_sub x y
    rw [abs_sub_comm x y] at this
    linarith

/-- The square of the computed distance `D` against the square of the distance `d`: the
two are within `9 / 2 ^ 53` of each other, relatively. -/
theorem dist_sq_bounds (X Y dx dy A B S D d : ℝ) (hd : d = Real.sqrt (X ^ 2 + Y ^ 2))
    (hdx : |dx - X| ≤ |X| / 2 ^ 53) (hdy : |dy - Y| ≤ |Y| / 2 ^ 53)
    (hA : |A - dx * dx| ≤ |dx * dx| / 2 ^ 53) (hB : |B - dy * dy| ≤ |dy * dy| / 2 ^ 53)
    (hS : |S - (A + B)| ≤ |A + B| / 2 ^ 53)
    (hD : |D * D - S| ≤ S / 2 ^ 51) :
    (1 - 9 / 2 ^ 53) * (d * d) ≤ D * D ∧ D * D ≤ (1 + 9 / 2 ^ 53) * (d * d) := by
  obtain ⟨u, hu⟩ : ∃ u : ℝ, u = 1 / 2 ^ 53 := ⟨_, rfl⟩
  have hu0 : 0 < u := by rw [hu]; positivity
  have hu1 : u ≤ 1 / 1000000 := by rw [hu]; norm_num
  have hd2 : 0 ≤ X ^ 2 + Y ^ 2 := by positivity
  have hd0 : 0 ≤ d := by rw [hd]; exact Real.sqrt_nonneg _
  have hdd : d * d = X ^ 2 + Y ^ 2 := by rw [hd]; exact Real.mul_self_sqrt hd2
  -- the squares
  have sqb : ∀ (x y a : ℝ), |y - x| ≤ |x| / 2 ^ 53 → |a - y * y| ≤ |y * y| / 2 ^ 53 →
      (1 - u) ^ 3 * x ^ 2 ≤ a ∧ a ≤ (1 + u) ^ 3 * x ^ 2 := by
    intro x y a hy ha
    have hy' : |y - x| ≤ u * |x| := by rw [hu]; linarith [hy, (by ring : 1 / 2 ^ 53 * |x| = |x| / 2 ^ 53)]
    obtain ⟨h1, h2⟩ := abs_bounds_of_rel x y u hy'
    have hx0 : 0 ≤ |x| := abs_nonneg x
    have hyy : y * y = |y| * |y| := (abs_mul_abs_self y).symm
    have hxx : x ^ 2 = |x| * |x| := by rw [abs_mul_abs_self]; ring
    have hup : |y| * |y| ≤ ((1 + u) * |x|) * ((1 + u) * |x|) :=
      mul_self_le_mul_self (abs_nonneg y) h1
    have h1u' : 0 ≤ 1 - u := by linarith
    have hlo : ((1 - u) * |x|) * ((1 - u) * |x|) ≤ |y| * |y| :=
      mul_self_le_mul_self (mul_nonneg h1u' hx0) h2
    have hyy0 : 0 ≤ y * y := mul_self_nonneg y
    rw [abs_of_nonneg hyy0] at ha
    have ha' := abs_le.mp ha
    have e1 : y * y / 2 ^ 53 = u * (y * y) := by rw [hu]; ring
    rw [e1] at ha'
    constructor
    · have : (1 - u) * (y * y) ≤ a := by linarith [ha'.1]
      calc (1 - u) ^ 3 * x ^ 2 = (1 - u) * (((1 - u) * |x|) * ((1 - u) * |x|)) := by
            rw [hxx]; ring
        _ ≤ (1 - u) * (|y| * |y|) := by
            apply mul_le_mul_of_nonneg_left hlo; linarith
        _ = (1 - u) * (y * y) := by rw [hyy]
        _ ≤ a := this
    · have : a ≤ (1 + u) * (y * y) := by linarith [ha'.2]
      calc a ≤ (1 + u) * (y * y) := this
        _ = (1 + u) * (|y| * |y|) := by rw [hyy]
        _ ≤ (1 + u) * (((1 + u) * |x|) * ((1 + u) * |x|)) := by
            apply mul_le_mul_of_nonneg_left hup; linarith
        _ = (1 + u) ^ 3 * x ^ 2 := by rw [hxx]; ring
  obtain ⟨Alo, Ahi⟩ := sqb X dx A hdx hA
  obtain ⟨Blo, Bhi⟩ := sqb Y dy B hdy hB
  have hX2 : 0 ≤ X ^ 2 := by positivity
  have hY2 : 0 ≤ Y ^ 2 := by positivity
  have h1u : 0 < 1 - u := by linarith
  have hAB0 : 0 ≤ A + B := by
    have : 0 ≤ (1 - u) ^ 3 * X ^ 2 := by positivity
    have : 0 ≤ (1 - u) ^ 3 * Y ^ 2 := by positivity
    linarith
  rw [abs_of_nonneg hAB0] at hS
  have hS' := abs_le.mp hS
  have e2 : (A + B) / 2 ^ 53 = u * (A + B) := by rw [hu]; ring
  rw [e2] at hS'
  have ABlo : (1 - u) ^ 3 * (d * d) ≤ A + B := by rw [hdd]; linarith
  have ABhi : A + B ≤ (1 + u) ^ 3 * (d * d) := by rw [hdd]; linarith
  have hdd0 : 0 ≤ d * d := mul_self_nonneg d
  have Slo : (1 - u) ^ 4 * (d * d) ≤ S := by
    calc (1 - u) ^ 4 * (d * d) = (1 - u) * ((1 - u) ^ 3 * (d * d)) := by ring
      _ ≤ (1 - u) * (A + B) := by apply mul_le_mul_of_nonneg_left ABlo; linarith
      _ ≤ S := by linarith [hS'.1]
  have Shi : S ≤ (1 + u) ^ 4 * (d * d) := by
    calc S ≤ (1 + u) * (A + B) := by linarith [hS'.2]
      _ ≤ (1 + u) * ((1 + u) ^ 3 * (d * d)) := by
          apply mul_le_mul_of_nonneg_left ABhi; linarith
      _ = (1 + u) ^ 4 * (d * d) := by ring
  have hS0 : 0 ≤ S := le_trans (by positivity) Slo
  have hD' := abs_le.mp hD
  have e3 : S / 2 ^ 51 = 4 * u * S := by rw [hu]; ring
  rw [e3] at hD'
  have c1 : (1 + 4 * u) * (1 + u) ^ 4 ≤ 1 + 9 * u := by rw [hu]; norm_num
  have c2 : 1 - 9 * u ≤ (1 - 4 * u) * (1 - u) ^ 4 := by rw [hu]; norm_num
  have DDhi : D * D ≤ (1 + 9 * u) * (d * d) := by
    calc D * D ≤ (1 + 4 * u) * S := by linarith [hD'.2]
      _ ≤ (1 + 4 * u) * ((1 + u) ^ 4 * (d * d)) := by
          apply mul_le_mul_of_nonneg_left Shi; linarith
      _ = ((1 + 4 * u) * (1 + u) ^ 4) * (d * d) := by ring
      _ ≤ (1 + 9 * u) * (d * d) := mul_le_mul_of_nonneg_right c1 hdd0
  have DDlo : (1 - 9 * u) * (d * d) ≤ D * D := by
    calc (1 - 9 * u) * (d * d) ≤ ((1 - 4 * u) * (1 - u) ^ 4) * (d * d) :=
          mul_le_mul_of_nonneg_right c2 hdd0
      _ = (1 - 4 * u) * ((1 - u) ^ 4 * (d * d)) := by ring
      _ ≤ (1 - 4 * u) * S := by apply mul_le_mul_of_nonneg_left Slo; linarith
      _ ≤ D * D := by linarith [hD'.1]
  constructor
  · calc (1 - 9 / 2 ^ 53) * (d * d) = (1 - 9 * u) * (d * d) := by rw [hu]; ring
      _ ≤ D * D := DDlo
  · calc D * D ≤ (1 + 9 * u) * (d * d) := DDhi
      _ = (1 + 9 / 2 ^ 53) * (d * d) := by rw [hu]; ring

/-- A computed distance above 2 is within `9 / 2 ^ 53` of the distance, relatively, and the
distance is above `2 - 2 ^ -48`. -/
theorem dist_error_core (D d : ℝ) (hd0 : 0 ≤ d)
    (hlo : (1 - 9 / 2 ^ 53) * (d * d) ≤ D * D) (hhi : D * D ≤ (1 + 9 / 2 ^ 53) * (d * d))
    (hD2 : 2 < D) :
    0 < d ∧ |D - d| ≤ 9 / 2 ^ 53 * d ∧ 2 - 1 / 2 ^ 48 < d := by
  have hDD4 : 4 < D * D := by
    have := mul_lt_mul'' hD2 hD2 (by norm_num) (by norm_num)
    linarith
  have hdpos : 0 < d := by
    rcases eq_or_lt_of_le hd0 with h | h
    · rw [← h] at hhi
      linarith
    · exact h
  have hsum : 0 < D + d := by linarith
  have hfac : (D - d) * (D + d) = D * D - d * d := by ring
  have hdd0 : 0 ≤ d * d := mul_self_nonneg d
  have habs : |D * D - d * d| ≤ 9 / 2 ^ 53 * (d * d) := by
    rw [abs_le]
    constructor <;> linarith
  have h3 : |D - d| * (D + d) ≤ 9 / 2 ^ 53 * (d * d) := by
    rw [← abs_of_pos hsum, ← abs_mul, hfac]
    exact habs
  have h4 : 9 / 2 ^ 53 * (d * d) ≤ (9 / 2 ^ 53 * d) * (D + d) := by
    have h0 : 0 ≤ 9 / 2 ^ 53 * d * D := by positivity
    have e : (9 / 2 ^ 53 * d) * (D + d) = 9 / 2 ^ 53 * (d * d) + 9 / 2 ^ 53 * d * D := by ring
    rw [e]
    linarith
  have h5 : |D - d| * (D + d) ≤ (9 / 2 ^ 53 * d) * (D + d) := le_trans h3 h4
  have h6 : |D - d| ≤ 9 / 2 ^ 53 * d := le_of_mul_le_mul_right h5 hsum
  refine ⟨hdpos, h6, ?_⟩
  by_contra hcon
  have hle : d ≤ 2 - 1 / 2 ^ 48 := not_lt.mp hcon
  have h7 : D ≤ (1 + 9 / 2 ^ 53) * d := by
    have := (abs_le.mp h6).2
    linarith
  have h8 : (1 + 9 / 2 ^ 53) * d ≤ (1 + 9 / 2 ^ 53) * (2 - 1 / 2 ^ 48) :=
    mul_le_mul_of_nonneg_left hle (by norm_num)
  have h9 : (1 + 9 / 2 ^ 53 : ℝ) * (2 - 1 / 2 ^ 48) < 2 := by norm_num
  linarith

/-- A computed distance that is not negative and at most 2 goes with a distance of at most
`2 + 2 ^ -48`. -/
theorem dist_small_core (D d : ℝ)
    (hlo : (1 - 9 / 2 ^ 53) * (d * d) ≤ D * D) (hD0 : 0 ≤ D) (hD2 : D ≤ 2) :
    d ≤ 2 + 1 / 2 ^ 48 := by
  by_contra hcon
  have hgt : 2 + 1 / 2 ^ 48 < d := not_le.mp hcon
  have h1 : D * D ≤ 4 := by
    have := mul_le_mul hD2 hD2 hD0 (by norm_num)
    linarith
  have h2 : (2 + 1 / 2 ^ 48 : ℝ) * (2 + 1 / 2 ^ 48) < d * d :=
    mul_lt_mul'' hgt hgt (by norm_num) (by norm_num)
  have h3 : (1 - 9 / 2 ^ 53 : ℝ) * ((2 + 1 / 2 ^ 48) * (2 + 1 / 2 ^ 48))
      < (1 - 9 / 2 ^ 53) * (d * d) :=
    mul_lt_mul_of_pos_left h2 (by norm_num)
  have h4 : (4 : ℝ) < (1 - 9 / 2 ^ 53) * ((2 + 1 / 2 ^ 48) * (2 + 1 / 2 ^ 48)) := by norm_num
  linarith

/-- One coordinate of a step, against 3 units along the line: the new coordinate `px'` is
within `2 ^ -43` of `px + 3 X / d`, for a computed distance `D` within `9 / 2 ^ 53` of the
distance `d`, relatively, and a coordinate of magnitude at most 900. -/
theorem step_error_core (X d D dx qx sx px px' : ℝ)
    (hd : 0 < d) (hXd : |X| ≤ d) (hDd : |D - d| ≤ 9 / 2 ^ 53 * d) (hD2 : 2 < D)
    (hdx : |dx - X| ≤ |X| / 2 ^ 53)
    (hq : |qx - dx / D| ≤ |dx / D| / 2 ^ 53)
    (hs : |sx - qx * 3| ≤ |qx * 3| / 2 ^ 53)
    (hp : |px' - (px + sx)| ≤ |px + sx| / 2 ^ 53)
    (hpx : |px| ≤ 900) :
    |px' - px - 3 * X / d| ≤ 1 / 2 ^ 43 := by
  obtain ⟨u, hu⟩ : ∃ u : ℝ, u = 1 / 2 ^ 53 := ⟨_, rfl⟩
  have hu0 : 0 < u := by rw [hu]; positivity
  have hu1 : u ≤ 1 / 1000000 := by rw [hu]; norm_num
  have hD0 : 0 < D := by linarith
  have hX0 : 0 ≤ |X| := abs_nonneg X
  have e1 : ∀ x : ℝ, x / 2 ^ 53 = u * x := by intro x; rw [hu]; ring
  rw [e1] at hdx hq hs hp
  have hDd' : |D - d| ≤ 9 * u * d := by rw [hu]; linarith [hDd, (by ring : 9 / 2 ^ 53 * d = 9 * (1 / 2 ^ 53) * d)]
  -- the distance against the computed distance
  have k1 : 1 ≤ (1 + 10 * u) * (1 - 9 * u) := by rw [hu]; norm_num
  have hdD : d ≤ (1 + 10 * u) * D := by
    have h1 : (1 - 9 * u) * d ≤ D := by
      have := (abs_le.mp hDd').1
      linarith
    calc d = 1 * d := (one_mul d).symm
      _ ≤ ((1 + 10 * u) * (1 - 9 * u)) * d := mul_le_mul_of_nonneg_right k1 (le_of_lt hd)
      _ = (1 + 10 * u) * ((1 - 9 * u) * d) := by ring
      _ ≤ (1 + 10 * u) * D := by apply mul_le_mul_of_nonneg_left h1; linarith
  have hXD : |X| / D ≤ 1 + 10 * u := by
    rw [div_le_iff₀ hD0]
    exact le_trans hXd hdD
  have hXD0 : 0 ≤ |X| / D := div_nonneg hX0 (le_of_lt hD0)
  -- the quotient
  obtain ⟨hdx1, _⟩ := abs_bounds_of_rel X dx u hdx
  have ha : |dx / D| ≤ (1 + u) * (1 + 10 * u) := by
    rw [abs_div, abs_of_pos hD0]
    calc |dx| / D ≤ ((1 + u) * |X|) / D := div_le_div_of_nonneg_right hdx1 (le_of_lt hD0)
      _ = (1 + u) * (|X| / D) := by ring
      _ ≤ (1 + u) * (1 + 10 * u) := by apply mul_le_mul_of_nonneg_left hXD; linarith
  have ha0 : 0 ≤ |dx / D| := abs_nonneg _
  have hq1 : |qx - dx / D| ≤ u * ((1 + u) * (1 + 10 * u)) :=
    le_trans hq (mul_le_mul_of_nonneg_left ha (le_of_lt hu0))
  obtain ⟨hq2, _⟩ := abs_bounds_of_rel (dx / D) qx u hq
  have hq3 : |qx| ≤ (1 + u) * ((1 + u) * (1 + 10 * u)) :=
    le_trans hq2 (mul_le_mul_of_nonneg_left ha (by linarith))
  have hs1 : |sx - qx * 3| ≤ u * (3 * ((1 + u) * ((1 + u) * (1 + 10 * u)))) := by
    have : |qx * 3| = 3 * |qx| := by rw [abs_mul]; norm_num; ring
    rw [this] at hs
    apply le_trans hs
    apply mul_le_mul_of_nonneg_left _ (le_of_lt hu0)
    linarith
  have h6 : |dx / D - X / D| ≤ u * (1 + 10 * u) := by
    have : dx / D - X / D = (dx - X) / D := by ring
    rw [this, abs_div, abs_of_pos hD0]
    calc |dx - X| / D ≤ (u * |X|) / D := div_le_div_of_nonneg_right hdx (le_of_lt hD0)
      _ = u * (|X| / D) := by ring
      _ ≤ u * (1 + 10 * u) := mul_le_mul_of_nonneg_left hXD (le_of_lt hu0)
  have h7 : |X / D - X / d| ≤ 9 * u * (1 + 10 * u) := by
    have : X / D - X / d = X * (d - D) / (D * d) := by
      field_simp
      ring
    rw [this, abs_div, abs_mul, abs_of_pos (mul_pos hD0 hd), abs_sub_comm d D]
    rw [div_le_iff₀ (mul_pos hD0 hd)]
    calc |X| * |D - d| ≤ |X| * (9 * u * d) := mul_le_mul_of_nonneg_left hDd' hX0
      _ = 9 * u * (|X| / D) * (D * d) := by field_simp; ring
      _ ≤ 9 * u * (1 + 10 * u) * (D * d) := by
          apply mul_le_mul_of_nonneg_right _ (le_of_lt (mul_pos hD0 hd))
          apply mul_le_mul_of_nonneg_left hXD
          positivity
  -- the step against 3 units along the line
  have hsplit : sx - 3 * X / d = (sx - qx * 3) + 3 * (qx - dx / D) + 3 * (dx / D - X / D)
      + 3 * (X / D - X / d) := by ring
  have h8 : |sx - 3 * X / d| ≤ 37 * u := by
    rw [hsplit]
    have t1 := abs_add ((sx - qx * 3) + 3 * (qx - dx / D) + 3 * (dx / D - X / D))
      (3 * (X / D - X / d))
    have t2 := abs_add ((sx - qx * 3) + 3 * (qx - dx / D)) (3 * (dx / D - X / D))
    have t3 := abs_add (sx - qx * 3) (3 * (qx - dx / D))
    have m1 : |3 * (qx - dx / D)| = 3 * |qx - dx / D| := by rw [abs_mul]; norm_num
    have m2 : |3 * (dx / D - X / D)| = 3 * |dx / D - X / D| := by rw [abs_mul]; norm_num
    have m3 : |3 * (X / D - X / d)| = 3 * |X / D - X / d| := by rw [abs_mul]; norm_num
    rw [m1] at t3
    rw [m2] at t2
    rw [m3] at t1
    have num : u * (3 * ((1 + u) * ((1 + u) * (1 + 10 * u)))) + 3 * (u * ((1 + u) * (1 + 10 * u)))
        + 3 * (u * (1 + 10 * u)) + 3 * (9 * u * (1 + 10 * u)) ≤ 37 * u := by
      rw [hu]; norm_num
    linarith
  have h9 : |3 * X / d| ≤ 3 := by
    rw [abs_div, abs_mul, abs_of_pos hd, div_le_iff₀ hd]
    norm_num
    linarith
  have h10 : |sx| ≤ 3 + 37 * u := by
    have : sx = (sx - 3 * X / d) + 3 * X / d := by ring
    rw [this]
    exact le_trans (abs_add _ _) (by linarith)
  have h11 : |px + sx| ≤ 904 := by
    apply le_trans (abs_add _ _)
    linarith
  have h12 : |px' - (px + sx)| ≤ 904 * u := by
    apply le_trans hp
    rw [mul_comm]
    exact mul_le_mul_of_nonneg_right h11 (le_of_lt hu0)
  have hfin : px' - px - 3 * X / d = (px' - (px + sx)) + (sx - 3 * X / d) := by ring
  rw [hfin]
  apply le_trans (abs_add _ _)
  have : 904 * u + 37 * u ≤ 1 / 2 ^ 43 := by rw [hu]; norm_num
  linarith

/-- The lengths of two plane vectors differ by at most the sum of the differences of their
coordinates. -/
theorem abs_sqrt_sub_sqrt_le (x1 y1 x2 y2 : ℝ) :
    |Real.sqrt (x1 ^ 2 + y1 ^ 2) - Real.sqrt (x2 ^ 2 + y2 ^ 2)| ≤ |x1 - x2| + |y1 - y2| := by
  have e : ∀ x y : ℝ, Real.sqrt (x ^ 2 + y ^ 2) = Complex.abs ⟨x, y⟩ := by
    intro x y
    rw [Complex.abs_apply, Complex.normSq_mk]
    congr 1
    ring
  rw [e, e]
  have h1 := Complex.abs.abs_abv_sub_le_abv_sub (⟨x1, y1⟩ : ℂ) ⟨x2, y2⟩
  have h2 := Complex.abs_le_abs_re_add_abs_im ((⟨x1, y1⟩ : ℂ) - ⟨x2, y2⟩)
  simp only [Complex.sub_re, Complex.sub_im] at h2
  exact le_trans h1 h2

/-- A step that is, coordinate by coordinate, within `η` of 3 units along the line to a
target at the distance `d`: its length is within `2 η` of 3, and the distance that is left
is within `2 η` of `|d - 3|`, and below `d` when `d` is above `3 / 2 + η`. -/
theorem step_length_core (X Y ax ay d η : ℝ) (hd : d = Real.sqrt (X ^ 2 + Y ^ 2)) (hd0 : 0 < d)
    (hx : |ax - 3 * X / d| ≤ η) (hy : |ay - 3 * Y / d| ≤ η) (hη1 : η < 1)
    (hdη : 3 / 2 + η < d) :
    |Real.sqrt (ax ^ 2 + ay ^ 2) - 3| ≤ 2 * η ∧
    |Real.sqrt ((X - ax) ^ 2 + (Y - ay) ^ 2) - abs (d - 3)| ≤ 2 * η ∧
    Real.sqrt ((X - ax) ^ 2 + (Y - ay) ^ 2) < d := by
  have hdd : d * d = X ^ 2 + Y ^ 2 := by
    rw [hd]; exact Real.mul_self_sqrt (by positivity)
  have hd' : d ≠ 0 := ne_of_gt hd0
  have e3 : Real.sqrt ((3 * X / d) ^ 2 + (3 * Y / d) ^ 2) = 3 := by
    have : (3 * X / d) ^ 2 + (3 * Y / d) ^ 2 = 3 ^ 2 := by
      field_simp
      have : (3 * X) ^ 2 + (3 * Y) ^ 2 = 3 ^ 2 * (X ^ 2 + Y ^ 2) := by ring
      rw [this, ← hdd]
      ring
    rw [this]
    exact Real.sqrt_sq (by norm_num)
  have e4 : Real.sqrt ((X - 3 * X / d) ^ 2 + (Y - 3 * Y / d) ^ 2) = |d - 3| := by
    have : (X - 3 * X / d) ^ 2 + (Y - 3 * Y / d) ^ 2 = (d - 3) ^ 2 := by
      have h1 : (X - 3 * X / d) ^ 2 + (Y - 3 * Y / d) ^ 2
          = (X ^ 2 + Y ^ 2) * (1 - 3 / d) ^ 2 := by
        field_simp
        ring
      rw [h1, ← hdd]
      field_simp
      ring
    rw [this]
    exact Real.sqrt_sq_eq_abs _
  have h1 := abs_sqrt_sub_sqrt_le ax ay (3 * X / d) (3 * Y / d)
  rw [e3] at h1
  have h2 := abs_sqrt_sub_sqrt_le (X - ax) (Y - ay) (X - 3 * X / d) (Y - 3 * Y / d)
  rw [e4] at h2
  have ex : |X - ax - (X - 3 * X / d)| = |ax - 3 * X / d| := by
    rw [← abs_neg]; congr 1; ring
  have ey : |Y - ay - (Y - 3 * Y / d)| = |ay - 3 * Y / d| := by
    rw [← abs_neg]; congr 1; ring
  rw [ex, ey] at h2
  have c1 : |Real.sqrt (ax ^ 2 + ay ^ 2) - 3| ≤ 2 * η := by linarith
  have c2 : |Real.sqrt ((X - ax) ^ 2 + (Y - ay) ^ 2) - abs (d - 3)| ≤ 2 * η := by linarith
  refine ⟨c1, c2, ?_⟩
  have h3 := (abs_le.mp c2).2
  have hη : 0 ≤ η := le_trans (abs_nonneg _) hx
  have h4 : |d - 3| + 2 * η < d := by
    rcases le_or_lt 3 d with h | h
    · rw [abs_of_nonneg (by linarith)]
      linarith
    · rw [abs_of_neg (by linarith)]
      linarith
  linarith

/-! ## The movement of a sprite in a frame -/

theorem moveSprite_eq (sqrt : ℚ → ℚ) (s : AgentSprite) :
    moveSprite sqrt s =
      if distToTarget sqrt s > 2 then
        { s with
          posX := fadd s.posX
            (fmul (fdiv (fsub s.targetX s.posX) (distToTarget sqrt s)) MOVE_SPEED)
          posY := fadd s.posY
            (fmul (fdiv (fsub s.targetY s.posY) (distToTarget sqrt s)) MOVE_SPEED) }
      else s := rfl

theorem roundDouble_error_real (q : ℚ) :
    |((roundDouble q : ℚ) : ℝ) - (q : ℝ)| ≤ |(q : ℝ)| / 2 ^ 53 := by
  have h := roundDouble_error q
  exact_mod_cast h

/-- The step of `moveSprite` against the distance `d` of the sprite to its target, for a
`sqrt` that is accurate at the sum of squares and a position with coordinates of magnitude
at most 900. When the computed distance is at most 2, `d` is at most `2 + 2 ^ -48`. When
it is above 2, `d` is above `2 - 2 ^ -48`, each coordinate of the new position is within
`2 ^ -43` of the point 3 units along the line to the target, the length of the step is
within `2 ^ -42` of 3, and the distance that is left is within `2 ^ -42` of `|d - 3|` and
below `d`. -/
theorem moveSprite_accurate (sqrt : ℚ → ℚ) (s : AgentSprite)
    (hacc : accurateAt sqrt (sumOfSquares s)) (hpx : |s.posX| ≤ 900) (hpy : |s.posY| ≤ 900) :
    (distToTarget sqrt s ≤ 2 →
      Real.sqrt (((s.targetX : ℝ) - s.posX) ^ 2 + ((s.targetY : ℝ) - s.posY) ^ 2)
        ≤ 2 + 1 / 2 ^ 48) ∧
    (2 < distToTarget sqrt s →
      2 - 1 / 2 ^ 48
        < Real.sqrt (((s.targetX : ℝ) - s.posX) ^ 2 + ((s.targetY : ℝ) - s.posY) ^ 2) ∧
      |((moveSprite sqrt s).posX : ℝ) - s.posX - 3 * ((s.targetX : ℝ) - s.posX) /
        Real.sqrt (((s.targetX : ℝ) - s.posX) ^ 2 + ((s.targetY : ℝ) - s.posY) ^ 2)|
        ≤ 1 / 2 ^ 43 ∧
      |((moveSprite sqrt s).posY : ℝ) - s.posY - 3 * ((s.targetY : ℝ) - s.posY) /
        Real.sqrt (((s.targetX : ℝ) - s.posX) ^ 2 + ((s.targetY : ℝ) - s.posY) ^ 2)|
        ≤ 1 / 2 ^ 43 ∧
      |Real.sqrt ((((moveSprite sqrt s).posX : ℝ) - s.posX) ^ 2
          + (((moveSprite sqrt s).posY : ℝ) - s.posY) ^ 2) - 3| ≤ 1 / 2 ^ 42 ∧
      |Real.sqrt (((s.targetX : ℝ) - (moveSprite sqrt s).posX) ^ 2
          + ((s.targetY : ℝ) - (moveSprite sqrt s).posY) ^ 2)
        - abs (Real.sqrt (((s.targetX : ℝ) - s.posX) ^ 2 + ((s.targetY : ℝ) - s.posY) ^ 2) - 3)|
        ≤ 1 / 2 ^ 42 ∧
      Real.sqrt (((s.targetX : ℝ) - (moveSprite sqrt s).posX) ^ 2
          + ((s.targetY : ℝ) - (moveSprite sqrt s).posY) ^ 2)
        < Real.sqrt (((s.targetX : ℝ) - s.posX) ^ 2 + ((s.targetY : ℝ) - s.posY) ^ 2)) := by
  obtain ⟨d, hd⟩ : ∃ d : ℝ,
      d = Real.sqrt (((s.targetX : ℝ) - s.posX) ^ 2 + ((s.targetY : ℝ) - s.posY) ^ 2) := ⟨_, rfl⟩
  rw [← hd]
  have hd0 : 0 ≤ d := by rw [hd]; exact Real.sqrt_nonneg _
  -- the roundings of the sum of squares
  have r1 := roundDouble_error_real (s.targetX - s.posX)
  have r2 := roundDouble_error_real (s.targetY - s.posY)
  have r3 := roundDouble_error_real (fsub s.targetX s.posX * fsub s.targetX s.posX)
  have r4 := roundDouble_error_real (fsub s.targetY s.posY * fsub s.targetY s.posY)
  have r5 := roundDouble_error_real
    (fmul (fsub s.targetX s.posX) (fsub s.targetX s.posX)
      + fmul (fsub s.targetY s.posY) (fsub s.targetY s.posY))
  push_cast at r1 r2 r3 r4 r5
  obtain ⟨hD0, hDS⟩ := hacc
  have hD0' : (0 : ℝ) ≤ ((distToTarget sqrt s : ℚ) : ℝ) := by exact_mod_cast hD0
  have hDS' : |((distToTarget sqrt s : ℚ) : ℝ) * ((distToTarget sqrt s : ℚ) : ℝ)
      - ((sumOfSquares s : ℚ) : ℝ)| ≤ ((sumOfSquares s : ℚ) : ℝ) / 2 ^ 51 := by
    have : |distToTarget sqrt s * distToTarget sqrt s - sumOfSquares s|
        ≤ sumOfSquares s / 2 ^ 51 := hDS
    exact_mod_cast this
  obtain ⟨hlo, hhi⟩ := dist_sq_bounds ((s.targetX : ℝ) - s.posX) ((s.targetY : ℝ) - s.posY)
    ((fsub s.targetX s.posX : ℚ) : ℝ) ((fsub s.targetY s.posY : ℚ) : ℝ)
    ((fmul (fsub s.targetX s.posX) (fsub s.targetX s.posX) : ℚ) : ℝ)
    ((fmul (fsub s.targetY s.posY) (fsub s.targetY s.posY) : ℚ) : ℝ)
    ((sumOfSquares s : ℚ) : ℝ) ((distToTarget sqrt s : ℚ) : ℝ) d hd r1 r2 r3 r4 r5 hDS'
  constructor
  · intro hle
    have hle' : ((distToTarget sqrt s : ℚ) : ℝ) ≤ 2 := by exact_mod_cast hle
    exact dist_small_core _ d hlo hD0' hle'
  · intro hgt
    have hgt' : (2 : ℝ) < ((distToTarget sqrt s : ℚ) : ℝ) := by exact_mod_cast hgt
    obtain ⟨hdpos, hDd, hdlow⟩ := dist_error_core _ d hd0 hlo hhi hgt'
    have hXd : |(s.targetX : ℝ) - s.posX| ≤ d := by
      rw [hd]
      apply Real.abs_le_sqrt
      nlinarith [sq_nonneg ((s.targetY : ℝ) - s.posY)]
    have hYd : |(s.targetY : ℝ) - s.posY| ≤ d := by
      rw [hd]
      apply Real.abs_le_sqrt
      nlinarith [sq_nonneg ((s.targetX : ℝ) - s.posX)]
    have hmx : (moveSprite sqrt s).posX = fadd s.posX
        (fmul (fdiv (fsub s.targetX s.posX) (distToTarget sqrt s)) 3) := by
      rw [moveSprite_eq, if_pos hgt]; rfl
    have hmy : (moveSprite sqrt s).posY = fadd s.posY
        (fmul (fdiv (fsub s.targetY s.posY) (distToTarget sqrt s)) 3) := by
      rw [moveSprite_eq, if_pos hgt]; rfl
    have qx := roundDouble_error_real (fsub s.targetX s.posX / distToTarget sqrt s)
    have sx := roundDouble_error_real (fdiv (fsub s.targetX s.posX) (distToTarget sqrt s) * 3)
    have px := roundDouble_error_real
      (s.posX + fmul (fdiv (fsub s.targetX s.posX) (distToTarget sqrt s)) 3)
    have qy := roundDouble_error_real (fsub s.targetY s.posY / distToTarget sqrt s)
    have sy := roundDouble_error_real (fdiv (fsub s.targetY s.posY) (distToTarget sqrt s) * 3)
    have py := roundDouble_error_real
      (s.posY + fmul (fdiv (fsub s.targetY s.posY) (distToTarget sqrt s)) 3)
    push_cast at qx sx px qy sy py
    have hpx' : |(s.posX : ℝ)| ≤ 900 := by exact_mod_cast hpx
    have hpy' : |(s.posY : ℝ)| ≤ 900 := by exact_mod_cast hpy
    have ex := step_error_core ((s.targetX : ℝ) - s.posX) d ((distToTarget sqrt s : ℚ) : ℝ)
      ((fsub s.targetX s.posX : ℚ) : ℝ)
      ((fdiv (fsub s.targetX s.posX) (distToTarget sqrt s) : ℚ) : ℝ)
      ((fmul (fdiv (fsub s.targetX s.posX) (distToTarget sqrt s)) 3 : ℚ) : ℝ)
      (s.posX : ℝ) (((moveSprite sqrt s).posX : ℚ) : ℝ)
      hdpos hXd hDd hgt' r1 qx sx (by rw [hmx]; exact px) hpx'
    have ey := step_error_core ((s.targetY : ℝ) - s.posY) d ((distToTarget sqrt s : ℚ) : ℝ)
      ((fsub s.targetY s.posY : ℚ) : ℝ)
      ((fdiv (fsub s.targetY s.posY) (distToTarget sqrt s) : ℚ) : ℝ)
      ((fmul (fdiv (fsub s.targetY s.posY) (distToTarget sqrt s)) 3 : ℚ) : ℝ)
      (s.posY : ℝ) (((moveSprite sqrt s).posY : ℚ) : ℝ)
      hdpos hYd hDd hgt' r2 qy sy (by rw [hmy]; exact py) hpy'
    obtain ⟨c1, c2, c3⟩ := step_length_core ((s.targetX : ℝ) - s.posX)
      ((s.targetY : ℝ) - s.posY) (((moveSprite sqrt s).posX : ℚ) - (s.posX : ℝ))
      (((moveSprite sqrt s).posY : ℚ) - (s.posY : ℝ)) d (1 / 2 ^ 43) hd hdpos ex ey
      (by norm_num) (by
        have : (3 : ℝ) / 2 + 1 / 2 ^ 43 < 2 - 1 / 2 ^ 48 := by norm_num
        linarith)
    have e1 : (s.targetX : ℝ) - s.posX - (((moveSprite sqrt s).posX : ℚ) - (s.posX : ℝ))
        = (s.targetX : ℝ) - (moveSprite sqrt s).posX := by ring
    have e2 : (s.targetY : ℝ) - s.posY - (((moveSprite sqrt s).posY : ℚ) - (s.posY : ℝ))
        = (s.targetY : ℝ) - (moveSprite sqrt s).posY := by ring
    rw [e1, e2] at c2 c3
    have e3 : (2 : ℝ) * (1 / 2 ^ 43) = 1 / 2 ^ 42 := by norm_num
    rw [e3] at c1 c2
    exact ⟨hdlow, ex, ey, c1, c2, c3⟩

/-- C19, as the code has it. In one frame update a tracked sprite keeps its target. When
the distance that the frame computes (in double arithmetic) is at most 2 it does not move;
when it is above 2, `(dx / dist) * 3` is added to each coordinate, in double arithmetic.
For a `sqrt` that is accurate at the sum of squares and a position with coordinates of
magnitude at most 900, with `d` the distance of the sprite to its target: a sprite with
`d` above `2 + 2 ^ -48` moves 3 units toward the target along the straight line, up to
rounding (each coordinate of the new position is within `2 ^ -43` of the point 3 units
along the line, the length of the step is within `2 ^ -42` of 3, the distance that is left
is within `2 ^ -42` of `|d - 3|` and below `d`); a sprite with `d` at most `2 - 2 ^ -48`
does not move; and a sprite with `d` between the two does the one or the other. -/
theorem onUpdate_moves_toward_target (sqrt : ℚ → ℚ) (w : World)
    (hreg : registeredUnderOwnId w = true) (hkeys : (mapKeys w.agents).Nodup)
    (id : JsString) (h : Nat) (s : AgentSprite) (ht : (id, h) ∈ w.agents)
    (hs : w.sprites[h]? = some s) :
    ∃ s1, (onUpdate sqrt w).sprites[h]? = some s1 ∧
      s1.targetX = s.targetX ∧ s1.targetY = s.targetY ∧
      (distToTarget sqrt s ≤ 2 → s1.posX = s.posX ∧ s1.posY = s.posY) ∧
      (2 < distToTarget sqrt s →
        s1.posX = fadd s.posX
          (fmul (fdiv (fsub s.targetX s.posX) (distToTarget sqrt s)) 3) ∧
        s1.posY = fadd s.posY
          (fmul (fdiv (fsub s.targetY s.posY) (distToTarget sqrt s)) 3)) ∧
      (accurateAt sqrt (sumOfSquares s) → |s.posX| ≤ 900 → |s.posY| ≤ 900 →
        let d : ℝ :=
          Real.sqrt (((s.targetX : ℝ) - s.posX) ^ 2 + ((s.targetY : ℝ) - s.posY) ^ 2)
        let moved : Prop :=
          |(s1.posX : ℝ) - s.posX - 3 * ((s.targetX : ℝ) - s.posX) / d| ≤ 1 / 2 ^ 43 ∧
          |(s1.posY : ℝ) - s.posY - 3 * ((s.targetY : ℝ) - s.posY) / d| ≤ 1 / 2 ^ 43 ∧
          |Real.sqrt (((s1.posX : ℝ) - s.posX) ^ 2 + ((s1.posY : ℝ) - s.posY) ^ 2) - 3|
            ≤ 1 / 2 ^ 42 ∧
          |Real.sqrt (((s.targetX : ℝ) - s1.posX) ^ 2 + ((s.targetY : ℝ) - s1.posY) ^ 2)
            - abs (d - 3)| ≤ 1 / 2 ^ 42 ∧
          Real.sqrt (((s.targetX : ℝ) - s1.posX) ^ 2 + ((s.targetY : ℝ) - s1.posY) ^ 2) < d
        (2 + 1 / 2 ^ 48 < d → moved) ∧
        (d ≤ 2 - 1 / 2 ^ 48 → s1.posX = s.posX ∧ s1.posY = s.posY) ∧
        ((s1.posX = s.posX ∧ s1.posY = s.posY) ∨ moved)) := by
  obtain ⟨s1, h1, hw⟩ := onUpdate_sprite sqrt w hreg hkeys id h s ht hs
  have hf : s1.posX = (moveSprite sqrt s).posX ∧ s1.posY = (moveSprite sqrt s).posY ∧
      s1.targetX = (moveSprite sqrt s).targetX ∧ s1.targetY = (moveSprite sqrt s).targetY := by
    have := congrArg (fun t : AgentSprite => (t.posX, t.posY, t.targetX, t.targetY)) hw
    simpa [withoutTalking] using this
  obtain ⟨px, py, tx, ty⟩ := hf
  have stay : distToTarget sqrt s ≤ 2 → s1.posX = s.posX ∧ s1.posY = s.posY := by
    intro hd
    have hn : ¬ distToTarget sqrt s > 2 := not_lt.mpr hd
    rw [moveSprite_eq, if_neg hn] at px py
    exact ⟨px, py⟩
  refine ⟨s1, h1, ?_, ?_, stay, ?_, ?_⟩
  · rw [tx, moveSprite_eq]; split <;> rfl
  · rw [ty, moveSprite_eq]; split <;> rfl
  · intro hd
    rw [moveSprite_eq, if_pos hd] at px py
    exact ⟨px, py⟩
  · intro hacc hpx hpy d moved
    obtain ⟨hsmall, hbig⟩ := moveSprite_accurate sqrt s hacc hpx hpy
    have hmoved : 2 < distToTarget sqrt s → moved := by
      intro hd
      obtain ⟨_, a1, a2, a3, a4, a5⟩ := hbig hd
      show _ ∧ _ ∧ _ ∧ _ ∧ _
      rw [px, py]
      exact ⟨a1, a2, a3, a4, a5⟩
    refine ⟨?_, ?_, ?_⟩
    · intro hd
      rcases le_or_lt (distToTarget sqrt s) 2 with hle | hgt
      · have := hsmall hle
        exact absurd (lt_of_lt_of_le hd this) (lt_irrefl _)
      · exact hmoved hgt
    · intro hd
      rcases le_or_lt (distToTarget sqrt s) 2 with hle | hgt
      · exact stay hle
      · have := (hbig hgt).1
        exact absurd (lt_of_lt_of_le this hd) (lt_irrefl _)
    · rcases le_or_lt (distToTarget sqrt s) 2 with hle | hgt
      · exact Or.inl (stay hle)
      · exact Or.inr (hmoved hgt)

/-- C19 fails as stated. The sprite of `A` is at `(400, 400)` and its target at
`(403, 404)`, at the distance 5. After one frame the sprite is at the doubles nearest to
`401.8` and `402.4`: the square of the length of its step is not 9, and the square of the
distance that is left is not 4, the square of `|5 - 3|`; it is above 4, the frame that
follows computes a distance above 2 and the sprite moves again, past its target, to the
doubles `403.59999999999997` and `404.8`. -/
theorem step_not_exact_counterexample :
    worldNearTarget.sprites[0]? = some spriteNearTarget ∧
    distToTarget sqrtDouble spriteNearTarget = 5 ∧
    (∃ s1, (onUpdate sqrtDouble worldNearTarget).sprites[0]? = some s1 ∧
      s1.posX = 7068540352646349 / 2 ^ 44 ∧ s1.posY = 3539547832136499 / 2 ^ 43 ∧
      (s1.posX - 400) ^ 2 + (s1.posY - 400) ^ 2 ≠ 3 ^ 2 ∧
      (403 - s1.posX) ^ 2 + (404 - s1.posY) ^ 2 ≠ (5 - 3) ^ 2 ∧
      (5 - 3) ^ 2 < (403 - s1.posX) ^ 2 + (404 - s1.posY) ^ 2 ∧
      distToTarget sqrtDouble s1 = 4503599627370521 / 2 ^ 51) ∧
    (∃ s2, (onUpdate sqrtDouble (onUpdate sqrtDouble worldNearTarget)).sprites[0]? = some s2 ∧
      s2.posX = 7100206287526297 / 2 ^ 44 ∧ s2.posY = 7121316910779597 / 2 ^ 44 ∧
      403 < s2.posX ∧ 404 < s2.posY) := by
  refine ⟨by decide!, by decide!, ⟨{ spriteNearTarget with
      posX := 7068540352646349 / 2 ^ 44, posY := 3539547832136499 / 2 ^ 43 },
      by decide!, rfl, rfl, by decide!, by decide!, by decide!, by decide!⟩,
    ⟨{ spriteNearTarget with
      posX := 7100206287526297 / 2 ^ 44, posY := 7121316910779597 / 2 ^ 44 },
      by decide!, rfl, rfl, by decide!, by decide!⟩⟩

/-- C19 at the sprite of `A` at `(100, 200)`, 50 from its target `(130, 240)`: the frame
computes the distance 50 and moves the sprite to the doubles nearest to `101.8` and
`202.4`, within `2 ^ -43` of these in each coordinate; the step is 3 long and the distance
that is left is 47, up to `2 ^ -42`. -/
theorem onUpdate_moves_toward_target_witness :
    registeredUnderOwnId worldMoving = true ∧ (mapKeys worldMoving.agents).Nodup ∧
    (js "A", 0) ∈ worldMoving.agents ∧ worldMoving.sprites[0]? = some spriteMoving ∧
    distToTarget sqrtDouble spriteMoving = 50 ∧
    accurateAt sqrtDouble (sumOfSquares spriteMoving) ∧
    ∃ s1, (onUpdate sqrtDouble worldMoving).sprites[0]? = some s1 ∧
      s1.posX = 7163538157286195 / 2 ^ 46 ∧ s1.posY = 7121316910779597 / 2 ^ 45 ∧
      |(s1.posX : ℝ) - 100 - 3 * (130 - 100) / Real.sqrt ((130 - 100) ^ 2 + (240 - 200) ^ 2)|
        ≤ 1 / 2 ^ 43 ∧
      |Real.sqrt (((s1.posX : ℝ) - 100) ^ 2 + ((s1.posY : ℝ) - 200) ^ 2) - 3| ≤ 1 / 2 ^ 42 ∧
      Real.sqrt ((130 - (s1.posX : ℝ)) ^ 2 + (240 - (s1.posY : ℝ)) ^ 2)
        < Real.sqrt ((130 - 100) ^ 2 + (240 - 200) ^ 2) := by
  have hacc : accurateAt sqrtDouble (sumOfSquares spriteMoving) := by
    unfold accurateAt
    decide!
  obtain ⟨s1, h1, _, _, _, hmove, hreal⟩ := onUpdate_moves_toward_target sqrtDouble worldMoving
    (by decide!) (by decide!) (js "A") 0 spriteMoving (by decide!) (by decide!)
  obtain ⟨hx, hy⟩ := hmove (by decide!)
  obtain ⟨_, _, hor⟩ := hreal hacc (by decide!) (by decide!)
  have hx' : s1.posX = 7163538157286195 / 2 ^ 46 := by rw [hx]; decide!
  have hy' : s1.posY = 7121316910779597 / 2 ^ 45 := by rw [hy]; decide!
  have hne : ¬ (s1.posX = spriteMoving.posX ∧ s1.posY = spriteMoving.posY) := by
    rw [hx']
    intro hc
    exact absurd hc.1 (by decide!)
  have hm := hor.resolve_left hne
  obtain ⟨a1, _, a3, _, a5⟩ := hm
  have c : ((spriteMoving.targetX : ℚ) : ℝ) = 130 ∧ ((spriteMoving.targetY : ℚ) : ℝ) = 240 ∧
      ((spriteMoving.posX : ℚ) : ℝ) = 100 ∧ ((spriteMoving.posY : ℚ) : ℝ) = 200 := by
    simp [spriteMoving]
  obtain ⟨c1, c2, c3, c4⟩ := c
  simp only [c1, c2, c3, c4] at a1 a3 a5
  exact ⟨by decide!, by decide!, by decide!, by decide!, by decide!, hacc, s1, h1, hx', hy',
    a1, a3, a5⟩

/-! ## The talking flag after `updateAgents` -/

theorem filter_eq_singleton_split {α : Type} (p : α → Bool) (l : List α) (a : α)
    (h : l.filter p = [a]) :
    ∃ pre post, l = pre ++ a :: post ∧ (∀ x ∈ pre, p x = false) ∧
      (∀ x ∈ post, p x = false) ∧ p a = true := by
  induction l with
  | nil => simp at h
  | cons x l ih =>
    rw [List.filter_cons] at h
    cases hp : p x with
    | true =>
      rw [hp] at h
      simp only [↓reduceIte, List.cons.injEq] at h
      obtain ⟨hx, hl⟩ := h
      subst hx
      refine ⟨[], l, rfl, fun y hy => by simp at hy, ?_, hp⟩
      intro y hy
      by_contra hc
      have : y ∈ l.filter p := List.mem_filter.mpr ⟨hy, by simpa using hc⟩
      rw [hl] at this
      simp at this
    | false =>
      rw [hp] at h
      simp only [Bool.false_eq_true, ↓reduceIte] at h
      obtain ⟨pre, post, e, h1, h2, h3⟩ := ih h
      refine ⟨x :: pre, post, by rw [e]; rfl, ?_, h2, h3⟩
      intro y hy
      rcases List.mem_cons.mp hy with rfl | hy'
      · exact hp
      · exact h1 y hy'

/-- The removal loop does not touch the sprite of an identifier that the snapshot lists. -/
theorem removal_keeps_listed (ids : List JsString) (w : World) (id : JsString) (h : Nat)
    (hreg : registeredUnderOwnId w = true) (hg : mapGet w.agents id = some h)
    (hid : id ∈ ids) :
    (w.agents.foldl (removeStale ids) w).sprites[h]? = w.sprites[h]? := by
  apply foldl_removeStale_getElem?_of_ne
  intro e he hstale heq
  obtain ⟨s, hs, hsid⟩ := (registeredUnderOwnId_iff w).mp hreg e he
  obtain ⟨s2, hs2, hsid2⟩ := (registeredUnderOwnId_iff w).mp hreg _ (mapGet_eq_some_mem hg)
  rw [heq] at hs
  simp only at hs2 hsid2
  rw [hs] at hs2
  cases hs2
  exact hstale (by rw [← hsid, hsid2]; exact hid)

/-- A record of another identifier leaves the sprite of a tracked identifier as it is. -/
theorem upsertAgent_other (w : World) (a : AgentData) (id : JsString) (h : Nat)
    (hreg : registeredUnderOwnId w = true) (hg : mapGet w.agents id = some h)
    (hne : a.agent_id ≠ id) : (upsertAgent w a).sprites[h]? = w.sprites[h]? := by
  rw [upsertAgent_sprites]
  obtain ⟨s, hs, hsid⟩ := (registeredUnderOwnId_iff w).mp hreg _ (mapGet_eq_some_mem hg)
  simp only at hs hsid
  cases hj : mapGet w.agents a.agent_id with
  | none =>
    simp only [createAgentSprite]
    rw [List.getElem?_append_left (List.getElem?_eq_some_iff.mp hs).1]
  | some j =>
    simp only
    rw [getElem?_modifyAt]
    have hjh : ¬ h = j := by
      intro e
      obtain ⟨t, ht, htid⟩ := (registeredUnderOwnId_iff w).mp hreg _ (mapGet_eq_some_mem hj)
      simp only at ht htid
      rw [← e, hs] at ht
      cases ht
      exact hne (htid.symm.trans hsid)
    simp only [hjh, ↓reduceIte]

theorem foldl_upsertAgent_other (l : List AgentData) (w : World) (id : JsString) (h : Nat)
    (hreg : registeredUnderOwnId w = true) (hg : mapGet w.agents id = some h)
    (hne : ∀ a ∈ l, (a.agent_id == id) = false) :
    (l.foldl upsertAgent w).sprites[h]? = w.sprites[h]? ∧
    registeredUnderOwnId (l.foldl upsertAgent w) = true ∧
    mapGet (l.foldl upsertAgent w).agents id = some h := by
  induction l generalizing w with
  | nil => exact ⟨rfl, hreg, hg⟩
  | cons a l ih =>
    rw [List.foldl_cons]
    have hne1 : a.agent_id ≠ id := by
      simpa using hne a (List.mem_cons_self _ _)
    obtain ⟨e1, e2, e3⟩ := ih (upsertAgent w a) (ownId_upsertAgent w a hreg)
      (upsertAgent_mapGet_some w a id h hg) (fun x hx => hne x (List.mem_cons_of_mem _ hx))
    exact ⟨e1.trans (upsertAgent_other w a id h hreg hg hne1), e2, e3⟩

/-- The update-or-create loop over records that list a tracked identifier once gives its
sprite what the one record gives it. -/
theorem foldl_upsertAgent_once (l : List AgentData) (w : World) (id : JsString) (h : Nat)
    (sp : AgentSprite) (a : AgentData) (hreg : registeredUnderOwnId w = true)
    (hg : mapGet w.agents id = some h) (hsp : w.sprites[h]? = some sp)
    (honce : l.filter (fun r => r.agent_id == id) = [a]) :
    (l.foldl upsertAgent w).sprites[h]? =
      some (if !sp.isSelected then
          updateAgentPosition sp (adjustedX a.x) (adjustedY a.y) a.state
        else { sp with isTalking := a.state == js "talking" }) := by
  obtain ⟨pre, post, hsplit, hpre, hpost, hpa⟩ := filter_eq_singleton_split _ l a honce
  have haid : a.agent_id = id := by simpa using hpa
  rw [hsplit, List.foldl_append, List.foldl_cons]
  obtain ⟨p1, p2, p3⟩ := foldl_upsertAgent_other pre w id h hreg hg hpre
  rw [hsp] at p1
  have hstep : (upsertAgent (pre.foldl upsertAgent w) a).sprites[h]? =
      some (if !sp.isSelected then
          updateAgentPosition sp (adjustedX a.x) (adjustedY a.y) a.state
        else { sp with isTalking := a.state == js "talking" }) := by
    rw [upsertAgent_sprites, haid, p3]
    simp only [getElem?_modifyAt, ↓reduceIte, p1, Option.map_some']
  obtain ⟨q1, _, _⟩ := foldl_upsertAgent_other post _ id h
    (ownId_upsertAgent _ a p2) (upsertAgent_mapGet_some _ a id h p3) hpost
  rw [q1, hstep]

/-- C20: for a tracked sprite that the snapshot lists once, after `updateAgents` the talking
flag is `state === 'talking'` for the reported state, selected or not; a selected sprite is
otherwise as it was, and a sprite that is not selected has, besides, the clamped reported
position as its target. -/
theorem updateAgents_talking_flag (w : World) (snapshot : WorldState) (id : JsString)
    (h : Nat) (sp : AgentSprite) (a : AgentData)
    (hreg : registeredUnderOwnId w = true) (htracked : mapGet w.agents id = some h)
    (hsp : w.sprites[h]? = some sp)
    (honce : snapshot.agents.filter (fun r => r.agent_id == id) = [a]) :
    ∃ sp', (updateAgents w snapshot).sprites[h]? = some sp' ∧
      sp'.isTalking = (a.state == js "talking") ∧
      (sp.isSelected = true → sp' = { sp with isTalking := a.state == js "talking" }) ∧
      (sp.isSelected = false →
        sp' = { sp with isTalking := a.state == js "talking"
                        targetX := adjustedX a.x, targetY := adjustedY a.y }) := by
  have hlisted : id ∈ snapshot.agents.map AgentData.agent_id := by
    have hmem : a ∈ snapshot.agents.filter (fun r => r.agent_id == id) := by
      rw [honce]; exact List.mem_singleton_self a
    obtain ⟨hin, hpa⟩ := List.mem_filter.mp hmem
    exact List.mem_map.mpr ⟨a, hin, by simpa using hpa⟩
  have hrem := removal_keeps_listed (snapshot.agents.map AgentData.agent_id) w id h hreg
    htracked hlisted
  rw [hsp] at hrem
  have hreg1 : registeredUnderOwnId
      (w.agents.foldl (removeStale (snapshot.agents.map AgentData.agent_id)) w) = true :=
    foldl_preserves (fun w => registeredUnderOwnId w = true) _
      (fun w x hw => ownId_removeStale _ w x hw) _ _ hreg
  have hg1 := removal_mapGet (snapshot.agents.map AgentData.agent_id) w id hlisted
  rw [htracked] at hg1
  have hmain : (updateAgents w snapshot).sprites[h]? =
      some (if !sp.isSelected then
          updateAgentPosition sp (adjustedX a.x) (adjustedY a.y) a.state
        else { sp with isTalking := a.state == js "talking" }) :=
    foldl_upsertAgent_once snapshot.agents _ id h sp a hreg1 hg1 hrem honce
  refine ⟨_, hmain, ?_, ?_, ?_⟩
  · cases sp.isSelected <;> simp [updateAgentPosition]
  · intro hsel
    simp [hsel]
  · intro hsel
    simp [hsel, updateAgentPosition]

/-- C20 at the selected sprite of `A`, for which the snapshot reports the state `talking`,
once. -/
theorem updateAgents_talking_flag_witness :
    registeredUnderOwnId worldSelectedA = true ∧
    mapGet worldSelectedA.agents (js "A") = some 0 ∧
    worldSelectedA.sprites[0]? = some selectedSpriteA ∧
    (updateAgents worldSelectedA snapshotTalking).sprites[0]?
      = some { selectedSpriteA with isTalking := true } := by
  obtain ⟨sp', h1, _, hsel, _⟩ := updateAgents_talking_flag worldSelectedA snapshotTalking
    (js "A") 0 selectedSpriteA
    { agent_id := js "A", name := js "A", agent_type := js "recruiter", x := 50, y := 50,
      state := js "talking" }
    (by decide!) (by decide!) (by decide!) (by decide!)
  exact ⟨by decide!, by decide!, by decide!, by rw [h1, hsel rfl]; rfl⟩

/-! ## The reaction of the scene, event by event -/

theorem sceneStep_agentClick (sqrt : ℚ → ℚ) (n : NetworkingWorld) (agent : Nat) :
    sceneStep sqrt n (.agentClick agent) =
      match n.scene.world.sprites[agent]? with
      | some a =>
        if a.destroyed then n
        else { n with scene := { n.scene with world := handleAgentSelect n.scene.world agent } }
      | none => n := rfl

theorem sceneStep_waitOver (sqrt : ℚ → ℚ) (n : NetworkingWorld) (i : Nat) :
    sceneStep sqrt n (.waitOver i) =
      match n.scene.waits[i]? with
      | some t =>
        { n with
          scene :=
            bubbleWaitOver { n.scene with waits := n.scene.waits.eraseIdx i } t.agent t.bubble }
      | none => n := rfl

theorem sceneStep_tweenEnd (sqrt : ℚ → ℚ) (n : NetworkingWorld) (i : Nat) :
    sceneStep sqrt n (.tweenEnd i) =
      match n.scene.tweens[i]? with
      | some t =>
        { n with
          scene :=
            fadeOutEnd { n.scene with tweens := n.scene.tweens.eraseIdx i } t.agent t.bubble }
      | none => n := rfl

theorem sceneStep_escape (sqrt : ℚ → ℚ) (n : NetworkingWorld) :
    sceneStep sqrt n .escape = onEscape n := rfl

/-! ## Selection by click -/

theorem getElem?_setSelected (sprites : List AgentSprite) (h j : Nat) (b : Bool) :
    (setSelected sprites h b)[j]? =
      if j = h then sprites[j]?.map fun s => { s with isSelected := b } else sprites[j]? :=
  getElem?_modifyAt sprites h j _

theorem handleAgentSelect_agents (w : World) (a : Nat) :
    (handleAgentSelect w a).agents = w.agents ∧
    (handleAgentSelect w a).activeBubbles = w.activeBubbles ∧
    (handleAgentSelect w a).bubbles = w.bubbles ∧
    (handleAgentSelect w a).activeConversations = w.activeConversations := by
  unfold handleAgentSelect
  dsimp only
  split <;> exact ⟨rfl, rfl, rfl, rfl⟩

theorem handleAgentSelect_selectedAgent (w : World) (a : Nat) :
    (handleAgentSelect w a).selectedAgent =
      if w.selectedAgent = some a then none else some a := by
  unfold handleAgentSelect
  dsimp only
  split <;> rfl

/-- The heap after `handleAgentSelect`, cell by cell: the sprite of the call has its flag set
exactly when it was not the selected one, the previously selected sprite has its flag
cleared, and every other cell is as before. -/
theorem handleAgentSelect_getElem? (w : World) (a j : Nat) :
    (handleAgentSelect w a).sprites[j]? =
      if j = a then
        w.sprites[j]?.map fun s => { s with isSelected := decide (w.selectedAgent ≠ some a) }
      else if w.selectedAgent = some j then
        w.sprites[j]?.map fun s => { s with isSelected := false }
      else w.sprites[j]? := by
  unfold handleAgentSelect
  dsimp only
  cases hsel : w.selectedAgent with
  | none =>
    simp only [reduceCtorEq, ↓reduceIte, getElem?_setSelected, ne_eq, not_false_eq_true,
      decide_True]
  | some p =>
    by_cases hpa : p = a
    · subst hpa
      by_cases hj : j = p
      · simp [getElem?_setSelected, hj]
      · have hj' : ¬ p = j := fun e => hj e.symm
        simp [getElem?_setSelected, hj, hj']
    · have hpa' : ¬ some p = some a := fun e => hpa (Option.some.inj e)
      by_cases hj : j = a
      · subst hj
        have hjp : ¬ j = p := fun e => hpa e.symm
        simp [getElem?_setSelected, hpa, hpa', hjp]
      · by_cases hjp : j = p
        · subst hjp
          simp [getElem?_setSelected, hpa, hj]
        · have hjp' : ¬ p = j := fun e => hjp e.symm
          simp [getElem?_setSelected, hpa, hj, hjp, hjp']

/-- C21: `handleAgentSelect` on a sprite `a` of the heap (tracked or not). When `a` was the
selected sprite, nothing is selected afterwards and the flag of `a` is cleared. Otherwise
`a` is the selected sprite afterwards, its flag is set, and the flag of the sprite that was
selected before, if there was one, is cleared. In both cases every other cell of the heap
and the mappings are as before. -/
theorem handleAgentSelect_toggles (w : World) (a : Nat) (s : AgentSprite)
    (hs : w.sprites[a]? = some s) :
    (w.selectedAgent = some a →
      (handleAgentSelect w a).selectedAgent = none ∧
      (handleAgentSelect w a).sprites[a]? = some { s with isSelected := false }) ∧
    (w.selectedAgent ≠ some a →
      (handleAgentSelect w a).selectedAgent = some a ∧
      (handleAgentSelect w a).sprites[a]? = some { s with isSelected := true } ∧
      ∀ (p : Nat) (sp : AgentSprite), w.selectedAgent = some p → w.sprites[p]? = some sp →
        (handleAgentSelect w a).sprites[p]? = some { sp with isSelected := false }) ∧
    (∀ j : Nat, j ≠ a → w.selectedAgent ≠ some j →
      (handleAgentSelect w a).sprites[j]? = w.sprites[j]?) ∧
    (handleAgentSelect w a).agents = w.agents ∧
    (handleAgentSelect w a).activeBubbles = w.activeBubbles := by
  refine ⟨?_, ?_, ?_, (handleAgentSelect_agents w a).1, (handleAgentSelect_agents w a).2.1⟩
  · intro hsel
    refine ⟨by rw [handleAgentSelect_selectedAgent, if_pos hsel], ?_⟩
    rw [handleAgentSelect_getElem?, if_pos rfl, hs]
    simp [hsel]
  · intro hsel
    refine ⟨by rw [handleAgentSelect_selectedAgent, if_neg hsel], ?_, ?_⟩
    · rw [handleAgentSelect_getElem?, if_pos rfl, hs]
      simp [hsel]
    · intro p sp hp hsp
      have hpa : p ≠ a := fun e => hsel (e ▸ hp)
      rw [handleAgentSelect_getElem?, if_neg hpa, if_pos hp, hsp]
      rfl
  · intro j hja hsel
    rw [handleAgentSelect_getElem?, if_neg hja, if_neg hsel]

/-- C21 at the world of `A` and `B` with `A` selected: a click on `A` clears the
selection, and a click on `B` selects `B` and deselects `A`. -/
theorem handleAgentSelect_toggles_witness :
    worldABSelected.selectedAgent = some 0 ∧
    worldABSelected.sprites[0]? = some { spriteA with isSelected := true } ∧
    worldABSelected.sprites[1]? = some spriteB ∧
    ((handleAgentSelect worldABSelected 0).selectedAgent = none ∧
      (handleAgentSelect worldABSelected 0).sprites[0]? = some spriteA) ∧
    ((handleAgentSelect worldABSelected 1).selectedAgent = some 1 ∧
      (handleAgentSelect worldABSelected 1).sprites[1]? = some { spriteB with isSelected := true } ∧
      (handleAgentSelect worldABSelected 1).sprites[0]? = some spriteA) := by
  obtain ⟨hoff, _, _, _, _⟩ := handleAgentSelect_toggles worldABSelected 0
    { spriteA with isSelected := true } (by decide!)
  obtain ⟨_, hon, _, _, _⟩ := handleAgentSelect_toggles worldABSelected 1 spriteB (by decide!)
  obtain ⟨h1, h2, h3⟩ := hon (by decide!)
  exact ⟨by decide!, by decide!, by decide!, hoff (by decide!),
    h1, h2, h3 0 { spriteA with isSelected := true } (by decide!) (by decide!)⟩

/-! ## Click-to-move -/

theorem onClick_getElem? (w : World) (mx my : ℚ) (j : Nat) :
    (onClick w mx my).sprites[j]? =
      if w.selectedAgent = some j then
        w.sprites[j]?.map fun s =>
          { s with targetX := max 80 (min 820 mx), targetY := max 120 (min 680 my) }
      else w.sprites[j]? := by
  unfold onClick
  cases hsel : w.selectedAgent with
  | none => simp
  | some p =>
    dsimp only
    rw [getElem?_modifyAt]
    have h1 : WORLD_CONFIG.width - 380 = 820 := by norm_num [WORLD_CONFIG]
    have h2 : WORLD_CONFIG.height - 120 = 680 := by norm_num [WORLD_CONFIG]
    rw [h1, h2]
    by_cases hj : j = p
    · subst hj; simp
    · have hj' : ¬ p = j := fun e => hj e.symm
      simp [hj, hj']

theorem onClick_agents (w : World) (mx my : ℚ) :
    (onClick w mx my).agents = w.agents ∧
    (onClick w mx my).selectedAgent = w.selectedAgent ∧
    (onClick w mx my).activeBubbles = w.activeBubbles ∧
    (onClick w mx my).bubbles = w.bubbles ∧
    (onClick w mx my).activeConversations = w.activeConversations := by
  unfold onClick
  split <;> exact ⟨rfl, rfl, rfl, rfl, rfl⟩

/-- C22: a click on the canvas at `(mx, my)`. With a selected sprite, the target of that
sprite becomes `(max(80, min(820, mx)), max(120, min(680, my)))`, its other fields (its
position among them) and every other cell of the heap are as before. Without a selection
the click changes nothing. In both cases the mappings and the selection are as before. -/
theorem onClick_moves_selected_target (w : World) (mx my : ℚ) :
    (∀ (sel : Nat) (s : AgentSprite), w.selectedAgent = some sel → w.sprites[sel]? = some s →
      (onClick w mx my).sprites[sel]? =
        some { s with targetX := max 80 (min 820 mx), targetY := max 120 (min 680 my) } ∧
      ∀ j : Nat, j ≠ sel → (onClick w mx my).sprites[j]? = w.sprites[j]?) ∧
    (w.selectedAgent = none → onClick w mx my = w) ∧
    (onClick w mx my).agents = w.agents ∧
    (onClick w mx my).selectedAgent = w.selectedAgent ∧
    (onClick w mx my).activeBubbles = w.activeBubbles := by
  refine ⟨?_, ?_, (onClick_agents w mx my).1, (onClick_agents w mx my).2.1,
    (onClick_agents w mx my).2.2.1⟩
  · intro sel s hsel hs
    refine ⟨by rw [onClick_getElem?, if_pos hsel, hs]; rfl, ?_⟩
    intro j hj
    have hne : w.selectedAgent ≠ some j := by
      rw [hsel]
      exact fun e => hj (Option.some.inj e).symm
    rw [onClick_getElem?, if_neg hne]
  · intro hsel
    unfold onClick
    rw [hsel]

/-- C22 at the world of `A` and `B`: with `A` selected, a click at `(1000, 50)` sets the
target of `A` to `(820, 120)` and leaves `B` as it was; without a selection the same click
changes nothing. -/
theorem onClick_moves_selected_target_witness :
    worldABSelected.selectedAgent = some 0 ∧
    (onClick worldABSelected 1000 50).sprites[0]? =
      some { spriteA with isSelected := true, targetX := 820, targetY := 120 } ∧
    (onClick worldABSelected 1000 50).sprites[1]? = some spriteB ∧
    worldAB.selectedAgent = none ∧ onClick worldAB 1000 50 = worldAB := by
  obtain ⟨hsel, _, _, _, _⟩ := onClick_moves_selected_target worldABSelected 1000 50
  obtain ⟨_, hnone, _, _, _⟩ := onClick_moves_selected_target worldAB 1000 50
  obtain ⟨h1, h2⟩ := hsel 0 { spriteA with isSelected := true } (by decide!) (by decide!)
  refine ⟨by decide!, ?_, ?_, by decide!, hnone (by decide!)⟩
  · rw [h1]; decide!
  · rw [h2 1 (by decide)]; decide!

/-! ## Conversation turns that name no tracked sprite -/

theorem matchesTurn_iff (w : World) (turn : Turn) (h : Nat) :
    matchesTurn w turn h = true ↔
      ∃ a, w.sprites[h]? = some a ∧ a.agentType = turn.role ∧ a.agentName = turn.speaker_name := by
  unfold matchesTurn hasRole hasName
  cases hs : w.sprites[h]? with
  | none => simp
  | some a => simp

theorem find?_matchesTurn_isSome_iff (w : World) (turn : Turn) :
    ((mapValues w.agents).find? (matchesTurn w turn)).isSome = true ↔
      namesTrackedSprite w turn := by
  rw [List.find?_isSome]
  unfold namesTrackedSprite
  constructor
  · rintro ⟨h, hm, hp⟩
    exact ⟨h, hm, (matchesTurn_iff w turn h).mp hp⟩
  · rintro ⟨h, hm, hp⟩
    exact ⟨h, hm, (matchesTurn_iff w turn h).mpr hp⟩

theorem handleConversationTurn_of_none (s : Scene) (turn : Turn) (now : Nat)
    (hnone : (mapValues s.world.agents).find? (matchesTurn s.world turn) = none) :
    handleConversationTurn s turn now = s := by
  unfold handleConversationTurn
  have hfind : ((mapValues s.world.agents).filter (hasRole s.world turn.role)).find?
      (hasName s.world turn.speaker_name) = none := by
    rw [List.find?_filter]
    have hp : (fun h => decide (hasRole s.world turn.role h = true ∧
        hasName s.world turn.speaker_name h = true)) = matchesTurn s.world turn := by
      funext h
      simp [matchesTurn]
    rw [hp]
    exact hnone
  dsimp only
  rw [hfind]
  split <;> rfl

theorem mapGet_mapSet_self (m : List (JsString × Nat)) (k : JsString) (v : Nat) :
    mapGet (mapSet m k v) k = some v := by
  unfold mapSet
  split
  · rename_i hh
    have hmem := (mapHas_iff m k).mp hh
    unfold mapGet
    induction m with
    | nil => simp [mapKeys] at hmem
    | cons e m ih =>
      by_cases he : e.1 = k
      · simp [List.find?_cons, he]
      · have hb : (e.1 == k) = false := by simpa using he
        simp only [List.map_cons, hb, Bool.false_eq_true, ↓reduceIte, List.find?_cons]
        apply ih
        · simp only [mapKeys, List.map_cons, List.mem_cons] at hmem
          rcases hmem with h | h
          · exact absurd h.symm he
          · exact (mapHas_iff m k).mpr h
        · simp only [mapKeys, List.map_cons, List.mem_cons] at hmem
          rcases hmem with h | h
          · exact absurd h.symm he
          · exact h
  · rename_i hh
    apply mapGet_append_of_none
    rw [mapGet_eq_none_iff]
    exact fun hm => hh ((mapHas_iff m k).mpr hm)

theorem showSpeechBubble_bubbles_length (s : Scene) (agent : Nat) (a : AgentSprite)
    (ha : s.world.sprites[agent]? = some a) :
    (showSpeechBubble s agent).world.bubbles.length = s.world.bubbles.length + 1 := by
  rw [(showSpeechBubble_of_sprite s agent a ha).2.1]
  cases mapGet s.world.activeBubbles a.agentId <;> simp [length_modifyAt]

/-- C23: a conversation-turn event creates a bubble (the heap of bubbles grows by one) if and
only if some tracked sprite has the type that is the role of the turn and the name that is
its speaker name. When there is one, the turn is the first entry of the log afterwards, and
the new bubble is the one registered for the identifier of such a sprite. When there is
none, the whole scene (the bubble mapping, the heap of bubbles, the log, the timers) is as
before. -/
theorem handleConversationTurn_iff_named (s : Scene) (turn : Turn) (now : Nat) :
    (namesTrackedSprite s.world turn ↔
      (handleConversationTurn s turn now).world.bubbles.length
        = s.world.bubbles.length + 1) ∧
    (namesTrackedSprite s.world turn →
      (handleConversationTurn s turn now).conversationLog[0]?
        = some { speakerName := turn.speaker_name, content := turn.content,
                 role := turn.role, time := now } ∧
      ∃ h ∈ mapValues s.world.agents, ∃ a, s.world.sprites[h]? = some a ∧
        a.agentType = turn.role ∧ a.agentName = turn.speaker_name ∧
        mapGet (handleConversationTurn s turn now).world.activeBubbles a.agentId
          = some s.world.bubbles.length) ∧
    (¬ namesTrackedSprite s.world turn → handleConversationTurn s turn now = s) := by
  cases hfind : (mapValues s.world.agents).find? (matchesTurn s.world turn) with
  | none =>
    have hnot : ¬ namesTrackedSprite s.world turn := by
      rw [← find?_matchesTurn_isSome_iff, hfind]
      simp
    have hsame := handleConversationTurn_of_none s turn now hfind
    refine ⟨?_, fun hn => absurd hn hnot, fun _ => hsame⟩
    rw [hsame]
    constructor
    · exact fun hn => absurd hn hnot
    · intro h; omega
  | some speaker =>
    have hyes : namesTrackedSprite s.world turn := by
      rw [← find?_matchesTurn_isSome_iff, hfind]
      rfl
    have hmem := List.mem_of_find?_eq_some hfind
    have hp := List.find?_some hfind
    obtain ⟨a, ha, hrole, hname⟩ := (matchesTurn_iff s.world turn speaker).mp hp
    have heq := handleConversationTurn_of_first s turn now speaker hfind
    have hworld : (handleConversationTurn s turn now).world = (showSpeechBubble s speaker).world := by
      rw [heq]; rfl
    have hlen := showSpeechBubble_bubbles_length s speaker a ha
    refine ⟨⟨fun _ => by rw [hworld]; exact hlen, fun _ => hyes⟩, fun _ => ⟨?_, ?_⟩,
      fun hn => absurd hyes hn⟩
    · rw [heq]
      unfold addToLog maxLogEntries
      dsimp only
      split
      · rename_i hl
        cases hlog : (showSpeechBubble s speaker).conversationLog with
        | nil => rw [hlog] at hl; simp at hl
        | cons e rest => simp [List.dropLast]
      · simp
    · refine ⟨speaker, hmem, a, ha, hrole, hname, ?_⟩
      rw [hworld, (showSpeechBubble_of_sprite s speaker a ha).1]
      exact mapGet_mapSet_self _ _ _

/-- C23 at the scene of two recruiters named `Ann`: a turn of the recruiter `Ann`
creates a bubble and a log entry; a turn of a candidate named `Ann` and a turn of a
recruiter named `Bob` leave the scene as it was. -/
theorem handleConversationTurn_iff_named_witness :
    namesTrackedSprite sceneTwins.world turnAnn ∧
    (handleConversationTurn sceneTwins turnAnn 1000).world.bubbles.length
      = sceneTwins.world.bubbles.length + 1 ∧
    (handleConversationTurn sceneTwins turnAnn 1000).conversationLog[0]?
      = some { speakerName := js "Ann", content := js "Hello", role := js "recruiter",
               time := 1000 } ∧
    ¬ namesTrackedSprite sceneTwins.world turnAnnCandidate ∧
    handleConversationTurn sceneTwins turnAnnCandidate 1000 = sceneTwins ∧
    ¬ namesTrackedSprite sceneTwins.world turnBob ∧
    handleConversationTurn sceneTwins turnBob 1000 = sceneTwins := by
  have hyes : namesTrackedSprite sceneTwins.world turnAnn :=
    (find?_matchesTurn_isSome_iff _ _).mp (by decide!)
  have hno1 : ¬ namesTrackedSprite sceneTwins.world turnAnnCandidate := by
    rw [← find?_matchesTurn_isSome_iff]; decide!
  have hno2 : ¬ namesTrackedSprite sceneTwins.world turnBob := by
    rw [← find?_matchesTurn_isSome_iff]; decide!
  obtain ⟨hiff, hlog, _⟩ := handleConversationTurn_iff_named sceneTwins turnAnn 1000
  obtain ⟨_, _, hsame1⟩ := handleConversationTurn_iff_named sceneTwins turnAnnCandidate 1000
  obtain ⟨_, _, hsame2⟩ := handleConversationTurn_iff_named sceneTwins turnBob 1000
  exact ⟨hyes, hiff.mp hyes, (hlog hyes).1, hno1, hsame1 hno1, hno2, hsame2 hno2⟩

/-! ## Views of the heap -/

theorem map_modifyAt_of_view {α β : Type} (π : α → β) (l : List α) (h : Nat) (f : α → α)
    (hf : ∀ s, π (f s) = π s) : (modifyAt l h f).map π = l.map π := by
  apply List.ext_getElem?
  intro j
  rw [List.getElem?_map, List.getElem?_map, getElem?_modifyAt]
  split
  · cases l[j]? <;> simp [hf]
  · rfl

/-- The cell of a heap, from the cell of a heap that has the same view. -/
theorem getElem?_of_map_eq {α β : Type} (π : α → β) (l l' : List α)
    (hmap : l'.map π = l.map π) (h : Nat) (s' : α) (hs : l'[h]? = some s') :
    ∃ s, l[h]? = some s ∧ π s = π s' := by
  have h1 : (l'.map π)[h]? = some (π s') := by rw [List.getElem?_map, hs]; rfl
  rw [hmap, List.getElem?_map] at h1
  cases hl : l[h]? with
  | none => rw [hl] at h1; cases h1
  | some s =>
    rw [hl] at h1
    exact ⟨s, rfl, by simpa using h1⟩

theorem sameSelection_refl (w : World) : sameSelection w w := ⟨rfl, rfl, rfl⟩

theorem sameSelection_trans {w1 w2 w3 : World} (h12 : sameSelection w1 w2)
    (h23 : sameSelection w2 w3) : sameSelection w1 w3 :=
  ⟨h23.1.trans h12.1, h23.2.1.trans h12.2.1, h23.2.2.trans h12.2.2⟩

theorem sameSelection_symm {w1 w2 : World} (h : sameSelection w1 w2) : sameSelection w2 w1 :=
  ⟨h.1.symm, h.2.1.symm, h.2.2.symm⟩

theorem foldl_sameSelection {β : Type} (f : World → β → World)
    (hf : ∀ w x, sameSelection w (f w x)) (l : List β) (w : World) :
    sameSelection w (l.foldl f w) := by
  induction l generalizing w with
  | nil => exact sameSelection_refl w
  | cons x l ih => exact sameSelection_trans (hf w x) (ih _)

/-- The consistency of mapping and selection depends on the view alone. -/
theorem selectionInv_of_sameSelection {w w' : World} (hsame : sameSelection w w')
    (hw : selectionInv w) : selectionInv w' := by
  obtain ⟨hag, hsel, hview⟩ := hsame
  obtain ⟨h1, h2, h3, h4, h5⟩ := hw
  have back : ∀ (h : Nat) (s' : AgentSprite), w'.sprites[h]? = some s' →
      ∃ s, w.sprites[h]? = some s ∧ selectionView s = selectionView s' :=
    getElem?_of_map_eq selectionView w.sprites w'.sprites hview
  have forth : ∀ (h : Nat) (s : AgentSprite), w.sprites[h]? = some s →
      ∃ s', w'.sprites[h]? = some s' ∧ selectionView s' = selectionView s :=
    getElem?_of_map_eq selectionView w'.sprites w.sprites hview.symm
  refine ⟨by rw [hag]; exact h1, ?_, ?_, ?_, ?_⟩
  · intro e he
    rw [hag] at he
    obtain ⟨s, hs, hid, hd⟩ := h2 e he
    obtain ⟨s', hs', hv⟩ := forth _ s hs
    simp only [selectionView, Prod.mk.injEq] at hv
    exact ⟨s', hs', hv.1.trans hid, hv.2.1.trans hd⟩
  · intro h s' hs' hd
    obtain ⟨s, hs, hv⟩ := back h s' hs'
    simp only [selectionView, Prod.mk.injEq] at hv
    rw [hag, ← hv.1]
    exact h3 h s hs (hv.2.1.trans hd)
  · intro h hh
    rw [hsel] at hh
    obtain ⟨s, hs, hd⟩ := h4 h hh
    obtain ⟨s', hs', hv⟩ := forth _ s hs
    simp only [selectionView, Prod.mk.injEq] at hv
    exact ⟨s', hs', hv.2.1.trans hd⟩
  · intro h s' hs' hd
    obtain ⟨s, hs, hv⟩ := back h s' hs'
    simp only [selectionView, Prod.mk.injEq] at hv
    rw [hsel, ← hv.2.2]
    exact h5 h s hs (hv.2.1.trans hd)

/-! ## What a frame leaves of the world -/

theorem moveAgent_fields (sqrt : ℚ → ℚ) (w : World) (e : JsString × Nat) :
    (moveAgent sqrt w e).agents = w.agents ∧
    (moveAgent sqrt w e).selectedAgent = w.selectedAgent ∧
    (moveAgent sqrt w e).activeBubbles = w.activeBubbles := ⟨rfl, rfl, rfl⟩

theorem moveAgent_map_view {β : Type} (π : AgentSprite → β)
    (hpos : ∀ (s : AgentSprite) (x y : ℚ), π { s with posX := x, posY := y } = π s)
    (sqrt : ℚ → ℚ) (w : World) (e : JsString × Nat) :
    (moveAgent sqrt w e).sprites.map π = w.sprites.map π := by
  unfold moveAgent
  dsimp only
  apply map_modifyAt_of_view
  intro s
  unfold moveSprite
  dsimp only
  split
  · exact hpos s _ _
  · rfl

theorem checkPair_fields (sqrt : ℚ → ℚ) (w : World) (p : Nat × Nat) :
    (checkPair sqrt w p).agents = w.agents ∧
    (checkPair sqrt w p).selectedAgent = w.selectedAgent ∧
    (checkPair sqrt w p).activeBubbles = w.activeBubbles := by
  unfold checkPair
  cases w.sprites[p.1]? with
  | none => exact ⟨rfl, rfl, rfl⟩
  | some a1 =>
    cases w.sprites[p.2]? with
    | none => exact ⟨rfl, rfl, rfl⟩
    | some a2 =>
      dsimp only
      split_ifs <;> exact ⟨rfl, rfl, rfl⟩

theorem checkPair_map_view {β : Type} (π : AgentSprite → β)
    (htalk : ∀ (s : AgentSprite) (b : Bool), π { s with isTalking := b } = π s)
    (sqrt : ℚ → ℚ) (w : World) (p : Nat × Nat) :
    (checkPair sqrt w p).sprites.map π = w.sprites.map π := by
  have hset : ∀ (l : List AgentSprite) (h : Nat) (b : Bool),
      (setTalking l h b).map π = l.map π :=
    fun l h b => map_modifyAt_of_view π l h _ (fun s => htalk s b)
  unfold checkPair
  cases w.sprites[p.1]? with
  | none => rfl
  | some a1 =>
    cases w.sprites[p.2]? with
    | none => rfl
    | some a2 =>
      dsimp only
      split_ifs <;> simp only [hset]

theorem foldl_fields {β : Type} (f : World → β → World)
    (hf : ∀ w x, (f w x).agents = w.agents ∧ (f w x).selectedAgent = w.selectedAgent ∧
      (f w x).activeBubbles = w.activeBubbles)
    (l : List β) (w : World) :
    (l.foldl f w).agents = w.agents ∧ (l.foldl f w).selectedAgent = w.selectedAgent ∧
      (l.foldl f w).activeBubbles = w.activeBubbles := by
  induction l generalizing w with
  | nil => exact ⟨rfl, rfl, rfl⟩
  | cons x l ih =>
    obtain ⟨a1, a2, a3⟩ := hf w x
    obtain ⟨b1, b2, b3⟩ := ih (f w x)
    exact ⟨b1.trans a1, b2.trans a2, b3.trans a3⟩

theorem foldl_map_view {β γ : Type} (π : AgentSprite → γ) (f : World → β → World)
    (hf : ∀ w x, (f w x).sprites.map π = w.sprites.map π) (l : List β) (w : World) :
    (l.foldl f w).sprites.map π = w.sprites.map π := by
  induction l generalizing w with
  | nil => rfl
  | cons x l ih => exact (ih (f w x)).trans (hf w x)

theorem onUpdate_fields (sqrt : ℚ → ℚ) (w : World) :
    (onUpdate sqrt w).agents = w.agents ∧ (onUpdate sqrt w).selectedAgent = w.selectedAgent ∧
      (onUpdate sqrt w).activeBubbles = w.activeBubbles := by
  unfold onUpdate checkProximityForConversations
  obtain ⟨a1, a2, a3⟩ := foldl_fields (moveAgent sqrt) (moveAgent_fields sqrt) w.agents w
  obtain ⟨b1, b2, b3⟩ := foldl_fields (checkPair sqrt) (checkPair_fields sqrt)
    (pairs (mapValues (w.agents.foldl (moveAgent sqrt) w).agents))
    (w.agents.foldl (moveAgent sqrt) w)
  exact ⟨b1.trans a1, b2.trans a2, b3.trans a3⟩

/-- A frame changes of a sprite its position and its talking flag only: every view of the
heap that reads neither is as before. -/
theorem onUpdate_map_view {β : Type} (π : AgentSprite → β)
    (hpos : ∀ (s : AgentSprite) (x y : ℚ), π { s with posX := x, posY := y } = π s)
    (htalk : ∀ (s : AgentSprite) (b : Bool), π { s with isTalking := b } = π s)
    (sqrt : ℚ → ℚ) (w : World) :
    (onUpdate sqrt w).sprites.map π = w.sprites.map π := by
  unfold onUpdate checkProximityForConversations
  exact (foldl_map_view π (checkPair sqrt) (checkPair_map_view π htalk sqrt) _ _).trans
    (foldl_map_view π (moveAgent sqrt) (moveAgent_map_view π hpos sqrt) _ _)

theorem onUpdate_sameSelection (sqrt : ℚ → ℚ) (w : World) :
    sameSelection w (onUpdate sqrt w) :=
  ⟨(onUpdate_fields sqrt w).1, (onUpdate_fields sqrt w).2.1,
    onUpdate_map_view selectionView (fun _ _ _ => rfl) (fun _ _ => rfl) sqrt w⟩

theorem onClick_sameSelection (w : World) (mx my : ℚ) : sameSelection w (onClick w mx my) := by
  refine ⟨(onClick_agents w mx my).1, (onClick_agents w mx my).2.1, ?_⟩
  unfold onClick
  split
  · exact map_modifyAt_of_view selectionView _ _ _ (fun _ => rfl)
  · rfl

/-! ## The consistency of mapping and selection along `updateAgents` -/

theorem mem_mapDelete {m : List (JsString × Nat)} {k : JsString} {x : JsString × Nat} :
    x ∈ mapDelete m k ↔ x ∈ m ∧ x.1 ≠ k := by
  simp [mapDelete]

theorem eq_of_mem_of_nodup {m : List (JsString × Nat)} (hn : (mapKeys m).Nodup)
    {k : JsString} {h1 h2 : Nat} (m1 : (k, h1) ∈ m) (m2 : (k, h2) ∈ m) : h1 = h2 := by
  have e1 := mapGet_of_mem_nodup hn m1
  have e2 := mapGet_of_mem_nodup hn m2
  rw [e1] at e2
  exact Option.some.inj e2

theorem selectionInv_removeStale (ids : List JsString) (w : World) (e : JsString × Nat)
    (he : e ∈ w.agents) (hw : selectionInv w) : selectionInv (removeStale ids w e) := by
  by_cases hc : e.1 ∈ ids
  · have : removeStale ids w e = w := by
      unfold removeStale
      simp [hc]
    rw [this]
    exact hw
  · obtain ⟨h1, h2, h3, h4, h5⟩ := hw
    have hag : (removeStale ids w e).agents = mapDelete w.agents e.1 := by
      rw [removeStale_agents, if_neg hc]
    have hsp : (removeStale ids w e).sprites =
        modifyAt w.sprites e.2 fun s => { s with destroyed := true } := by
      rw [removeStale_sprites, if_neg hc]
    have hsel : (removeStale ids w e).selectedAgent =
        if w.selectedAgent = some e.2 then none else w.selectedAgent := by
      rw [removeStale_selectedAgent, if_neg hc]
    obtain ⟨se, hse, hseid, _⟩ := h2 e he
    -- a cell other than the one destroyed is as before
    have hother : ∀ h : Nat, h ≠ e.2 → (removeStale ids w e).sprites[h]? = w.sprites[h]? := by
      intro h hne
      rw [hsp, getElem?_modifyAt, if_neg hne]
    -- a live cell of the new heap is not the one destroyed
    have hlive : ∀ (h : Nat) (s : AgentSprite), (removeStale ids w e).sprites[h]? = some s →
        s.destroyed = false → h ≠ e.2 := by
      intro h s hs hd hh
      rw [hsp, getElem?_modifyAt, if_pos hh, hh, hse] at hs
      simp only [Option.map_some', Option.some.injEq] at hs
      rw [← hs] at hd
      cases hd
    refine ⟨?_, ?_, ?_, ?_, ?_⟩
    · rw [hag]
      exact h1.sublist ((List.filter_sublist _).map _)
    · intro x hx
      rw [hag, mem_mapDelete] at hx
      obtain ⟨s, hs, hid, hd⟩ := h2 x hx.1
      have hne : x.2 ≠ e.2 := by
        intro hh
        rw [hh, hse] at hs
        have : se = s := Option.some.inj hs
        exact hx.2 (by rw [← hid, ← this, hseid])
      exact ⟨s, by rw [hother _ hne]; exact hs, hid, hd⟩
    · intro h s hs hd
      have hne := hlive h s hs hd
      rw [hother h hne] at hs
      have hm := h3 h s hs hd
      rw [hag, mem_mapDelete]
      refine ⟨hm, ?_⟩
      intro hk
      apply hne
      have hm' : (e.1, h) ∈ w.agents := by rw [← hk]; exact hm
      exact eq_of_mem_of_nodup h1 hm' he
    · intro h hh
      rw [hsel] at hh
      by_cases hs0 : w.selectedAgent = some e.2
      · rw [if_pos hs0] at hh; cases hh
      · rw [if_neg hs0] at hh
        obtain ⟨s, hs, hd⟩ := h4 h hh
        have hne : h ≠ e.2 := fun hh2 => hs0 (hh2 ▸ hh)
        exact ⟨s, by rw [hother h hne]; exact hs, hd⟩
    · intro h s hs hd
      have hne := hlive h s hs hd
      rw [hother h hne] at hs
      rw [h5 h s hs hd, hsel]
      by_cases hs0 : w.selectedAgent = some e.2
      · rw [if_pos hs0, hs0]
        constructor
        · intro hh; exact absurd (Option.some.inj hh).symm hne
        · intro hh; cases hh
      · rw [if_neg hs0]

theorem foldl_removeStale_selectionInv (ids : List JsString) (l : List (JsString × Nat))
    (w : World) (hn : (mapKeys l).Nodup) (hl : ∀ e ∈ l, e ∈ w.agents) (hw : selectionInv w) :
    selectionInv (l.foldl (removeStale ids) w) := by
  induction l generalizing w with
  | nil => exact hw
  | cons e l ih =>
    rw [List.foldl_cons]
    simp only [mapKeys, List.map_cons, List.nodup_cons] at hn
    apply ih _ hn.2
    · intro x hx
      rw [removeStale_agents]
      split
      · exact hl x (List.mem_cons_of_mem _ hx)
      · rw [mem_mapDelete]
        refine ⟨hl x (List.mem_cons_of_mem _ hx), ?_⟩
        intro hk
        exact hn.1 (List.mem_map.mpr ⟨x, hx, hk⟩)
    · exact selectionInv_removeStale ids w e (hl e (List.mem_cons_self _ _)) hw

theorem upsertAgent_fields (w : World) (a : AgentData) :
    (upsertAgent w a).selectedAgent = w.selectedAgent ∧
    (upsertAgent w a).activeBubbles = w.activeBubbles := by
  unfold upsertAgent
  cases mapGet w.agents a.agent_id <;> exact ⟨rfl, rfl⟩

theorem selectionInv_upsertAgent (w : World) (a : AgentData) (hw : selectionInv w) :
    selectionInv (upsertAgent w a) := by
  cases hg : mapGet w.agents a.agent_id with
  | some h0 =>
    apply selectionInv_of_sameSelection _ hw
    have hk : a.agent_id ∈ mapKeys w.agents := by
      by_contra hc
      rw [(mapGet_eq_none_iff _ _).mpr hc] at hg
      cases hg
    refine ⟨by rw [upsertAgent_agents, if_pos hk], (upsertAgent_fields w a).1, ?_⟩
    rw [upsertAgent_sprites, hg]
    apply map_modifyAt_of_view
    intro s
    unfold updateAgentPosition
    cases hsl : s.isSelected <;> simp [selectionView, hsl]
  | none =>
    obtain ⟨h1, h2, h3, h4, h5⟩ := hw
    have hk : a.agent_id ∉ mapKeys w.agents := (mapGet_eq_none_iff _ _).mp hg
    have hag : (upsertAgent w a).agents = w.agents ++ [(a.agent_id, w.sprites.length)] := by
      rw [upsertAgent_agents, if_neg hk]
    have hsel : (upsertAgent w a).selectedAgent = w.selectedAgent := (upsertAgent_fields w a).1
    have hsp : ∃ n : AgentSprite, (upsertAgent w a).sprites = w.sprites ++ [n] ∧
        n.agentId = a.agent_id ∧ n.destroyed = false ∧ n.isSelected = false := by
      rw [upsertAgent_sprites, hg]
      exact ⟨_, rfl, rfl, rfl, rfl⟩
    obtain ⟨n, hsp, hnid, hnd, hnsel⟩ := hsp
    have hold : ∀ (h : Nat) (s : AgentSprite), w.sprites[h]? = some s →
        (upsertAgent w a).sprites[h]? = some s := by
      intro h s hs
      rw [hsp, List.getElem?_append_left (List.getElem?_eq_some_iff.mp hs).1]
      exact hs
    have hnew : ∀ (h : Nat) (s : AgentSprite), (upsertAgent w a).sprites[h]? = some s →
        w.sprites[h]? = some s ∨ (h = w.sprites.length ∧ s = n) := by
      intro h s hs
      rw [hsp] at hs
      by_cases hlt : h < w.sprites.length
      · rw [List.getElem?_append_left hlt] at hs
        exact Or.inl hs
      · rw [List.getElem?_append_right (Nat.le_of_not_lt hlt)] at hs
        right
        have hlen : h - w.sprites.length = 0 := by
          by_contra hne
          rw [List.getElem?_eq_none (by simp; omega)] at hs
          cases hs
        rw [hlen] at hs
        simp only [List.getElem?_cons_zero, Option.some.injEq] at hs
        exact ⟨by omega, hs.symm⟩
    refine ⟨?_, ?_, ?_, ?_, ?_⟩
    · rw [hag]
      simp only [mapKeys, List.map_append, List.map_cons, List.map_nil]
      rw [List.nodup_append]
      refine ⟨h1, List.nodup_singleton _, ?_⟩
      intro x hx hy
      rw [List.mem_singleton] at hy
      exact hk (hy ▸ hx)
    · intro x hx
      rw [hag] at hx
      rcases List.mem_append.mp hx with hx | hx
      · obtain ⟨s, hs, hid, hd⟩ := h2 x hx
        exact ⟨s, hold _ s hs, hid, hd⟩
      · rw [List.mem_singleton] at hx
        rw [hx, hsp, List.getElem?_append_right (le_refl _)]
        exact ⟨n, by simp, hnid, hnd⟩
    · intro h s hs hd
      rw [hag]
      rcases hnew h s hs with hs | ⟨hh, hs⟩
      · exact List.mem_append_left _ (h3 h s hs hd)
      · rw [hh, hs, hnid]
        exact List.mem_append_right _ (List.mem_singleton.mpr rfl)
    · intro h hh
      rw [hsel] at hh
      obtain ⟨s, hs, hd⟩ := h4 h hh
      exact ⟨s, hold h s hs, hd⟩
    · intro h s hs hd
      rw [hsel]
      rcases hnew h s hs with hs | ⟨hh, hs⟩
      · exact h5 h s hs hd
      · rw [hs, hnsel]
        constructor
        · intro hf; cases hf
        · intro hsl
          obtain ⟨t, ht, _⟩ := h4 h hsl
          have := (List.getElem?_eq_some_iff.mp ht).1
          omega

theorem selectionInv_updateAgents (w : World) (ws : WorldState) (hw : selectionInv w) :
    selectionInv (updateAgents w ws) := by
  unfold updateAgents
  exact foldl_preserves selectionInv upsertAgent (fun w a hw => selectionInv_upsertAgent w a hw)
    _ _ (foldl_removeStale_selectionInv _ w.agents w hw.1 (fun e he => he) hw)

/-! ## The consistency of mapping and selection along clicks and the escape key -/

theorem handleAgentSelect_cell (w : World) (a j : Nat) :
    (handleAgentSelect w a).sprites[j]? =
      w.sprites[j]?.map fun s =>
        { s with
          isSelected :=
            if j = a then decide (w.selectedAgent ≠ some a)
            else if w.selectedAgent = some j then false else s.isSelected } := by
  rw [handleAgentSelect_getElem?]
  by_cases hja : j = a
  · simp only [hja, ↓reduceIte]
  · by_cases hsel : w.selectedAgent = some j
    · simp only [hja, hsel, ↓reduceIte]
    · simp only [hja, hsel, ↓reduceIte]
      cases w.sprites[j]? <;> rfl

theorem selectionInv_handleAgentSelect (w : World) (a : Nat) (sa : AgentSprite)
    (hsa : w.sprites[a]? = some sa) (hlive : sa.destroyed = false) (hw : selectionInv w) :
    selectionInv (handleAgentSelect w a) := by
  obtain ⟨h1, h2, h3, h4, h5⟩ := hw
  have hag : (handleAgentSelect w a).agents = w.agents := (handleAgentSelect_agents w a).1
  have hsel := handleAgentSelect_selectedAgent w a
  have forth : ∀ (j : Nat) (s : AgentSprite), w.sprites[j]? = some s →
      ∃ s', (handleAgentSelect w a).sprites[j]? = some s' ∧ s'.agentId = s.agentId ∧
        s'.destroyed = s.destroyed := by
    intro j s hs
    rw [handleAgentSelect_cell, hs]
    exact ⟨_, rfl, rfl, rfl⟩
  have back : ∀ (j : Nat) (s' : AgentSprite), (handleAgentSelect w a).sprites[j]? = some s' →
      ∃ s, w.sprites[j]? = some s ∧ s'.agentId = s.agentId ∧ s'.destroyed = s.destroyed ∧
        s'.isSelected = (if j = a then decide (w.selectedAgent ≠ some a)
          else if w.selectedAgent = some j then false else s.isSelected) := by
    intro j s' hs'
    rw [handleAgentSelect_cell] at hs'
    cases hs : w.sprites[j]? with
    | none => rw [hs] at hs'; cases hs'
    | some s =>
      rw [hs] at hs'
      simp only [Option.map_some', Option.some.injEq] at hs'
      exact ⟨s, rfl, by rw [← hs'], by rw [← hs'], by rw [← hs']⟩
  refine ⟨by rw [hag]; exact h1, ?_, ?_, ?_, ?_⟩
  · intro e he
    rw [hag] at he
    obtain ⟨s, hs, hid, hd⟩ := h2 e he
    obtain ⟨s', hs', hid', hd'⟩ := forth _ s hs
    exact ⟨s', hs', hid'.trans hid, hd'.trans hd⟩
  · intro j s' hs' hd
    obtain ⟨s, hs, hid, hd', _⟩ := back j s' hs'
    rw [hag, hid]
    exact h3 j s hs (hd'.symm.trans hd)
  · intro j hj
    rw [hsel] at hj
    by_cases hc : w.selectedAgent = some a
    · rw [if_pos hc] at hj; cases hj
    · rw [if_neg hc] at hj
      have hja : a = j := Option.some.inj hj
      subst hja
      obtain ⟨s', hs', _, hd'⟩ := forth a sa hsa
      exact ⟨s', hs', hd'.trans hlive⟩
  · intro j s' hs' hd
    obtain ⟨s, hs, _, hd', hflag⟩ := back j s' hs'
    have hold := h5 j s hs (hd'.symm.trans hd)
    rw [hflag, hsel]
    by_cases hja : j = a
    · subst hja
      by_cases hc : w.selectedAgent = some j
      · simp [hc]
      · simp [hc]
    · by_cases hc : w.selectedAgent = some j
      · have hca : ¬ w.selectedAgent = some a := by
          rw [hc]
          exact fun e => hja (Option.some.inj e)
        rw [if_neg hca, if_neg hja, if_pos hc]
        simp only [Bool.false_eq_true, false_iff]
        exact fun e => hja (Option.some.inj e).symm
      · simp only [hja, hc, ↓reduceIte]
        rw [hold]
        constructor
        · exact fun e => absurd e hc
        · intro e
          split at e
          · cases e
          · exact absurd (Option.some.inj e).symm hja

theorem onEscape_world (n : NetworkingWorld) :
    (onEscape n).scene.world =
      match n.scene.world.selectedAgent with
      | some selected => handleAgentSelect n.scene.world selected
      | none => n.scene.world := by
  unfold onEscape
  cases hsel : n.scene.world.selectedAgent with
  | none =>
    simp only
    unfold onSceneLeave
    simp only
    rw [← hsel]
  | some selected =>
    simp only
    unfold handleAgentSelect
    simp only [hsel, ne_eq, not_true_eq_false, ↓reduceIte]

theorem onEscape_scene (n : NetworkingWorld) :
    (onEscape n).scene.conversationLog = n.scene.conversationLog ∧
    (onEscape n).scene.waits = n.scene.waits ∧ (onEscape n).scene.tweens = n.scene.tweens := by
  unfold onEscape
  split <;> exact ⟨rfl, rfl, rfl⟩

theorem selectionInv_onEscape (n : NetworkingWorld) (hw : selectionInv n.scene.world) :
    selectionInv (onEscape n).scene.world := by
  rw [onEscape_world]
  cases hsel : n.scene.world.selectedAgent with
  | none => exact hw
  | some selected =>
    obtain ⟨s, hs, hd⟩ := hw.2.2.2.1 selected hsel
    exact selectionInv_handleAgentSelect _ selected s hs hd hw

/-! ## What conversation turns and bubble timers leave of the world -/

theorem showSpeechBubble_world (s : Scene) (agent : Nat) :
    (showSpeechBubble s agent).world.sprites = s.world.sprites ∧
    (showSpeechBubble s agent).world.agents = s.world.agents ∧
    (showSpeechBubble s agent).world.selectedAgent = s.world.selectedAgent := by
  unfold showSpeechBubble
  split <;> exact ⟨rfl, rfl, rfl⟩

/-- A conversation turn leaves the scene as it was, or shows a bubble for a tracked sprite
and adds an entry to the log. -/
theorem handleConversationTurn_cases (s : Scene) (turn : Turn) (now : Nat) :
    handleConversationTurn s turn now = s ∨
    ∃ speaker ∈ mapValues s.world.agents,
      handleConversationTurn s turn now =
        addToLog (showSpeechBubble s speaker) turn.speaker_name turn.content turn.role now := by
  cases hfind : (mapValues s.world.agents).find? (matchesTurn s.world turn) with
  | none => exact Or.inl (handleConversationTurn_of_none s turn now hfind)
  | some speaker =>
    exact Or.inr ⟨speaker, List.mem_of_find?_eq_some hfind,
      handleConversationTurn_of_first s turn now speaker hfind⟩

theorem handleConversationTurn_world (s : Scene) (turn : Turn) (now : Nat) :
    (handleConversationTurn s turn now).world.sprites = s.world.sprites ∧
    (handleConversationTurn s turn now).world.agents = s.world.agents ∧
    (handleConversationTurn s turn now).world.selectedAgent = s.world.selectedAgent := by
  rcases handleConversationTurn_cases s turn now with h | ⟨speaker, _, h⟩
  · rw [h]; exact ⟨rfl, rfl, rfl⟩
  · rw [h]
    exact showSpeechBubble_world s speaker

theorem bubbleWaitOver_world (s : Scene) (agent bubble : Nat) :
    (bubbleWaitOver s agent bubble).world = s.world := by
  unfold bubbleWaitOver
  split
  · split <;> rfl
  · rfl

theorem fadeOutEnd_world (s : Scene) (agent bubble : Nat) :
    (fadeOutEnd s agent bubble).world.sprites = s.world.sprites ∧
    (fadeOutEnd s agent bubble).world.agents = s.world.agents ∧
    (fadeOutEnd s agent bubble).world.selectedAgent = s.world.selectedAgent := by
  unfold fadeOutEnd
  split <;> exact ⟨rfl, rfl, rfl⟩

theorem fadeOutEnd_activeBubbles (s : Scene) (agent bubble : Nat) :
    (fadeOutEnd s agent bubble).world.activeBubbles = s.world.activeBubbles ∨
    ∃ k, (fadeOutEnd s agent bubble).world.activeBubbles = mapDelete s.world.activeBubbles k := by
  unfold fadeOutEnd
  split
  · rename_i a _
    by_cases h : mapGet s.world.activeBubbles a.agentId = some bubble
    · exact Or.inr ⟨a.agentId, by simp only [h, ↓reduceIte]⟩
    · exact Or.inl (by simp only [h, ↓reduceIte])
  · exact Or.inl rfl

theorem sameSelection_of_eq {w w' : World} (h1 : w'.sprites = w.sprites)
    (h2 : w'.agents = w.agents) (h3 : w'.selectedAgent = w.selectedAgent) :
    sameSelection w w' :=
  ⟨h2, h3, by rw [h1]⟩

/-! ## Targets in the play area -/

theorem adjusted_inPlayArea (x y : ℚ) :
    80 ≤ adjustedX x ∧ adjustedX x ≤ 820 ∧ 120 ≤ adjustedY y ∧ adjustedY y ≤ 680 := by
  have h1 : WORLD_CONFIG.width - 380 = 820 := by norm_num [WORLD_CONFIG]
  have h2 : WORLD_CONFIG.height - 120 = 680 := by norm_num [WORLD_CONFIG]
  unfold adjustedX adjustedY
  rw [h1, h2]
  refine ⟨le_max_left _ _, max_le (by norm_num) (min_le_right _ _), le_max_left _ _,
    max_le (by norm_num) (min_le_right _ _)⟩

theorem clamped_inPlayArea (mx my : ℚ) :
    80 ≤ max 80 (min 820 mx) ∧ max 80 (min 820 mx) ≤ 820 ∧
    120 ≤ max 120 (min 680 my) ∧ max 120 (min 680 my) ≤ 680 :=
  ⟨le_max_left _ _, max_le (by norm_num) (min_le_left _ _), le_max_left _ _,
    max_le (by norm_num) (min_le_left _ _)⟩

theorem targetsInv_of_map_eq {w w' : World}
    (hmap : w'.sprites.map (fun s => (s.targetX, s.targetY))
      = w.sprites.map (fun s => (s.targetX, s.targetY)))
    (hw : targetsInv w) : targetsInv w' := by
  intro s' hs'
  obtain ⟨j, hj⟩ := List.mem_iff_getElem?.mp hs'
  obtain ⟨s, hs, hv⟩ := getElem?_of_map_eq _ w.sprites w'.sprites hmap j s' hj
  have hin := hw s (List.mem_iff_getElem?.mpr ⟨j, hs⟩)
  simp only [Prod.mk.injEq] at hv
  unfold inPlayArea at hin ⊢
  rw [← hv.1, ← hv.2]
  exact hin

theorem targetsInv_removeStale (ids : List JsString) (w : World) (e : JsString × Nat)
    (hw : targetsInv w) : targetsInv (removeStale ids w e) := by
  unfold targetsInv
  rw [removeStale_sprites]
  split
  · exact hw
  · exact forall_mem_modifyAt _ _ _ _ hw (fun s hs => hs)

theorem targetsInv_upsertAgent (w : World) (a : AgentData) (hw : targetsInv w) :
    targetsInv (upsertAgent w a) := by
  unfold targetsInv
  rw [upsertAgent_sprites]
  cases mapGet w.agents a.agent_id with
  | none =>
    simp only [createAgentSprite]
    intro s hs
    rcases List.mem_append.mp hs with h | h
    · exact hw s h
    · rw [List.mem_singleton] at h
      rw [h]
      exact adjusted_inPlayArea a.x a.y
  | some j =>
    apply forall_mem_modifyAt _ _ _ _ hw
    intro s hs
    unfold updateAgentPosition
    cases hsl : s.isSelected
    · exact adjusted_inPlayArea a.x a.y
    · exact hs

theorem targetsInv_updateAgents (w : World) (ws : WorldState) (hw : targetsInv w) :
    targetsInv (updateAgents w ws) := by
  unfold updateAgents
  exact foldl_preserves targetsInv upsertAgent (fun w a hw => targetsInv_upsertAgent w a hw) _ _
    (foldl_preserves targetsInv _ (fun w e hw => targetsInv_removeStale _ w e hw) _ _ hw)

theorem targetsInv_onUpdate (sqrt : ℚ → ℚ) (w : World) (hw : targetsInv w) :
    targetsInv (onUpdate sqrt w) :=
  targetsInv_of_map_eq
    (onUpdate_map_view (fun s => (s.targetX, s.targetY)) (fun _ _ _ => rfl) (fun _ _ => rfl)
      sqrt w) hw

theorem handleAgentSelect_map_view {β : Type} (π : AgentSprite → β)
    (hsel : ∀ (s : AgentSprite) (b : Bool), π { s with isSelected := b } = π s)
    (w : World) (a : Nat) :
    (handleAgentSelect w a).sprites.map π = w.sprites.map π := by
  apply List.ext_getElem?
  intro j
  rw [List.getElem?_map, List.getElem?_map, handleAgentSelect_cell]
  cases w.sprites[j]? with
  | none => rfl
  | some s => simp only [Option.map_some', hsel]

theorem targetsInv_handleAgentSelect (w : World) (a : Nat) (hw : targetsInv w) :
    targetsInv (handleAgentSelect w a) :=
  targetsInv_of_map_eq
    (handleAgentSelect_map_view (fun s => (s.targetX, s.targetY)) (fun _ _ => rfl) w a) hw

theorem targetsInv_onClick (w : World) (mx my : ℚ) (hw : targetsInv w) :
    targetsInv (onClick w mx my) := by
  intro s' hs'
  obtain ⟨j, hj⟩ := List.mem_iff_getElem?.mp hs'
  rw [onClick_getElem?] at hj
  split at hj
  · cases hs : w.sprites[j]? with
    | none => rw [hs] at hj; cases hj
    | some s =>
      rw [hs] at hj
      simp only [Option.map_some', Option.some.injEq] at hj
      rw [← hj]
      exact clamped_inPlayArea mx my
  · exact hw s' (List.mem_iff_getElem?.mpr ⟨j, hj⟩)

theorem targetsInv_onEscape (n : NetworkingWorld) (hw : targetsInv n.scene.world) :
    targetsInv (onEscape n).scene.world := by
  rw [onEscape_world]
  split
  · exact targetsInv_handleAgentSelect _ _ hw
  · exact hw

/-! ## No bubble without its sprite -/

theorem mapKeys_mapSet (m : List (JsString × Nat)) (key : JsString) (v : Nat) (k : JsString) :
    k ∈ mapKeys (mapSet m key v) → k ∈ mapKeys m ∨ k = key := by
  unfold mapSet
  split
  · intro hk
    simp only [mapKeys, List.map_map, List.mem_map, Function.comp_apply] at hk
    obtain ⟨e, he, hke⟩ := hk
    by_cases hek : e.1 = key
    · simp only [hek, beq_self_eq_true, ↓reduceIte] at hke
      exact Or.inr hke.symm
    · have hb : (e.1 == key) = false := by simpa using hek
      simp only [hb, Bool.false_eq_true, ↓reduceIte] at hke
      exact Or.inl (List.mem_map.mpr ⟨e, he, hke⟩)
  · intro hk
    simp only [mapKeys, List.map_append, List.map_cons, List.map_nil, List.mem_append,
      List.mem_singleton] at hk
    rcases hk with h | h
    · exact Or.inl (List.mem_map.mpr (List.mem_map.mp h))
    · exact Or.inr h

theorem bubblesInv_removeStale (ids : List JsString) (w : World) (e : JsString × Nat)
    (hw : bubblesInv w) : bubblesInv (removeStale ids w e) := by
  unfold bubblesInv
  rw [removeStale_activeBubbles, removeStale_agents]
  split
  · exact hw
  · intro k hk
    rw [mapKeys_mapDelete] at hk ⊢
    exact ⟨hw k hk.1, hk.2⟩

theorem bubblesInv_upsertAgent (w : World) (a : AgentData) (hw : bubblesInv w) :
    bubblesInv (upsertAgent w a) := by
  unfold bubblesInv
  rw [(upsertAgent_fields w a).2, upsertAgent_keys]
  intro k hk
  split
  · exact hw k hk
  · exact List.mem_append_left _ (hw k hk)

theorem bubblesInv_updateAgents (w : World) (ws : WorldState) (hw : bubblesInv w) :
    bubblesInv (updateAgents w ws) := by
  unfold updateAgents
  exact foldl_preserves bubblesInv upsertAgent (fun w a hw => bubblesInv_upsertAgent w a hw) _ _
    (foldl_preserves bubblesInv _ (fun w e hw => bubblesInv_removeStale _ w e hw) _ _ hw)

theorem bubblesInv_of_eq {w w' : World} (h1 : w'.agents = w.agents)
    (h2 : w'.activeBubbles = w.activeBubbles) (hw : bubblesInv w) : bubblesInv w' := by
  unfold bubblesInv
  rw [h1, h2]
  exact hw

theorem bubblesInv_showSpeechBubble (s : Scene) (speaker : Nat)
    (hsp : speaker ∈ mapValues s.world.agents) (hsel : selectionInv s.world)
    (hw : bubblesInv s.world) : bubblesInv (showSpeechBubble s speaker).world := by
  simp only [mapValues, List.mem_map] at hsp
  obtain ⟨e, he, hes⟩ := hsp
  obtain ⟨a, ha, hid, _⟩ := hsel.2.1 e he
  rw [hes] at ha
  unfold bubblesInv
  rw [(showSpeechBubble_world s speaker).2.1, (showSpeechBubble_of_sprite s speaker a ha).1]
  intro k hk
  rcases mapKeys_mapSet _ _ _ _ hk with h | h
  · exact hw k h
  · rw [h, hid]
    exact List.mem_map.mpr ⟨e, he, rfl⟩

theorem bubblesInv_handleConversationTurn (s : Scene) (turn : Turn) (now : Nat)
    (hsel : selectionInv s.world) (hw : bubblesInv s.world) :
    bubblesInv (handleConversationTurn s turn now).world := by
  rcases handleConversationTurn_cases s turn now with h | ⟨speaker, hsp, h⟩
  · rw [h]; exact hw
  · rw [h]
    exact bubblesInv_showSpeechBubble s speaker hsp hsel hw

theorem bubblesInv_fadeOutEnd (s : Scene) (agent bubble : Nat) (hw : bubblesInv s.world) :
    bubblesInv (fadeOutEnd s agent bubble).world := by
  unfold bubblesInv
  rw [(fadeOutEnd_world s agent bubble).2.1]
  rcases fadeOutEnd_activeBubbles s agent bubble with h | ⟨k, h⟩
  · rw [h]; exact hw
  · rw [h]
    intro x hx
    rw [mapKeys_mapDelete] at hx
    exact hw x hx.1

/-! ## Runs of the scene -/

theorem sceneInv_sceneStep (sqrt : ℚ → ℚ) (n : NetworkingWorld) (e : SceneEvent)
    (hn : sceneInv n) : sceneInv (sceneStep sqrt n e) := by
  obtain ⟨hsel, htar, hbub⟩ := hn
  cases e with
  | worldState data =>
    exact ⟨selectionInv_updateAgents _ data hsel, targetsInv_updateAgents _ data htar,
      bubblesInv_updateAgents _ data hbub⟩
  | conversationTurn turn now =>
    obtain ⟨h1, h2, h3⟩ := handleConversationTurn_world n.scene turn now
    refine ⟨selectionInv_of_sameSelection (sameSelection_of_eq h1 h2 h3) hsel, ?_,
      bubblesInv_handleConversationTurn n.scene turn now hsel hbub⟩
    show targetsInv (handleConversationTurn n.scene turn now).world
    unfold targetsInv
    rw [h1]
    exact htar
  | frame =>
    exact ⟨selectionInv_of_sameSelection (onUpdate_sameSelection sqrt _) hsel,
      targetsInv_onUpdate sqrt _ htar,
      bubblesInv_of_eq (onUpdate_fields sqrt _).1 (onUpdate_fields sqrt _).2.2 hbub⟩
  | agentClick agent =>
    rw [sceneStep_agentClick]
    cases hs : n.scene.world.sprites[agent]? with
    | none => exact ⟨hsel, htar, hbub⟩
    | some a =>
      simp only
      by_cases hd : a.destroyed = true
      · rw [if_pos hd]
        exact ⟨hsel, htar, hbub⟩
      · rw [if_neg hd]
        have hlive : a.destroyed = false := by simpa using hd
        exact ⟨selectionInv_handleAgentSelect _ agent a hs hlive hsel,
          targetsInv_handleAgentSelect _ agent htar,
          bubblesInv_of_eq (handleAgentSelect_agents _ agent).1
            (handleAgentSelect_agents _ agent).2.1 hbub⟩
  | click mx my =>
    exact ⟨selectionInv_of_sameSelection (onClick_sameSelection _ mx my) hsel,
      targetsInv_onClick _ mx my htar,
      bubblesInv_of_eq (onClick_agents _ mx my).1 (onClick_agents _ mx my).2.2.1 hbub⟩
  | escape =>
    rw [sceneStep_escape]
    refine ⟨selectionInv_onEscape n hsel, targetsInv_onEscape n htar, ?_⟩
    show bubblesInv (onEscape n).scene.world
    rw [onEscape_world]
    split
    · exact bubblesInv_of_eq (handleAgentSelect_agents _ _).1
        (handleAgentSelect_agents _ _).2.1 hbub
    · exact hbub
  | waitOver i =>
    rw [sceneStep_waitOver]
    cases n.scene.waits[i]? with
    | none => exact ⟨hsel, htar, hbub⟩
    | some t =>
      simp only
      unfold sceneInv
      simp only
      rw [bubbleWaitOver_world]
      exact ⟨hsel, htar, hbub⟩
  | tweenEnd i =>
    rw [sceneStep_tweenEnd]
    cases n.scene.tweens[i]? with
    | none => exact ⟨hsel, htar, hbub⟩
    | some t =>
      simp only
      obtain ⟨h1, h2, h3⟩ := fadeOutEnd_world
        { n.scene with tweens := n.scene.tweens.eraseIdx i } t.agent t.bubble
      refine ⟨selectionInv_of_sameSelection (sameSelection_of_eq h1 h2 h3) hsel, ?_,
        bubblesInv_fadeOutEnd { n.scene with tweens := n.scene.tweens.eraseIdx i }
          t.agent t.bubble hbub⟩
      show targetsInv (fadeOutEnd _ t.agent t.bubble).world
      unfold targetsInv
      rw [h1]
      exact htar

theorem sceneInv_start : sceneInv NetworkingWorld.start := by
  refine ⟨⟨List.nodup_nil, ?_, ?_, ?_, ?_⟩, ?_, ?_⟩
  · intro e he; cases he
  · intro h s hs; simp [NetworkingWorld.start, Scene.init, World.init] at hs
  · intro h hh; cases hh
  · intro h s hs; simp [NetworkingWorld.start, Scene.init, World.init] at hs
  · intro s hs; cases hs
  · intro k hk; cases hk

/-- Every state of a run of the scene has the three properties. -/
theorem sceneInv_sceneRun (sqrt : ℚ → ℚ) (events : List SceneEvent) :
    sceneInv (sceneRun sqrt events) := by
  unfold sceneRun
  have key : ∀ (l : List SceneEvent) (n : NetworkingWorld), sceneInv n →
      sceneInv (l.foldl (sceneStep sqrt) n) := by
    intro l
    induction l with
    | nil => exact fun n hn => hn
    | cons e l ih => exact fun n hn => ih _ (sceneInv_sceneStep sqrt n e hn)
  exact key events _ sceneInv_start

theorem mem_mapValues_iff (m : List (JsString × Nat)) (h : Nat) :
    h ∈ mapValues m ↔ ∃ id, (id, h) ∈ m := by
  simp only [mapValues, List.mem_map]
  constructor
  · rintro ⟨e, he, rfl⟩; exact ⟨e.1, he⟩
  · rintro ⟨id, hm⟩; exact ⟨(id, h), hm, rfl⟩

/-- C24: in every state of a run of the scene (clicks on sprites that exist, the escape key
and snapshot updates, and also conversation turns, frames, clicks on the canvas and bubble
timers), the selection handle is null or the handle of a tracked sprite; every tracked
handle points to a sprite, whose selected flag is set exactly when the selection handle is
that handle; so two tracked sprites that have the flag set are the same sprite. -/
theorem selection_handle_consistent (sqrt : ℚ → ℚ) (events : List SceneEvent) :
    let w := (sceneRun sqrt events).scene.world
    (w.selectedAgent = none ∨ ∃ h, w.selectedAgent = some h ∧ h ∈ mapValues w.agents) ∧
    (∀ h ∈ mapValues w.agents, ∃ s, w.sprites[h]? = some s ∧
      (s.isSelected = true ↔ w.selectedAgent = some h)) ∧
    (∀ h1 ∈ mapValues w.agents, ∀ h2 ∈ mapValues w.agents, ∀ s1 s2 : AgentSprite,
      w.sprites[h1]? = some s1 → w.sprites[h2]? = some s2 →
      s1.isSelected = true → s2.isSelected = true → h1 = h2) := by
  intro w
  obtain ⟨⟨_, h2, h3, h4, h5⟩, _, _⟩ := sceneInv_sceneRun sqrt events
  have tracked : ∀ h ∈ mapValues w.agents, ∃ s, w.sprites[h]? = some s ∧
      (s.isSelected = true ↔ w.selectedAgent = some h) := by
    intro h hh
    obtain ⟨id, hm⟩ := (mem_mapValues_iff _ _).mp hh
    obtain ⟨s, hs, _, hd⟩ := h2 (id, h) hm
    exact ⟨s, hs, h5 h s hs hd⟩
  refine ⟨?_, tracked, ?_⟩
  · cases hsel : w.selectedAgent with
    | none => exact Or.inl rfl
    | some h =>
      right
      obtain ⟨s, hs, hd⟩ := h4 h hsel
      exact ⟨h, rfl, (mem_mapValues_iff _ _).mpr ⟨s.agentId, h3 h s hs hd⟩⟩
  · intro j1 hj1 j2 hj2 s1 s2 hs1 hs2 hf1 hf2
    obtain ⟨t1, ht1, hi1⟩ := tracked j1 hj1
    obtain ⟨t2, ht2, hi2⟩ := tracked j2 hj2
    rw [hs1] at ht1
    rw [hs2] at ht2
    have e1 : s1 = t1 := Option.some.inj ht1
    have e2 : s2 = t2 := Option.some.inj ht2
    have k1 := hi1.mp (e1 ▸ hf1)
    have k2 := hi2.mp (e2 ▸ hf2)
    rw [k1] at k2
    exact Option.some.inj k2

/-- C24 at the run of the snapshot of `A` and `B` and a click on `A`: the selection
handle is the tracked handle 0, the sprite of `A` has its flag set and the sprite of `B`
does not. -/
theorem selection_handle_consistent_witness :
    (sceneRun sqrtQ eventsSelectA).scene.world.selectedAgent = some 0 ∧
    (sceneRun sqrtQ eventsSelectA).scene.world.agents = [(js "A", 0), (js "B", 1)] ∧
    (∃ s, (sceneRun sqrtQ eventsSelectA).scene.world.sprites[0]? = some s ∧
      (s.isSelected = true ↔ (sceneRun sqrtQ eventsSelectA).scene.world.selectedAgent = some 0)) ∧
    (∃ s, (sceneRun sqrtQ eventsSelectA).scene.world.sprites[1]? = some s ∧
      (s.isSelected = true ↔ (sceneRun sqrtQ eventsSelectA).scene.world.selectedAgent = some 1)) := by
  obtain ⟨_, h, _⟩ := selection_handle_consistent sqrtQ eventsSelectA
  exact ⟨by decide!, by decide!, h 0 (by decide!), h 1 (by decide!)⟩

/-- C26: in every state of a run of the scene (snapshot updates, clicks on the canvas and
frames, and also clicks on sprites, the escape key, conversation turns and bubble timers),
every tracked handle points to a sprite whose target lies in the play area. -/
theorem tracked_target_in_play_area (sqrt : ℚ → ℚ) (events : List SceneEvent) :
    let w := (sceneRun sqrt events).scene.world
    ∀ e ∈ w.agents, ∃ s, w.sprites[e.2]? = some s ∧
      80 ≤ s.targetX ∧ s.targetX ≤ 820 ∧ 120 ≤ s.targetY ∧ s.targetY ≤ 680 := by
  intro w e he
  obtain ⟨⟨_, h2, _, _, _⟩, htar, _⟩ := sceneInv_sceneRun sqrt events
  obtain ⟨s, hs, _, _⟩ := h2 e he
  exact ⟨s, hs, htar s (List.mem_iff_getElem?.mpr ⟨e.2, hs⟩)⟩

/-- C26 at a run in which `A` is reported at `(50, 50)`, selected, and sent by a click at
`(1000, 50)`; after a frame its target is `(820, 120)`, and the target of `B`, reported at
`(20, 20)`, is `(80, 120)`. -/
theorem tracked_target_in_play_area_witness :
    (sceneRun sqrtQ eventsClickOutside).scene.world.agents = [(js "A", 0), (js "B", 1)] ∧
    ((sceneRun sqrtQ eventsClickOutside).scene.world.sprites[0]?.map
      fun s => (s.targetX, s.targetY)) = some (820, 120) ∧
    ((sceneRun sqrtQ eventsClickOutside).scene.world.sprites[1]?.map
      fun s => (s.targetX, s.targetY)) = some (80, 120) ∧
    ∃ s, (sceneRun sqrtQ eventsClickOutside).scene.world.sprites[0]? = some s ∧
      80 ≤ s.targetX ∧ s.targetX ≤ 820 ∧ 120 ≤ s.targetY ∧ s.targetY ≤ 680 :=
  ⟨by decide!, by decide!, by decide!,
    tracked_target_in_play_area sqrtQ eventsClickOutside (js "A", 0) (by decide!)⟩

/-- C29: in every state of a run of the scene (snapshot updates, conversation turns, bubble
timers and frames, and also clicks and the escape key), every identifier for which the
bubble mapping has a bubble is a key of the sprite mapping, registered for a sprite that has
this identifier and was not destroyed. -/
theorem bubble_has_tracked_sprite (sqrt : ℚ → ℚ) (events : List SceneEvent) :
    let w := (sceneRun sqrt events).scene.world
    ∀ id : JsString, mapHas w.activeBubbles id = true →
      mapHas w.agents id = true ∧
      ∃ h s, mapGet w.agents id = some h ∧ w.sprites[h]? = some s ∧ s.agentId = id ∧
        s.destroyed = false := by
  intro w id hid
  obtain ⟨⟨h1, h2, _, _, _⟩, _, hbub⟩ := sceneInv_sceneRun sqrt events
  have hk : id ∈ mapKeys w.agents := hbub id ((mapHas_iff _ _).mp hid)
  refine ⟨(mapHas_iff _ _).mpr hk, ?_⟩
  obtain ⟨e, he, hek⟩ := List.mem_map.mp hk
  obtain ⟨s, hs, hsid, hd⟩ := h2 e he
  refine ⟨e.2, s, ?_, hs, hsid.trans hek, hd⟩
  apply mapGet_of_mem_nodup h1
  rw [← hek]
  exact he

/-- C29 at a run with a turn of `Ann`: the bubble mapping has a bubble for `A1`, which is
tracked; after a snapshot that no longer lists `A1` the bubble mapping is empty. -/
theorem bubble_has_tracked_sprite_witness :
    mapHas (sceneRun sqrtQ eventsTurn).scene.world.activeBubbles (js "A1") = true ∧
    (mapHas (sceneRun sqrtQ eventsTurn).scene.world.agents (js "A1") = true ∧
      ∃ h s, mapGet (sceneRun sqrtQ eventsTurn).scene.world.agents (js "A1") = some h ∧
        (sceneRun sqrtQ eventsTurn).scene.world.sprites[h]? = some s ∧ s.agentId = js "A1" ∧
        s.destroyed = false) ∧
    (sceneRun sqrtQ eventsTurnThenGone).scene.world.activeBubbles = [] ∧
    (sceneRun sqrtQ eventsTurnThenGone).scene.world.agents = [(js "B", 2)] :=
  ⟨by decide!, bubble_has_tracked_sprite sqrtQ eventsTurn (js "A1") (by decide!),
    by decide!, by decide!⟩

/-! ## Leaving the scene -/

theorem sceneStep_worldWs (sqrt : ℚ → ℚ) (n : NetworkingWorld) (e : SceneEvent) :
    (sceneStep sqrt n e).worldWs = n.worldWs ∨
    (sceneStep sqrt n e).worldWs = n.worldWs.map WorldWebSocket.disconnect := by
  cases e with
  | worldState data => exact Or.inl rfl
  | conversationTurn turn now => exact Or.inl rfl
  | frame => exact Or.inl rfl
  | agentClick agent =>
    left
    rw [sceneStep_agentClick]
    split
    · split <;> rfl
    · rfl
  | click mx my => exact Or.inl rfl
  | escape =>
    show (onEscape n).worldWs = _ ∨ (onEscape n).worldWs = _
    unfold onEscape
    split
    · exact Or.inl rfl
    · exact Or.inr rfl
  | waitOver i =>
    left
    rw [sceneStep_waitOver]
    split <;> rfl
  | tweenEnd i =>
    left
    rw [sceneStep_tweenEnd]
    split <;> rfl

/-- In every state of a run of the scene there is a connection. -/
theorem worldWs_isSome_sceneRun (sqrt : ℚ → ℚ) (events : List SceneEvent) :
    (sceneRun sqrt events).worldWs.isSome = true := by
  unfold sceneRun
  have key : ∀ (l : List SceneEvent) (n : NetworkingWorld), n.worldWs.isSome = true →
      (l.foldl (sceneStep sqrt) n).worldWs.isSome = true := by
    intro l
    induction l with
    | nil => exact fun n hn => hn
    | cons e l ih =>
      intro n hn
      rw [List.foldl_cons]
      apply ih
      rcases sceneStep_worldWs sqrt n e with h | h
      · rw [h]; exact hn
      · rw [h]
        cases hw : n.worldWs with
        | none => rw [hw] at hn; cases hn
        | some c => rfl
  exact key events _ rfl

/-- C25: the handler of `k.onSceneLeave`, in any state, clears the selection handle and asks
the connection, when there is one, to disconnect; the sprite mapping, the bubble mapping,
the active-conversation set, the two heaps (so every field of every sprite, its selected
flag among them), the log and the pending timers are as before: a sprite that was the
selected one keeps its selected flag, while the selection handle no longer names it. In a
state of a run of the scene there is a connection, and its field `ws` is `null`
afterwards. -/
theorem onSceneLeave_effect (n : NetworkingWorld) (sqrt : ℚ → ℚ) (events : List SceneEvent) :
    (onSceneLeave n).scene.world.selectedAgent = none ∧
    (onSceneLeave n).worldWs = n.worldWs.map WorldWebSocket.disconnect ∧
    (onSceneLeave n).scene.world.agents = n.scene.world.agents ∧
    (onSceneLeave n).scene.world.activeBubbles = n.scene.world.activeBubbles ∧
    (onSceneLeave n).scene.world.activeConversations = n.scene.world.activeConversations ∧
    (onSceneLeave n).scene.world.sprites = n.scene.world.sprites ∧
    (onSceneLeave n).scene.world.bubbles = n.scene.world.bubbles ∧
    (onSceneLeave n).scene.conversationLog = n.scene.conversationLog ∧
    (onSceneLeave n).scene.waits = n.scene.waits ∧
    (onSceneLeave n).scene.tweens = n.scene.tweens ∧
    (∀ (h : Nat) (s : AgentSprite), n.scene.world.selectedAgent = some h →
      n.scene.world.sprites[h]? = some s → s.isSelected = true →
      ∃ s', (onSceneLeave n).scene.world.sprites[h]? = some s' ∧ s'.isSelected = true ∧
        (onSceneLeave n).scene.world.selectedAgent ≠ some h) ∧
    ∃ c, (sceneRun sqrt events).worldWs = some c ∧
      (onSceneLeave (sceneRun sqrt events)).worldWs = some c.disconnect ∧
      c.disconnect.ws = none := by
  refine ⟨rfl, rfl, rfl, rfl, rfl, rfl, rfl, rfl, rfl, rfl, ?_, ?_⟩
  · intro h s _ hs hflag
    exact ⟨s, hs, hflag, fun e => by cases e⟩
  · have hsome := worldWs_isSome_sceneRun sqrt events
    cases hw : (sceneRun sqrt events).worldWs with
    | none =>
      rw [hw] at hsome
      cases hsome
    | some c =>
      refine ⟨c, rfl, ?_, ?_⟩
      · show Option.map WorldWebSocket.disconnect (sceneRun sqrt events).worldWs = _
        rw [hw]; rfl
      · unfold WorldWebSocket.disconnect
        split
        · rfl
        · assumption

/-- C25 at the run of the snapshot of `A` and `B` and a click on `A`: the sprite of `A`
is the selected one and has its flag set; when the scene is left, the handle is cleared and
the sprite, still tracked, still has its flag set. -/
theorem onSceneLeave_effect_witness :
    (sceneRun sqrtQ eventsSelectA).scene.world.selectedAgent = some 0 ∧
    (sceneRun sqrtQ eventsSelectA).scene.world.sprites[0]?
      = some { spriteA with isSelected := true } ∧
    (js "A", 0) ∈ (onSceneLeave (sceneRun sqrtQ eventsSelectA)).scene.world.agents ∧
    ∃ s', (onSceneLeave (sceneRun sqrtQ eventsSelectA)).scene.world.sprites[0]? = some s' ∧
      s'.isSelected = true ∧
      (onSceneLeave (sceneRun sqrtQ eventsSelectA)).scene.world.selectedAgent ≠ some 0 := by
  obtain ⟨_, _, hag, _, _, _, _, _, _, _, hkeep, _⟩ :=
    onSceneLeave_effect (sceneRun sqrtQ eventsSelectA) sqrtQ eventsSelectA
  refine ⟨by decide!, by decide!, ?_, hkeep 0 { spriteA with isSelected := true }
    (by decide!) (by decide!) rfl⟩
  rw [hag]
  decide!

/-! ## The key of a pair, for identifiers without `'-'` -/

theorem hasDash_eq_false_iff (id : JsString) : hasDash id = false ↔ 45 ∉ id := by
  rw [← Bool.not_eq_true, hasDash, includes_iff, js_dash]
  constructor
  · intro h hm
    obtain ⟨s, t, rfl⟩ := List.append_of_mem hm
    exact h ⟨s, t, by simp⟩
  · rintro h ⟨s, t, rfl⟩
    exact h (by simp)

/-- C27: for identifiers that do not contain `'-'`, two pairs that have the same key are the
same unordered pair. -/
theorem pairKey_injective_without_dash (a b c d : JsString)
    (ha : hasDash a = false) (hb : hasDash b = false) (hc : hasDash c = false)
    (hd : hasDash d = false) (h : pairKey a b = pairKey c d) :
    (a = c ∧ b = d) ∨ (a = d ∧ b = c) :=
  pairKey_inj a b c d ((hasDash_eq_false_iff a).mp ha) ((hasDash_eq_false_iff b).mp hb)
    ((hasDash_eq_false_iff c).mp hc) ((hasDash_eq_false_iff d).mp hd) h

/-- C27 at the pairs `(B, A)` and `(A, B)`, which have the same key, `A-B`. -/
theorem pairKey_injective_without_dash_witness :
    pairKey (js "B") (js "A") = js "A-B" ∧ pairKey (js "A") (js "B") = js "A-B" ∧
    ((js "B" = js "A" ∧ js "A" = js "B") ∨ (js "B" = js "B" ∧ js "A" = js "A")) :=
  ⟨by decide, by decide,
    pairKey_injective_without_dash (js "B") (js "A") (js "A") (js "B") (by decide) (by decide)
      (by decide) (by decide) (by decide)⟩

/-! ## The conversation log -/

theorem addToLog_conversationLog (s : Scene) (n c r : JsString) (now : Nat) :
    (addToLog s n c r now).conversationLog =
      ({ speakerName := n, content := c, role := r, time := now } :: s.conversationLog).take 8 ∨
    8 < s.conversationLog.length := by
  by_cases hl : 8 < s.conversationLog.length
  · exact Or.inr hl
  · left
    unfold addToLog maxLogEntries
    dsimp only
    by_cases h8 : s.conversationLog.length = 8
    · have : ({ speakerName := n, content := c, role := r, time := now } ::
          s.conversationLog : List LogEntry).length > 8 := by simp [h8]
      rw [if_pos this, List.dropLast_eq_take]
      simp [h8]
    · have : ¬ ({ speakerName := n, content := c, role := r, time := now } ::
          s.conversationLog : List LogEntry).length > 8 := by simp; omega
      rw [if_neg this, List.take_of_length_le]
      simp; omega

theorem logCalls_eq (calls : List LogEntry) :
    (logCalls calls).conversationLog = calls.reverse.take 8 := by
  induction calls using List.reverseRecOn with
  | nil => rfl
  | append_singleton l c ih =>
    unfold logCalls at ih ⊢
    rw [List.foldl_append, List.foldl_cons, List.foldl_nil, List.reverse_append]
    unfold logCall
    rcases addToLog_conversationLog (List.foldl logCall Scene.init l) c.speakerName c.content
      c.role c.time with h | h
    · have hfold : List.foldl (fun s c => addToLog s c.speakerName c.content c.role c.time)
          Scene.init l = List.foldl logCall Scene.init l := rfl
      rw [hfold, h, ih]
      rw [List.reverse_singleton, List.singleton_append, List.take_succ_cons]
      show (c :: List.take 8 l.reverse).take 8 = c :: List.take 7 l.reverse
      rw [List.take_succ_cons, List.take_take]
      rfl
    · rw [ih, List.length_take] at h
      omega

/-- C28: after any sequence of calls of `addToLog` from the start of the scene, the log is
the entries of the last 8 calls (of all of them when there were fewer), newest first, so it
has at most 8 entries; after a call on any log the new entry is at index 0; and a call on a
log of 8 entries gives the new entry followed by the old log without its last, oldest,
entry: the other seven, in their order. -/
theorem addToLog_keeps_newest_eight (calls : List LogEntry) (s : Scene)
    (n c r : JsString) (now : Nat) :
    (logCalls calls).conversationLog = calls.reverse.take 8 ∧
    (logCalls calls).conversationLog.length ≤ 8 ∧
    (addToLog s n c r now).conversationLog[0]?
      = some { speakerName := n, content := c, role := r, time := now } ∧
    (s.conversationLog.length = 8 →
      (addToLog s n c r now).conversationLog =
        { speakerName := n, content := c, role := r, time := now }
          :: s.conversationLog.dropLast ∧
      s.conversationLog.dropLast = s.conversationLog.take 7 ∧
      (addToLog s n c r now).conversationLog.length = 8) := by
  refine ⟨logCalls_eq calls, ?_, ?_, ?_⟩
  · rw [logCalls_eq, List.length_take]
    omega
  · unfold addToLog maxLogEntries
    dsimp only
    split
    · rename_i hlen
      cases hlog : s.conversationLog with
      | nil => rw [hlog] at hlen; simp at hlen
      | cons e rest => simp [List.dropLast]
    · simp
  · intro h8
    have hlen : ({ speakerName := n, content := c, role := r, time := now } ::
        s.conversationLog : List LogEntry).length > 8 := by simp [h8]
    have hne : s.conversationLog ≠ [] := by
      intro he
      rw [he] at h8
      cases h8
    have hcall : (addToLog s n c r now).conversationLog =
        { speakerName := n, content := c, role := r, time := now }
          :: s.conversationLog.dropLast := by
      unfold addToLog maxLogEntries
      dsimp only
      rw [if_pos hlen, List.dropLast_cons_of_ne_nil hne]
    refine ⟨hcall, ?_, ?_⟩
    · rw [List.dropLast_eq_take, h8]
    · rw [hcall, List.length_cons, List.length_dropLast, h8]

/-- C28 at nine calls, at the times 0 to 8: after the first eight the log holds their
entries, newest first; the call at time 8 puts its entry first and drops the entry of
time 0. -/
theorem addToLog_keeps_newest_eight_witness :
    (logCalls (nineCalls.take 8)).conversationLog.length = 8 ∧
    (logCalls (nineCalls.take 8)).conversationLog = ((List.range 8).map sampleCall).reverse ∧
    (logCalls nineCalls).conversationLog =
      sampleCall 8 :: (logCalls (nineCalls.take 8)).conversationLog.dropLast ∧
    (logCalls nineCalls).conversationLog =
      [sampleCall 8, sampleCall 7, sampleCall 6, sampleCall 5, sampleCall 4, sampleCall 3,
       sampleCall 2, sampleCall 1] := by
  obtain ⟨_, _, _, h⟩ := addToLog_keeps_newest_eight [] (logCalls (nineCalls.take 8))
    (js "A") (js "Hi") (js "recruiter") 8
  obtain ⟨h1, _, _⟩ := h (by decide)
  exact ⟨by decide, by decide, h1, by decide⟩

/-! ## `wrapText` -/

/-- C30: `wrapText` returns lines longer than `charsPerLine`. With the width and the font
size that `createSpeechBubble` passes (288 and 18, so `charsPerLine` is 29), a text of one
word of 60 characters is returned as a line of 29 and a line of 31 characters: the rest of a
broken word is not broken again; and the text `'a '` followed by a word of 40 characters is
returned as the lines `'a'` and that word, whole: a word that follows a non-empty line is
not broken at all. -/
theorem wrapText_long_word_overflows :
    charsPerLine 288 18 = 29 ∧
    wrapText longWord 288 18 = [List.replicate 29 97, List.replicate 31 97] ∧
    (∃ line ∈ wrapText longWord 288 18, (line.length : Int) > charsPerLine 288 18) ∧
    wrapText shortThenLong 288 18 = [js "a", List.replicate 40 98] ∧
    (∃ line ∈ wrapText shortThenLong 288 18, (line.length : Int) > charsPerLine 288 18) := by
  have h0 : charsPerLine 288 18 = 29 := by
    unfold charsPerLine
    rw [Int.floor_eq_iff]
    norm_num
  have h1 : wrapText longWord 288 18 = [List.replicate 29 97, List.replicate 31 97] := by
    unfold wrapText
    rw [h0]
    decide
  have h2 : wrapText shortThenLong 288 18 = [js "a", List.replicate 40 98] := by
    unfold wrapText
    rw [h0]
    decide
  refine ⟨h0, h1, ⟨List.replicate 31 97, ?_, ?_⟩, h2, ⟨List.replicate 40 98, ?_, ?_⟩⟩
  · rw [h1]; simp
  · rw [h0]; decide
  · rw [h2]; simp
  · rw [h0]; decide

theorem wrapWord_le (cpl : Int) (st : List JsString × JsString) (word : JsString)
    (hw : (word.length : Int) ≤ cpl)
    (hl : ∀ line ∈ st.1, (line.length : Int) ≤ cpl) (hc : (st.2.length : Int) ≤ cpl) :
    (∀ line ∈ (wrapWord cpl st word).1, (line.length : Int) ≤ cpl) ∧
    ((wrapWord cpl st word).2.length : Int) ≤ cpl := by
  unfold wrapWord
  dsimp only
  by_cases hcur : st.2 = []
  · simp only [hcur, ne_eq, not_true_eq_false, ↓reduceIte]
    have : ¬ (word.length : Int) > cpl := by omega
    rw [if_neg this]
    exact ⟨hl, hw⟩
  · simp only [ne_eq, hcur, not_false_eq_true, ↓reduceIte]
    split
    · refine ⟨?_, hw⟩
      intro line hline
      rcases List.mem_append.mp hline with h | h
      · exact hl line h
      · rw [List.mem_singleton] at h
        rw [h]; exact hc
    · rename_i hle
      exact ⟨hl, by push_cast at hle ⊢; omega⟩

theorem foldl_wrapWord_le (cpl : Int) (words : List JsString) (st : List JsString × JsString)
    (hw : ∀ word ∈ words, (word.length : Int) ≤ cpl)
    (hl : ∀ line ∈ st.1, (line.length : Int) ≤ cpl) (hc : (st.2.length : Int) ≤ cpl) :
    (∀ line ∈ (words.foldl (wrapWord cpl) st).1, (line.length : Int) ≤ cpl) ∧
    ((words.foldl (wrapWord cpl) st).2.length : Int) ≤ cpl := by
  induction words generalizing st with
  | nil => exact ⟨hl, hc⟩
  | cons word words ih =>
    rw [List.foldl_cons]
    obtain ⟨h1, h2⟩ := wrapWord_le cpl st word (hw word (List.mem_cons_self _ _)) hl hc
    exact ih _ (fun x hx => hw x (List.mem_cons_of_mem _ hx)) h1 h2

/-- What `wrapText` does keep: when no word of the text is longer than `charsPerLine`, no
line that it returns is. -/
theorem wrapText_lines_le_of_short_words (text : JsString) (maxWidth fontSize : ℚ)
    (hpos : 1 ≤ charsPerLine maxWidth fontSize)
    (hw : ∀ word ∈ split text 32, (word.length : Int) ≤ charsPerLine maxWidth fontSize) :
    ∀ line ∈ wrapText text maxWidth fontSize,
      (line.length : Int) ≤ charsPerLine maxWidth fontSize := by
  intro line hline
  unfold wrapText at hline
  dsimp only at hline
  have hline2 := List.mem_of_mem_take hline
  obtain ⟨h1, h2⟩ := foldl_wrapWord_le (charsPerLine maxWidth fontSize) (split text 32) ([], [])
    hw (fun x hx => by cases hx) (by simp; omega)
  split at hline2
  · rcases List.mem_append.mp hline2 with h | h
    · exact h1 line h
    · rw [List.mem_singleton] at h
      rw [h]; exact h2
  · exact h1 line hline2

end Doppel
